import Mathlib

/-!
Verification development for the spotter-backend HOS trip planner.

This file gives a shallow embedding, over exact rational arithmetic, of the
core of the repository:

  * `src/trips/services/hos_calculator.py` (`HOSCalculator`, `HOSState`),
  * `src/trips/services/log_generator.py`  (`LogGenerator`),
  * `src/trips/services/routing.py`        (`RoutingService.get_point_along_route`).

Modelling conventions:

  * Python floats are modelled as `ℚ` (exact real-number semantics of the same
    formulas); IEEE rounding and the microsecond quantisation of `timedelta`
    are not modelled.
  * `datetime` values are modelled as rational hours since midnight of day 0
    of the trip; `.date()` is `⌊t / 24⌋`, and date subtraction `.days` is
    integer subtraction of those floors.
  * Python's banker's rounding `round(x, d)` is modelled by `pyround`, and the
    float modulo `x % y` (sign of the divisor, `x - y*⌊x/y⌋`) by `pymod`.
  * The planner's helper `_get_coords_at_mile(geometry, m)` (which goes through
    `RoutingService.get_point_along_route` and real haversine distances) is
    passed to the planner as an abstract function `coordsAt : ℚ → ℚ × ℚ`;
    `get_point_along_route` itself is embedded separately, parametrised by the
    segment-distance function.
  * The reverse geocoder callback is an abstract `ℚ → ℚ → Option String`.
  * Each emitted stop record carries, besides the dictionary fields of the
    source, ghost observation fields `g_driving`, `g_on_duty`, `g_since_break`,
    `g_cycle`, `g_odo` recording `self.state` at the top of `_add_stop` (the
    stop boundary).  They are observations only: no operation reads them.
  * The unbounded `while` loop of `_drive_segment` is embedded with an explicit
    fuel parameter (`drive_loop`), returning `none` on fuel exhaustion; the
    actual planner entry point supplies a fuel bound proved sufficient.
-/

/-! ## Python numeric primitives -/

/-- Round a rational to the nearest integer, ties to even (Python `round`). -/
def round_half_even (x : ℚ) : ℤ :=
  if x - (⌊x⌋ : ℚ) < 1/2 then ⌊x⌋
  else if 1/2 < x - (⌊x⌋ : ℚ) then ⌊x⌋ + 1
  else if ⌊x⌋ % 2 = 0 then ⌊x⌋ else ⌊x⌋ + 1

/-- Python `round(x, d)` on exact rationals. -/
def pyround (x : ℚ) (d : ℕ) : ℚ :=
  (round_half_even (x * (10 : ℚ) ^ d) : ℚ) / (10 : ℚ) ^ d

/-- Python `x % y` for floats: `x - y * floor (x / y)` (sign of the divisor). -/
def pymod (x y : ℚ) : ℚ := x - y * (⌊x / y⌋ : ℚ)

/-! ## Planner data model (`hos_calculator.py`) -/

/-- Duty status enumeration used for stops and log segments. -/
inductive Status where
  | off_duty | sleeper | driving | on_duty
deriving DecidableEq, Repr

/-- Stop type enumeration; `brk` is the source string `'break'` and
`stop_end` is the source string `'end'`. -/
inductive StopType where
  | start | pickup | dropoff | stop_end | brk | rest | pre_trip | fuel
deriving DecidableEq, Repr

/-- The mutable HOS counters (`HOSState` dataclass). -/
structure HOSState where
  driving_hours_today : ℚ
  on_duty_hours_today : ℚ
  hours_since_last_break : ℚ
  cycle_hours_used : ℚ
  current_time : ℚ
  current_miles : ℚ
deriving DecidableEq, Repr

/-- An emitted stop (`_add_stop` dictionary) plus ghost state observations. -/
structure Stop where
  sid : ℕ
  stype : StopType
  location : String
  lat : ℚ
  lng : ℚ
  arrival_time : ℚ
  departure_time : ℚ
  duration_minutes : ℕ
  cumulative_miles : ℚ
  cumulative_driving_hours : ℚ
  day : ℤ
  duty_status : Status
  notes : String
  g_driving : ℚ
  g_on_duty : ℚ
  g_since_break : ℚ
  g_cycle : ℚ
  g_odo : ℚ
deriving DecidableEq, Repr

/-- The calculator object: `self.state`, `self.stops`, `self.stop_id`. -/
structure Calc where
  state : HOSState
  stops : List Stop
  stop_id : ℕ
deriving DecidableEq, Repr

/-- `HOSCalculator.__init__` with an explicit start time and cycle seed. -/
def hos_init (start_time current_cycle_hours : ℚ) : Calc :=
  { state := { driving_hours_today := 0, on_duty_hours_today := 0,
               hours_since_last_break := 0, cycle_hours_used := current_cycle_hours,
               current_time := start_time, current_miles := 0 },
    stops := [], stop_id := 0 }

/-- `HOSCalculator._state_to_abbrev`. -/
def state_to_abbrev (state : String) : String :=
  let states : List (String × String) :=
    [("Alabama", "AL"), ("Alaska", "AK"), ("Arizona", "AZ"), ("Arkansas", "AR"),
     ("California", "CA"), ("Colorado", "CO"), ("Connecticut", "CT"), ("Delaware", "DE"),
     ("Florida", "FL"), ("Georgia", "GA"), ("Hawaii", "HI"), ("Idaho", "ID"),
     ("Illinois", "IL"), ("Indiana", "IN"), ("Iowa", "IA"), ("Kansas", "KS"),
     ("Kentucky", "KY"), ("Louisiana", "LA"), ("Maine", "ME"), ("Maryland", "MD"),
     ("Massachusetts", "MA"), ("Michigan", "MI"), ("Minnesota", "MN"), ("Mississippi", "MS"),
     ("Missouri", "MO"), ("Montana", "MT"), ("Nebraska", "NE"), ("Nevada", "NV"),
     ("New Hampshire", "NH"), ("New Jersey", "NJ"), ("New Mexico", "NM"), ("New York", "NY"),
     ("North Carolina", "NC"), ("North Dakota", "ND"), ("Ohio", "OH"), ("Oklahoma", "OK"),
     ("Oregon", "OR"), ("Pennsylvania", "PA"), ("Rhode Island", "RI"), ("South Carolina", "SC"),
     ("South Dakota", "SD"), ("Tennessee", "TN"), ("Texas", "TX"), ("Utah", "UT"),
     ("Vermont", "VT"), ("Virginia", "VA"), ("Washington", "WA"), ("West Virginia", "WV"),
     ("Wisconsin", "WI"), ("Wyoming", "WY")]
  match states.lookup state with
  | some a => a
  | none => (state.take 2).toUpper

/-- State names checked by `_format_location` (the source list omits Alaska,
Hawaii and West Virginia). -/
def format_state_names : List String :=
  ["California", "Arizona", "Texas", "New Mexico", "Nevada", "Oklahoma", "Arkansas",
   "Louisiana", "Mississippi", "Alabama", "Georgia", "Florida", "South Carolina",
   "North Carolina", "Virginia", "Tennessee", "Kentucky", "Missouri", "Kansas",
   "Colorado", "Utah", "Oregon", "Washington", "Idaho", "Montana", "Wyoming",
   "Nebraska", "South Dakota", "North Dakota", "Minnesota", "Iowa", "Wisconsin",
   "Illinois", "Indiana", "Ohio", "Michigan", "Pennsylvania", "New York",
   "New Jersey", "Maryland", "Delaware", "Connecticut", "Massachusetts",
   "Rhode Island", "Vermont", "New Hampshire", "Maine"]

/-- Scan of the `for part in parts[1:]` loop inside `_format_location`:
returns the formatted string for the first matching part, if any.
Python `str.isupper()` on a two-character part is modelled as: some cased
character, and no lowercase character. -/
def format_location_scan (city : String) : List String → Option String
  | [] => none
  | p :: rest =>
    let part := p.trim
    if part.length = 2 ∧ part.toList.any Char.isUpper ∧ part.toList.all (fun ch => ¬ ch.isLower) then
      some (city ++ ", " ++ part)
    else if part ∈ format_state_names then
      some (city ++ ", " ++ state_to_abbrev part)
    else
      format_location_scan city rest

/-- `HOSCalculator._format_location`. -/
def format_location (location : String) : String :=
  if location = "" then "Unknown Location"
  else
    let parts := location.splitOn ","
    let fallback := if location.length > 50 then location.take 50 else location
    match parts with
    | [] => fallback
    | [_] => fallback
    | city :: restParts =>
      match format_location_scan city.trim restParts with
      | some s => s
      | none => fallback

/-- The stop dictionary built by `HOSCalculator._add_stop`.  The ghost `g_*`
fields record `self.state` at the top of the call (the stop boundary);
everything else follows the source dictionary, with times in rational hours. -/
def mk_stop (c : Calc) (stype : StopType) (location : String) (coords : ℚ × ℚ)
    (duration_minutes : ℕ) (duty_status : Status) (notes : String) : Stop :=
  let start_of_trip : ℚ :=
    match c.stops.head? with
    | some st => st.arrival_time
    | none => c.state.current_time
  let arrival_time := c.state.current_time
  { sid := c.stop_id + 1, stype := stype, location := format_location location,
    lat := coords.1, lng := coords.2,
    arrival_time := arrival_time,
    departure_time := arrival_time + (duration_minutes : ℚ) / 60,
    duration_minutes := duration_minutes,
    cumulative_miles := pyround c.state.current_miles 1,
    cumulative_driving_hours := pyround c.state.driving_hours_today 2,
    day := (⌊arrival_time / 24⌋ - ⌊start_of_trip / 24⌋) + 1,
    duty_status := duty_status, notes := notes,
    g_driving := c.state.driving_hours_today,
    g_on_duty := c.state.on_duty_hours_today,
    g_since_break := c.state.hours_since_last_break,
    g_cycle := c.state.cycle_hours_used,
    g_odo := c.state.current_miles }

/-- `HOSCalculator._add_stop`. -/
def add_stop (c : Calc) (stype : StopType) (location : String) (coords : ℚ × ℚ)
    (duration_minutes : ℕ) (duty_status : Status) (notes : String) : Calc :=
  let stop := mk_stop c stype location coords duration_minutes duty_status notes
  let st1 :=
    if duty_status = Status.on_duty then
      { c.state with
          on_duty_hours_today := c.state.on_duty_hours_today + (duration_minutes : ℚ) / 60,
          cycle_hours_used := c.state.cycle_hours_used + (duration_minutes : ℚ) / 60 }
    else c.state
  { state := { st1 with current_time := stop.departure_time },
    stops := c.stops ++ [stop], stop_id := c.stop_id + 1 }

/-- `HOSCalculator._miles_until_break`. -/
def miles_until_break (s : HOSState) : ℚ :=
  max 0 ((8 - s.hours_since_last_break) * 55)

/-- `HOSCalculator._miles_until_rest`. -/
def miles_until_rest (s : HOSState) : ℚ :=
  max 0 ((11 - s.driving_hours_today) * 55)

/-- `HOSCalculator._miles_until_fuel`. -/
def miles_until_fuel (s : HOSState) : ℚ :=
  1000 - pymod s.current_miles 1000

/-- `HOSCalculator._needs_fuel`. -/
def needs_fuel (s : HOSState) : Prop :=
  0 < s.current_miles ∧ pymod s.current_miles 1000 = 0

instance (s : HOSState) : Decidable (needs_fuel s) := by
  unfold needs_fuel; infer_instance

/-- `HOSCalculator._update_state_for_driving`. -/
def update_state_for_driving (s : HOSState) (hours miles : ℚ) : HOSState :=
  { s with
      driving_hours_today := s.driving_hours_today + hours,
      on_duty_hours_today := s.on_duty_hours_today + hours,
      hours_since_last_break := s.hours_since_last_break + hours,
      cycle_hours_used := s.cycle_hours_used + hours,
      current_time := s.current_time + hours,
      current_miles := s.current_miles + miles }

/-- Python `geocoder.reverse_geocode(...) or 'Unknown Location'` (both `None`
and the empty string fall back). -/
def reverse_or_unknown (geocoder : ℚ → ℚ → Option String) (lat lng : ℚ) : String :=
  match geocoder lat lng with
  | none => "Unknown Location"
  | some s => if s = "" then "Unknown Location" else s

/-- The `location` computed at the start of `_take_break` / `_take_rest` /
`_take_fuel_stop`: reverse-geocode the interpolated coordinate. -/
def stop_location (coordsAt : ℚ → ℚ × ℚ) (geocoder : ℚ → ℚ → Option String)
    (current_miles : ℚ) : String :=
  reverse_or_unknown geocoder (coordsAt current_miles).1 (coordsAt current_miles).2

/-- The counter reset performed after the break stop is emitted
(`self.state.hours_since_last_break = 0`). -/
def break_reset (c : Calc) : Calc :=
  { c with state := { c.state with hours_since_last_break := 0 } }

/-- The daily-limit reset performed after the rest stop is emitted. -/
def rest_reset (c : Calc) : Calc :=
  { c with state := { c.state with
      driving_hours_today := 0, on_duty_hours_today := 0, hours_since_last_break := 0 } }

/-- `HOSCalculator._take_break`. -/
def take_break (c : Calc) (coordsAt : ℚ → ℚ × ℚ) (geocoder : ℚ → ℚ → Option String)
    (current_miles : ℚ) : Calc :=
  break_reset (add_stop c .brk (stop_location coordsAt geocoder current_miles)
    (coordsAt current_miles) 30 .off_duty "30-minute break (8 hours driving)")

/-- `HOSCalculator._take_rest` (including the trailing `pre_trip` stop). -/
def take_rest (c : Calc) (coordsAt : ℚ → ℚ × ℚ) (geocoder : ℚ → ℚ → Option String)
    (current_miles : ℚ) : Calc :=
  add_stop
    (rest_reset (add_stop c .rest (stop_location coordsAt geocoder current_miles)
      (coordsAt current_miles) 600 .off_duty "10-hour rest (11-hour driving limit)"))
    .pre_trip (stop_location coordsAt geocoder current_miles)
    (coordsAt current_miles) 30 .on_duty "Pre-trip inspection"

/-- `HOSCalculator._take_fuel_stop`. -/
def take_fuel_stop (c : Calc) (coordsAt : ℚ → ℚ × ℚ) (geocoder : ℚ → ℚ → Option String)
    (current_miles : ℚ) : Calc :=
  add_stop c .fuel (stop_location coordsAt geocoder current_miles)
    (coordsAt current_miles) 30 .on_duty "Fuel stop (1,000 miles)"

/-- Result of one pass of the `while remaining_distance > 0` body in
`_drive_segment`: either the loop guard failed (`exit`), or one iteration ran
(`next`, with the updated calculator and remaining distance). -/
inductive IterResult where
  | exit (c : Calc)
  | next (c : Calc) (rem : ℚ)
deriving Repr

/-- The `max_drivable` expression of `_drive_segment`:
`min(remaining_distance, miles_until_break, miles_until_rest, miles_until_fuel)`. -/
def drivable (c : Calc) (rem : ℚ) : ℚ :=
  min (min (min rem (miles_until_break c.state)) (miles_until_rest c.state))
    (miles_until_fuel c.state)

/-- The calculator after driving the drivable chunk:
`_update_state_for_driving(max_drivable / 55, max_drivable)`. -/
def after_chunk (c : Calc) (rem : ℚ) : Calc :=
  { c with state := update_state_for_driving c.state (drivable c rem / 55) (drivable c rem) }

/-- One check-and-iteration of the `_drive_segment` loop, exactly following
the source control flow (the `continue` of the `max_drivable <= 0` branch,
and the `elif` chain after a driven chunk). -/
def drive_iterate (coordsAt : ℚ → ℚ × ℚ) (geocoder : ℚ → ℚ → Option String)
    (distance_miles start_miles : ℚ) (c : Calc) (rem : ℚ) : IterResult :=
  if 0 < rem then
    if drivable c rem ≤ 0 then
      if 11 ≤ c.state.driving_hours_today then
        .next (take_rest c coordsAt geocoder (start_miles + (distance_miles - rem))) rem
      else if 8 ≤ c.state.hours_since_last_break then
        .next (take_break c coordsAt geocoder (start_miles + (distance_miles - rem))) rem
      else
        .next c rem
    else
      if 0 < rem - drivable c rem then
        if 11 ≤ (after_chunk c rem).state.driving_hours_today then
          .next (take_rest (after_chunk c rem) coordsAt geocoder
                  (start_miles + (distance_miles - (rem - drivable c rem)))) (rem - drivable c rem)
        else if 8 ≤ (after_chunk c rem).state.hours_since_last_break then
          .next (take_break (after_chunk c rem) coordsAt geocoder
                  (start_miles + (distance_miles - (rem - drivable c rem)))) (rem - drivable c rem)
        else if needs_fuel (after_chunk c rem).state then
          .next (take_fuel_stop (after_chunk c rem) coordsAt geocoder
                  (start_miles + (distance_miles - (rem - drivable c rem)))) (rem - drivable c rem)
        else
          .next (after_chunk c rem) (rem - drivable c rem)
      else
        .next (after_chunk c rem) (rem - drivable c rem)
  else
    .exit c

/-- Fuelled unfolding of the `_drive_segment` while loop; `none` means the
fuel ran out before the loop guard failed.  (The source loop is unbounded;
`phi_measure` below provides a sufficient fuel.) -/
def drive_loop (coordsAt : ℚ → ℚ × ℚ) (geocoder : ℚ → ℚ → Option String)
    (distance_miles start_miles : ℚ) : ℕ → Calc → ℚ → Option Calc
  | 0, _, _ => none
  | fuel + 1, c, rem =>
    match drive_iterate coordsAt geocoder distance_miles start_miles c rem with
    | .exit c' => some c'
    | .next c' rem' => drive_loop coordsAt geocoder distance_miles start_miles fuel c' rem'

/-- Termination measure for the drive loop: an upper bound on the number of
future rest, break and fuel stops within the remaining distance. -/
def phi_measure (c : Calc) (rem : ℚ) : ℕ :=
  (⌈(rem - miles_until_rest c.state) / 605⌉).toNat
    + (⌈(rem - miles_until_break c.state) / 440⌉).toNat
    + (⌈(rem - miles_until_fuel c.state) / 1000⌉).toNat

/-- `HOSCalculator._drive_segment`, run with the proved-sufficient fuel. -/
def drive_segment (coordsAt : ℚ → ℚ × ℚ) (geocoder : ℚ → ℚ → Option String)
    (distance_miles start_miles : ℚ) (c : Calc) : Option Calc :=
  drive_loop coordsAt geocoder distance_miles start_miles
    (phi_measure c distance_miles + 2) c distance_miles

/-- Route information consumed by `calculate_trip`:
`route_data['total_distance_miles']`, `route_data['legs'][0]['distance_miles']`
and `route_data['legs'][1]['distance_miles']`. -/
structure RouteData where
  total_distance_miles : ℚ
  leg0_distance_miles : ℚ
  leg1_distance_miles : ℚ
deriving DecidableEq, Repr

/-- A named location (`{'lat', 'lng', 'display_name'}`). -/
structure Loc where
  display_name : String
  lat : ℚ
  lng : ℚ
deriving DecidableEq, Repr

/-- `HOSCalculator.calculate_trip`.  The unused `end_location`/`end_coords`
parameters of `_drive_segment` are dropped (the source never reads them). -/
def calculate_trip (c0 : Calc) (rd : RouteData) (locCurrent locPickup locDropoff : Loc)
    (coordsAt : ℚ → ℚ × ℚ) (geocoder : ℚ → ℚ → Option String) : Option Calc :=
  let c := { c0 with stops := [], stop_id := 0 }
  let c := add_stop c .start locCurrent.display_name (locCurrent.lat, locCurrent.lng)
             30 .on_duty "Pre-trip inspection"
  match drive_segment coordsAt geocoder rd.leg0_distance_miles 0 c with
  | none => none
  | some c =>
    let c := add_stop c .pickup locPickup.display_name (locPickup.lat, locPickup.lng)
               60 .on_duty "Loading cargo"
    match drive_segment coordsAt geocoder rd.leg1_distance_miles rd.leg0_distance_miles c with
    | none => none
    | some c =>
      let c := add_stop c .dropoff locDropoff.display_name (locDropoff.lat, locDropoff.lng)
                 60 .on_duty "Unloading cargo"
      let c := add_stop c .stop_end locDropoff.display_name (locDropoff.lat, locDropoff.lng)
                 15 .on_duty "Post-trip inspection"
      some c

/-- `HOSCalculator.get_summary` result object. -/
structure Summary where
  total_distance_miles : ℚ
  total_duration_hours : ℚ
  total_days : ℤ
  fuel_stops : ℕ
  rest_breaks : ℕ
  rest_stops : ℕ
  cycle_hours_after : ℚ
deriving DecidableEq, Repr

/-- `HOSCalculator.get_summary`. -/
def get_summary (c : Calc) (total_distance : ℚ) : Summary :=
  let fuel_stops := (c.stops.filter (fun s => s.stype = .fuel)).length
  let rest_breaks := (c.stops.filter (fun s => s.stype = .brk)).length
  let rest_stops := (c.stops.filter (fun s => s.stype = .rest)).length
  match c.stops.head?, c.stops.getLast? with
  | some firstS, some lastS =>
    { total_distance_miles := pyround total_distance 1,
      total_duration_hours := pyround (lastS.departure_time - firstS.arrival_time) 1,
      total_days := max 1 lastS.day,
      fuel_stops := fuel_stops, rest_breaks := rest_breaks, rest_stops := rest_stops,
      cycle_hours_after := pyround c.state.cycle_hours_used 1 }
  | _, _ =>
    { total_distance_miles := pyround total_distance 1,
      total_duration_hours := 0, total_days := 0,
      fuel_stops := fuel_stops, rest_breaks := rest_breaks, rest_stops := rest_stops,
      cycle_hours_after := pyround c.state.cycle_hours_used 1 }

/-! ## Log generator data model (`log_generator.py`) -/

/-- A duty-status change event (`_create_event_timeline` dictionaries).
The source sorts events by their ISO-8601 `time` strings, which for these
values coincides with chronological order; `time` is the rational hour. -/
structure Event where
  time : ℚ
  status : Status
  location : String
  notes : String
  etype : String
  stop_type : String
deriving DecidableEq, Repr

/-- A duty-status segment of a log sheet. -/
structure Seg where
  status : Status
  start_hour : ℚ
  end_hour : ℚ
  location : String
  notes : String
deriving DecidableEq, Repr

/-- Per-status totals of a log sheet. -/
structure Totals where
  off_duty : ℚ
  sleeper : ℚ
  driving : ℚ
  on_duty : ℚ
deriving DecidableEq, Repr

/-- A remark entry; `time` is the stop's arrival hour (source formats HH:MM). -/
structure Remark where
  time : ℚ
  location : String
  activity : String
deriving DecidableEq, Repr

/-- A daily log sheet; `date` is the calendar-day index `⌊t/24⌋`
(source formats MM/DD/YYYY). -/
structure Sheet where
  date : ℤ
  day_number : ℕ
  total_miles : ℚ
  segments : List Seg
  totals : Totals
  remarks : List Remark
deriving DecidableEq, Repr

/-- The source string of a stop type (`stop['type']`). -/
def stop_type_str : StopType → String
  | .start => "start" | .pickup => "pickup" | .dropoff => "dropoff" | .stop_end => "end"
  | .brk => "break" | .rest => "rest" | .pre_trip => "pre_trip" | .fuel => "fuel"

/-- Arrival event of a stop in `_create_event_timeline`. -/
def arr_event (stop : Stop) : Event :=
  let status :=
    if stop.stype = .rest ∨ stop.stype = .brk then Status.off_duty
    else if stop.duty_status = Status.off_duty then Status.off_duty
    else Status.on_duty
  { time := stop.arrival_time, status := status, location := stop.location,
    notes := stop.notes, etype := "stop_start", stop_type := stop_type_str stop.stype }

/-- Departure event of a non-final stop (start driving to the next stop). -/
def dep_event (stop next : Stop) : Event :=
  { time := stop.departure_time, status := Status.driving, location := "En route",
    notes := "Driving to " ++ next.location, etype := "driving_start", stop_type := "driving" }

/-- Departure event of the final stop (trip complete, off duty). -/
def last_dep_event (stop : Stop) : Event :=
  { time := stop.departure_time, status := Status.off_duty, location := stop.location,
    notes := "Trip complete", etype := "trip_end", stop_type := "end" }

/-- The unsorted event list of `_create_event_timeline`. -/
def timeline_events : List Stop → List Event
  | [] => []
  | [stop] => [arr_event stop, last_dep_event stop]
  | stop :: next :: rest => arr_event stop :: dep_event stop next :: timeline_events (next :: rest)

/-- Stable insertion into a time-sorted event list (inserts before the first
strictly later event, so earlier list elements stay first on ties). -/
def sinsert (e : Event) : List Event → List Event
  | [] => [e]
  | x :: xs => if e.time ≤ x.time then e :: x :: xs else x :: sinsert e xs

/-- Stable sort by time, modelling `events.sort(key=lambda x: x['time'])`. -/
def sort_events (l : List Event) : List Event := l.foldr sinsert []

/-- `LogGenerator._create_event_timeline`. -/
def create_event_timeline (stops : List Stop) : List Event :=
  sort_events (timeline_events stops)

/-- Python `min(events, key=...)`: first element with minimal key. -/
def py_min_by_time (l : List Event) : Option Event :=
  l.foldl (fun acc e =>
    match acc with
    | none => some e
    | some m => if e.time < m.time then some e else some m) none

/-- Python `max(events, key=...)`: first element with maximal key. -/
def py_max_by_time (l : List Event) : Option Event :=
  l.foldl (fun acc e =>
    match acc with
    | none => some e
    | some m => if m.time < e.time then some e else some m) none

/-- The `for ... break` scan of `_get_status_at_time`: the last event strictly
before `target`, stopping at the first event at or after it. -/
def last_event_before (target : ℚ) : List Event → Option Event
  | [] => none
  | e :: rest =>
    if e.time < target then
      match last_event_before target rest with
      | some x => some x
      | none => some e
    else none

/-- `LogGenerator._get_status_at_time` (status and location). -/
def get_status_at_time (target : ℚ) (events : List Event) (day_num : ℕ) : Status × String :=
  if day_num = 1 then (Status.off_duty, "")
  else
    match last_event_before target events with
    | some e => (e.status, e.location)
    | none => (Status.off_duty, "")

/-- `LogGenerator._time_to_hours`: hour-of-day as `h + m/60 + s/3600`
(sub-second part of the timestamp is dropped). -/
def time_to_hours (t : ℚ) : ℚ :=
  let tod := t - 24 * (⌊t / 24⌋ : ℚ)
  (⌊tod * 3600⌋ : ℚ) / 3600

/-- The segment-building walk of `_generate_day_segments` (the event loop and
the final fill-to-24), starting from the carried hour, status and location. -/
def build_segments (cur : ℚ) (curStatus : Status) (curLoc : String) : List Event → List Seg
  | [] =>
    if cur < 24 then
      [{ status := curStatus, start_hour := pyround cur 2, end_hour := 24, location := curLoc, notes := "" }]
    else []
  | e :: rest =>
    let eh := time_to_hours e.time
    (if cur + 1/1000 < eh then
      [{ status := curStatus, start_hour := pyround cur 2, end_hour := pyround eh 2, location := curLoc, notes := "" }]
     else []) ++ build_segments eh e.status e.location rest

/-- The accumulator step of `_merge_segments`. -/
def merge_go (cur : Seg) : List Seg → List Seg
  | [] => [cur]
  | t :: rest =>
    if t.status = cur.status then
      let loc := if t.location ≠ "" ∧ cur.location = "" then t.location else cur.location
      merge_go { cur with end_hour := t.end_hour, location := loc } rest
    else cur :: merge_go t rest

/-- `LogGenerator._merge_segments`. -/
def merge_segments : List Seg → List Seg
  | [] => []
  | s :: rest => merge_go s rest

/-- Replace the last segment's `end_hour` (in-place update of
`normalized[-1]['end_hour']`). -/
def set_last_end (l : List Seg) (v : ℚ) : List Seg :=
  match l.getLast? with
  | none => l
  | some last => l.dropLast ++ [{ last with end_hour := v }]

/-- The main loop of `_normalize_segments` (gap fix against the previous
normalized segment, then append with start/end rounded to one decimal). -/
def norm_loop (acc : List Seg) : List Seg → List Seg
  | [] => acc
  | seg :: rest =>
    let acc1 :=
      match acc.getLast? with
      | some prev =>
        if prev.end_hour + 1/1000 < seg.start_hour then set_last_end acc seg.start_hour else acc
      | none => acc
    norm_loop (acc1 ++ [{ status := seg.status, start_hour := pyround seg.start_hour 1,
                          end_hour := pyround seg.end_hour 1, location := seg.location,
                          notes := seg.notes }]) rest

/-- `LogGenerator._normalize_segments`. -/
def normalize_segments (segs : List Seg) : List Seg :=
  match segs with
  | [] => [{ status := Status.off_duty, start_hour := 0, end_hour := 24, location := "", notes := "" }]
  | _ :: _ =>
    let normalized := norm_loop [] segs
    let normalized :=
      match normalized with
      | [] => []
      | s :: rest => if 0 < s.start_hour then { s with start_hour := 0 } :: rest else s :: rest
    match normalized.getLast? with
    | some last => if last.end_hour < 24 then set_last_end normalized 24 else normalized
    | none => normalized

/-- `LogGenerator._generate_day_segments`. -/
def generate_day_segments (day_start day_end : ℚ) (events : List Event) (day_num : ℕ) : List Seg :=
  let day_events := events.filter (fun e => day_start ≤ e.time ∧ e.time < day_end)
  let init := get_status_at_time day_start events day_num
  normalize_segments (merge_segments (build_segments 0 init.1 init.2 day_events))

/-- Sum of the four per-status totals. -/
def totals_sum (t : Totals) : ℚ := t.off_duty + t.sleeper + t.driving + t.on_duty

/-- One segment's contribution to the totals (`hours > 0` guard as in source). -/
def add_seg_hours (t : Totals) (seg : Seg) : Totals :=
  let hours := seg.end_hour - seg.start_hour
  if 0 < hours then
    match seg.status with
    | .off_duty => { t with off_duty := t.off_duty + hours }
    | .sleeper => { t with sleeper := t.sleeper + hours }
    | .driving => { t with driving := t.driving + hours }
    | .on_duty => { t with on_duty := t.on_duty + hours }
  else t

/-- Python `max(totals, key=totals.get)`: first key (in insertion order
off_duty, sleeper, driving, on_duty) attaining the maximal value. -/
def totals_max_key (t : Totals) : Status :=
  let p1 : Status × ℚ := (Status.off_duty, t.off_duty)
  let p2 := if p1.2 < t.sleeper then (Status.sleeper, t.sleeper) else p1
  let p3 := if p2.2 < t.driving then (Status.driving, t.driving) else p2
  let p4 := if p3.2 < t.on_duty then (Status.on_duty, t.on_duty) else p3
  p4.1

/-- `LogGenerator._calculate_totals`. -/
def calculate_totals (segments : List Seg) : Totals :=
  let t0 := segments.foldl add_seg_hours { off_duty := 0, sleeper := 0, driving := 0, on_duty := 0 }
  let t : Totals := { off_duty := pyround t0.off_duty 1, sleeper := pyround t0.sleeper 1,
                      driving := pyround t0.driving 1, on_duty := pyround t0.on_duty 1 }
  let total := totals_sum t
  if 1/2 < |total - 24| then
    let diff := 24 - total
    match totals_max_key t with
    | .off_duty => { t with off_duty := pyround (t.off_duty + diff) 1 }
    | .sleeper => { t with sleeper := pyround (t.sleeper + diff) 1 }
    | .driving => { t with driving := pyround (t.driving + diff) 1 }
    | .on_duty => { t with on_duty := pyround (t.on_duty + diff) 1 }
  else t

/-- The `for ... break` scan for the previous day's last cumulative miles in
`_calculate_day_miles`. -/
def prev_day_miles_scan (day_start : ℚ) (prev : ℚ) : List Stop → ℚ
  | [] => prev
  | st :: rest =>
    if st.arrival_time < day_start then prev_day_miles_scan day_start st.cumulative_miles rest
    else prev

/-- `LogGenerator._calculate_day_miles`. -/
def calculate_day_miles (date : ℤ) (stops : List Stop) : ℚ :=
  let day_start : ℚ := 24 * (date : ℚ)
  let day_end := day_start + 24
  let day_stops := stops.filter (fun st => day_start ≤ st.arrival_time ∧ st.arrival_time < day_end)
  match day_stops.getLast? with
  | none => 0
  | some lastOfDay =>
    let last_miles := lastOfDay.cumulative_miles
    match stops.head? with
    | some s0 =>
      if date = ⌊s0.arrival_time / 24⌋ then last_miles
      else last_miles - prev_day_miles_scan day_start 0 stops
    | none => last_miles - prev_day_miles_scan day_start 0 stops

/-- `LogGenerator._generate_remarks`. -/
def generate_remarks (date : ℤ) (stops : List Stop) : List Remark :=
  let day_start : ℚ := 24 * (date : ℚ)
  let day_end := day_start + 24
  (stops.filter (fun st => day_start ≤ st.arrival_time ∧ st.arrival_time < day_end)).map
    (fun st => { time := st.arrival_time, location := st.location, activity := st.notes })

/-- `LogGenerator._create_day_log`. -/
def create_day_log (date : ℤ) (day_num : ℕ) (events : List Event) (stops : List Stop) : Sheet :=
  let segments := generate_day_segments (24 * (date : ℚ)) (24 * (date : ℚ) + 24) events day_num
  { date := date, day_number := day_num,
    total_miles := pyround (calculate_day_miles date stops) 1,
    segments := segments,
    totals := calculate_totals segments,
    remarks := generate_remarks date stops }

/-- The `while current_date <= end_date` loop of `generate_logs`. -/
def days_loop (events : List Event) (stops : List Stop) (end_date : ℤ)
    (current : ℤ) (day_num : ℕ) : List Sheet :=
  if current ≤ end_date then
    create_day_log current day_num events stops :: days_loop events stops end_date (current + 1) (day_num + 1)
  else []
termination_by (end_date + 1 - current).toNat
decreasing_by simp_wf; omega

/-- `LogGenerator.generate_logs`. -/
def generate_logs (stops : List Stop) : List Sheet :=
  match stops with
  | [] => []
  | _ :: _ =>
    let events := create_event_timeline stops
    match py_min_by_time events, py_max_by_time events with
    | some fe, some le => days_loop events stops ⌊le.time / 24⌋ ⌊fe.time / 24⌋ 1
    | _, _ => []

/-! ## Route geometry helper (`routing.py`) -/

/-- The segment walk of `RoutingService.get_point_along_route`, parametrised
by the segment-distance function (the source uses `_haversine_distance`). -/
def walk_route (dist : (ℚ × ℚ) → (ℚ × ℚ) → ℚ) (p : ℚ × ℚ) :
    List (ℚ × ℚ) → ℚ → ℚ → Option (ℚ × ℚ)
  | [], _, _ => some p
  | q :: rest, target, cum =>
    let seg := dist p q
    if target ≤ cum + seg then
      let frac := if 0 < seg then (target - cum) / seg else 0
      some (p.1 + frac * (q.1 - p.1), p.2 + frac * (q.2 - p.2))
    else walk_route dist q rest target (cum + seg)

/-- `RoutingService.get_point_along_route`, parametrised by the
segment-distance function. -/
def get_point_along_route (dist : (ℚ × ℚ) → (ℚ × ℚ) → ℚ)
    (geometry : List (ℚ × ℚ)) (target : ℚ) : Option (ℚ × ℚ) :=
  match geometry with
  | [] => none
  | p :: rest =>
    if target ≤ 0 then some p
    else walk_route dist p rest target 0

/-- Total polyline length under the given segment-distance function. -/
def route_length (dist : (ℚ × ℚ) → (ℚ × ℚ) → ℚ) : List (ℚ × ℚ) → ℚ
  | [] => 0
  | [_] => 0
  | p :: q :: rest => dist p q + route_length dist (q :: rest)

/-- Cumulative length of the first `i` segments of a polyline: the value of
`cumulative_distance` when the walk in `get_point_along_route` examines
segment `i`. -/
def cum_len (dist : (ℚ × ℚ) → (ℚ × ℚ) → ℚ) : List (ℚ × ℚ) → ℕ → ℚ
  | _, 0 => 0
  | p :: q :: rest, i + 1 => dist p q + cum_len dist (q :: rest) i
  | _, _ + 1 => 0

/-- The interpolation fraction `ratio = (target - cumulative) / segment` of the
walk, `0` on a degenerate segment, applied to excess distance `t`. -/
def seg_frac (dist : (ℚ × ℚ) → (ℚ × ℚ) → ℚ) (pi pj : ℚ × ℚ) (t : ℚ) : ℚ :=
  if 0 < dist pi pj then t / dist pi pj else 0

/-! ## Full pipeline -/

/-- The response assembled per request: stops, log sheets, summary. -/
structure TripOutput where
  stops : List Stop
  log_sheets : List Sheet
  summary : Summary
deriving DecidableEq, Repr

/-- The planner-and-logs pipeline: `calculate_trip`, then `generate_logs` on
the stop list and `get_summary` on the calculator. -/
def plan_pipeline (c0 : Calc) (rd : RouteData) (locCurrent locPickup locDropoff : Loc)
    (coordsAt : ℚ → ℚ × ℚ) (geocoder : ℚ → ℚ → Option String) : Option TripOutput :=
  match calculate_trip c0 rd locCurrent locPickup locDropoff coordsAt geocoder with
  | none => none
  | some c =>
    some { stops := c.stops, log_sheets := generate_logs c.stops,
           summary := get_summary c rd.total_distance_miles }

/-! ## Verification-side predicates and concrete inputs -/

/-- Stop-boundary bounds asserted by the data-model invariant for the three
counters the code actually enforces. -/
def GoodStop (st : Stop) : Prop :=
  st.g_driving ≤ 11 ∧ st.g_on_duty ≤ 14 ∧ st.g_since_break ≤ 8

/-- Window invariant of the planner state: the break and driving counters are
within bounds, and since the start of the current rest window (odometer `w`)
the on-duty counter exceeds the driving counter by at most `cap` plus one
30-minute fuel stop, of which there has been at most one in the window. -/
def WInv (cap : ℚ) (c : Calc) : Prop :=
  0 ≤ c.state.hours_since_last_break ∧ c.state.hours_since_last_break ≤ 8 ∧
  0 ≤ c.state.driving_hours_today ∧ c.state.driving_hours_today ≤ 11 ∧
  ∃ w fc : ℚ, (fc = 0 ∨ fc = 1/2) ∧
    c.state.current_miles = w + 55 * c.state.driving_hours_today ∧
    c.state.on_duty_hours_today ≤ c.state.driving_hours_today + cap + fc ∧
    (fc = 1/2 → ∃ k : ℤ, w < 1000 * k ∧ (1000 * k : ℚ) ≤ c.state.current_miles)

/-- The window invariant together with boundary bounds for all emitted stops. -/
def GoodCalc (cap : ℚ) (c : Calc) : Prop :=
  WInv cap c ∧ ∀ st ∈ c.stops, GoodStop st

/-- Ordering relation between consecutive stops (claim on monotonicity). -/
def stop_mono (a b : Stop) : Prop :=
  a.departure_time ≤ b.arrival_time ∧ a.cumulative_miles ≤ b.cumulative_miles

/-- Monotonicity invariant threaded through the planner run. -/
def MonoCalc (c : Calc) : Prop :=
  List.Chain' stop_mono c.stops ∧
  ∀ st ∈ c.stops,
    st.departure_time = st.arrival_time + (st.duration_minutes : ℚ) / 60 ∧
    st.cumulative_miles = pyround st.g_odo 1 ∧
    st.departure_time ≤ c.state.current_time ∧
    st.g_odo ≤ c.state.current_miles

/-- What must hold of the stop following a rest stop `a`. -/
def rest_pair (a b : Stop) : Prop :=
  a.duration_minutes = 600 ∧ a.duty_status = Status.off_duty ∧
  b.stype = StopType.pre_trip ∧ b.lat = a.lat ∧ b.lng = a.lng ∧
  b.duration_minutes = 30 ∧ b.duty_status = Status.on_duty ∧
  b.arrival_time = a.arrival_time + 10 ∧
  b.g_driving = 0 ∧ b.g_on_duty = 0 ∧ b.g_since_break = 0 ∧ b.g_cycle = a.g_cycle

/-- Every rest stop in the list is immediately followed by its pre-trip stop. -/
def RFP (l : List Stop) : Prop :=
  ∀ i st, l.get? i = some st → st.stype = StopType.rest →
    ∃ st2, l.get? (i + 1) = some st2 ∧ rest_pair st st2

/-- The type of the first stop emitted by one loop iteration (position
`c.stops.length` of the successor calculator). -/
def emitted_first (c : Calc) (r : IterResult) : Option StopType :=
  match r with
  | .exit _ => none
  | .next c' _ => (c'.stops.get? c.stops.length).map (fun st => st.stype)

/-- A generic stop record used to build concrete log-generator inputs. -/
def plain_stop (stype : StopType) (a d : ℚ) (dur : ℕ) (day : ℤ) : Stop :=
  { sid := 1, stype := stype, location := "A", lat := 0, lng := 0,
    arrival_time := a, departure_time := d, duration_minutes := dur,
    cumulative_miles := 0, cumulative_driving_hours := 0, day := day,
    duty_status := Status.on_duty, notes := "n",
    g_driving := 0, g_on_duty := 0, g_since_break := 0, g_cycle := 0, g_odo := 0 }

/-- Concrete stop list (arrival 03:16, departure 03:18) whose single log
sheet contains a zero-length duty segment: the 2-decimal build rounds the
two boundaries to 3.27 and 3.3, and the 1-decimal normalization rounds both
to 3.3. -/
def cex2_stops : List Stop :=
  [plain_stop .pickup (3 + 16/60) (3 + 18/60) 2 1]

/-- Concrete stop list (arrival 23:50, departure 00:05 next day) whose last
stop departs on a later calendar date than it arrives. -/
def cex3_stops : List Stop :=
  [plain_stop .stop_end (23 + 50/60) (24 + 5/60) 15 1]

/-- Calculator holding `cex3_stops`, for `get_summary`. -/
def cex3_calc : Calc :=
  { state := (hos_init 6 0).state, stops := cex3_stops, stop_id := 1 }

/-- A single-stop list whose departure stays on the arrival's calendar day. -/
def w3_stop : Stop := plain_stop .stop_end 6 (6 + 15/60) 15 1

/-- Calculator holding `[w3_stop]`, for `get_summary`. -/
def w3_calc : Calc :=
  { state := (hos_init 6 0).state, stops := [w3_stop], stop_id := 1 }

/-- Bounds asserted of every emitted log segment: it lies inside the 24-hour
grid and does not run backwards. -/
def SegOK (s : Seg) : Prop :=
  0 ≤ s.start_hour ∧ s.start_hour ≤ s.end_hour ∧ s.end_hour ≤ 24

/-- A degenerate location for concrete planner runs. -/
def loc0 : Loc := { display_name := "A, AZ", lat := 0, lng := 0 }

/-- A 55-mile + 55-mile route for concrete planner runs. -/
def rd_small : RouteData :=
  { total_distance_miles := 110, leg0_distance_miles := 55, leg1_distance_miles := 55 }

/-- A 300-mile + 1200-mile route for concrete planner runs. -/
def rd_long : RouteData :=
  { total_distance_miles := 1500, leg0_distance_miles := 300, leg1_distance_miles := 1200 }

/-! ## Lemmas on the numeric primitives -/

theorem round_half_even_intCast (n : ℤ) : round_half_even (n : ℚ) = n := by
  simp [round_half_even]

theorem round_half_even_ge_floor (x : ℚ) : ⌊x⌋ ≤ round_half_even x := by
  unfold round_half_even; split_ifs <;> omega

theorem round_half_even_le_floor_succ (x : ℚ) : round_half_even x ≤ ⌊x⌋ + 1 := by
  unfold round_half_even; split_ifs <;> omega

theorem round_half_even_mono {x y : ℚ} (h : x ≤ y) :
    round_half_even x ≤ round_half_even y := by
  rcases lt_or_eq_of_le (Int.floor_le_floor h) with hf | hf
  · calc round_half_even x ≤ ⌊x⌋ + 1 := round_half_even_le_floor_succ x
      _ ≤ ⌊y⌋ := by omega
      _ ≤ round_half_even y := round_half_even_ge_floor y
  · unfold round_half_even
    rw [← hf]
    split_ifs <;> first | omega | linarith

theorem pyround_mono (d : ℕ) {x y : ℚ} (h : x ≤ y) : pyround x d ≤ pyround y d := by
  unfold pyround
  have hp : (0 : ℚ) < (10 : ℚ) ^ d := by positivity
  rw [div_le_div_iff_of_pos_right hp]
  exact_mod_cast round_half_even_mono (mul_le_mul_of_nonneg_right h hp.le)

theorem pyround_eq_of_int {x : ℚ} {d : ℕ} (n : ℤ) (h : x * (10 : ℚ) ^ d = n) :
    pyround x d = x := by
  have hp : ((10 : ℚ) ^ d) ≠ 0 := by positivity
  unfold pyround
  rw [h, round_half_even_intCast, ← h, mul_div_assoc, div_self hp, mul_one]

theorem pyround_nonneg {x : ℚ} (d : ℕ) (h : 0 ≤ x) : 0 ≤ pyround x d := by
  have h0 : pyround 0 d = 0 := pyround_eq_of_int 0 (by norm_num)
  calc (0 : ℚ) = pyround 0 d := h0.symm
    _ ≤ pyround x d := pyround_mono d h

theorem pyround_one_tenth (x : ℚ) : ∃ n : ℤ, pyround x 1 = (n : ℚ) / 10 := by
  refine ⟨round_half_even (x * 10), ?_⟩
  unfold pyround
  norm_num

theorem pyround_one_of_tenth {x : ℚ} (n : ℤ) (h : x = (n : ℚ) / 10) : pyround x 1 = x := by
  apply pyround_eq_of_int n
  rw [h]; norm_num

theorem pymod_nonneg (x : ℚ) {y : ℚ} (hy : 0 < y) : 0 ≤ pymod x y := by
  unfold pymod
  have h1 : (⌊x / y⌋ : ℚ) ≤ x / y := Int.floor_le _
  have h2 : y * (⌊x / y⌋ : ℚ) ≤ y * (x / y) := mul_le_mul_of_nonneg_left h1 hy.le
  have h3 : y * (x / y) = x := by field_simp
  linarith

theorem pymod_lt (x : ℚ) {y : ℚ} (hy : 0 < y) : pymod x y < y := by
  unfold pymod
  have h1 : x / y < (⌊x / y⌋ : ℚ) + 1 := Int.lt_floor_add_one _
  have h2 : y * (x / y) < y * ((⌊x / y⌋ : ℚ) + 1) := by
    exact mul_lt_mul_of_pos_left h1 hy
  have h3 : y * (x / y) = x := by field_simp
  nlinarith

theorem pymod_int_mul {y : ℚ} (hy : y ≠ 0) (k : ℤ) : pymod (y * (k : ℚ)) y = 0 := by
  unfold pymod
  have h : y * (k : ℚ) / y = (k : ℚ) := by field_simp
  rw [h, Int.floor_intCast]
  ring

theorem pymod_add_le {x d y : ℚ} (hy : 0 < y) (hd : 0 ≤ d) :
    pymod (x + d) y ≤ pymod x y + d := by
  unfold pymod
  have h1 : ⌊x / y⌋ ≤ ⌊(x + d) / y⌋ := by
    apply Int.floor_le_floor
    rw [div_le_div_iff_of_pos_right hy]
    linarith
  have h2 : y * (⌊x / y⌋ : ℚ) ≤ y * (⌊(x + d) / y⌋ : ℚ) := by
    apply mul_le_mul_of_nonneg_left (by exact_mod_cast h1) hy.le
  linarith

theorem pymod_add_small {x d y : ℚ} (hy : 0 < y) (hd : 0 ≤ d)
    (h : pymod x y + d < y) : pymod (x + d) y = pymod x y + d := by
  have hnn := pymod_nonneg x hy
  have hfl : ⌊(x + d) / y⌋ = ⌊x / y⌋ := by
    rw [Int.floor_eq_iff]
    constructor
    · have h1 : (⌊x / y⌋ : ℚ) ≤ x / y := Int.floor_le _
      have h2 : x / y ≤ (x + d) / y := by
        rw [div_le_div_iff_of_pos_right hy]; linarith
      linarith
    · rw [div_lt_iff₀ hy]
      unfold pymod at h hnn
      nlinarith
  unfold pymod
  rw [hfl]; ring

/-! ## Basic lemmas on the planner operations -/

theorem mk_stop_stype (c : Calc) (ty lo co du s n) : (mk_stop c ty lo co du s n).stype = ty := rfl

theorem mk_stop_arrival (c : Calc) (ty lo co du s n) :
    (mk_stop c ty lo co du s n).arrival_time = c.state.current_time := rfl

theorem mk_stop_departure (c : Calc) (ty lo co du s n) :
    (mk_stop c ty lo co du s n).departure_time = c.state.current_time + (du : ℚ) / 60 := rfl

theorem mk_stop_duration (c : Calc) (ty lo co du s n) :
    (mk_stop c ty lo co du s n).duration_minutes = du := rfl

theorem mk_stop_duty (c : Calc) (ty lo co du s n) : (mk_stop c ty lo co du s n).duty_status = s := rfl

theorem mk_stop_lat (c : Calc) (ty lo co du s n) : (mk_stop c ty lo co du s n).lat = co.1 := rfl

theorem mk_stop_lng (c : Calc) (ty lo co du s n) : (mk_stop c ty lo co du s n).lng = co.2 := rfl

theorem mk_stop_miles (c : Calc) (ty lo co du s n) :
    (mk_stop c ty lo co du s n).cumulative_miles = pyround c.state.current_miles 1 := rfl

theorem mk_stop_g_driving (c : Calc) (ty lo co du s n) :
    (mk_stop c ty lo co du s n).g_driving = c.state.driving_hours_today := rfl

theorem mk_stop_g_on_duty (c : Calc) (ty lo co du s n) :
    (mk_stop c ty lo co du s n).g_on_duty = c.state.on_duty_hours_today := rfl

theorem mk_stop_g_since (c : Calc) (ty lo co du s n) :
    (mk_stop c ty lo co du s n).g_since_break = c.state.hours_since_last_break := rfl

theorem mk_stop_g_cycle (c : Calc) (ty lo co du s n) :
    (mk_stop c ty lo co du s n).g_cycle = c.state.cycle_hours_used := rfl

theorem mk_stop_g_odo (c : Calc) (ty lo co du s n) :
    (mk_stop c ty lo co du s n).g_odo = c.state.current_miles := rfl

theorem add_stop_stops (c : Calc) (ty lo co du s n) :
    (add_stop c ty lo co du s n).stops = c.stops ++ [mk_stop c ty lo co du s n] := by
  unfold add_stop; split <;> rfl

theorem add_stop_driving (c : Calc) (ty lo co du s n) :
    (add_stop c ty lo co du s n).state.driving_hours_today = c.state.driving_hours_today := by
  unfold add_stop; split <;> rfl

theorem add_stop_since (c : Calc) (ty lo co du s n) :
    (add_stop c ty lo co du s n).state.hours_since_last_break = c.state.hours_since_last_break := by
  unfold add_stop; split <;> rfl

theorem add_stop_odo (c : Calc) (ty lo co du s n) :
    (add_stop c ty lo co du s n).state.current_miles = c.state.current_miles := by
  unfold add_stop; split <;> rfl

theorem add_stop_time (c : Calc) (ty lo co du s n) :
    (add_stop c ty lo co du s n).state.current_time = c.state.current_time + (du : ℚ) / 60 := by
  unfold add_stop; split <;> rfl

theorem add_stop_on_duty_of_on (c : Calc) (ty lo co du n) :
    (add_stop c ty lo co du Status.on_duty n).state.on_duty_hours_today
      = c.state.on_duty_hours_today + (du : ℚ) / 60 := by
  unfold add_stop; rfl

theorem add_stop_cycle_of_on (c : Calc) (ty lo co du n) :
    (add_stop c ty lo co du Status.on_duty n).state.cycle_hours_used
      = c.state.cycle_hours_used + (du : ℚ) / 60 := by
  unfold add_stop; rfl

theorem add_stop_on_duty_of_off (c : Calc) (ty lo co du n) :
    (add_stop c ty lo co du Status.off_duty n).state.on_duty_hours_today
      = c.state.on_duty_hours_today := by
  unfold add_stop; rfl

theorem add_stop_cycle_of_off (c : Calc) (ty lo co du n) :
    (add_stop c ty lo co du Status.off_duty n).state.cycle_hours_used
      = c.state.cycle_hours_used := by
  unfold add_stop; rfl

theorem break_reset_stops (c : Calc) : (break_reset c).stops = c.stops := rfl

theorem break_reset_since (c : Calc) : (break_reset c).state.hours_since_last_break = 0 := rfl

theorem break_reset_driving (c : Calc) :
    (break_reset c).state.driving_hours_today = c.state.driving_hours_today := rfl

theorem break_reset_on_duty (c : Calc) :
    (break_reset c).state.on_duty_hours_today = c.state.on_duty_hours_today := rfl

theorem break_reset_cycle (c : Calc) :
    (break_reset c).state.cycle_hours_used = c.state.cycle_hours_used := rfl

theorem break_reset_odo (c : Calc) :
    (break_reset c).state.current_miles = c.state.current_miles := rfl

theorem break_reset_time (c : Calc) :
    (break_reset c).state.current_time = c.state.current_time := rfl

theorem rest_reset_stops (c : Calc) : (rest_reset c).stops = c.stops := rfl

theorem rest_reset_driving (c : Calc) : (rest_reset c).state.driving_hours_today = 0 := rfl

theorem rest_reset_on_duty (c : Calc) : (rest_reset c).state.on_duty_hours_today = 0 := rfl

theorem rest_reset_since (c : Calc) : (rest_reset c).state.hours_since_last_break = 0 := rfl

theorem rest_reset_cycle (c : Calc) :
    (rest_reset c).state.cycle_hours_used = c.state.cycle_hours_used := rfl

theorem rest_reset_odo (c : Calc) :
    (rest_reset c).state.current_miles = c.state.current_miles := rfl

theorem rest_reset_time (c : Calc) :
    (rest_reset c).state.current_time = c.state.current_time := rfl

theorem miles_until_fuel_pos (s : HOSState) : 0 < miles_until_fuel s := by
  unfold miles_until_fuel
  have := pymod_lt s.current_miles (show (0:ℚ) < 1000 by norm_num)
  linarith

theorem miles_until_break_nonneg (s : HOSState) : 0 ≤ miles_until_break s := le_max_left _ _

theorem miles_until_rest_nonneg (s : HOSState) : 0 ≤ miles_until_rest s := le_max_left _ _

theorem miles_until_break_le (s : HOSState) (h : 0 ≤ s.hours_since_last_break) :
    miles_until_break s ≤ 440 := by
  unfold miles_until_break
  apply max_le (by norm_num)
  nlinarith

theorem miles_until_break_of_ge (s : HOSState) (h : 8 ≤ s.hours_since_last_break) :
    miles_until_break s = 0 := by
  unfold miles_until_break
  apply max_eq_left
  nlinarith

theorem miles_until_rest_of_ge (s : HOSState) (h : 11 ≤ s.driving_hours_today) :
    miles_until_rest s = 0 := by
  unfold miles_until_rest
  apply max_eq_left
  nlinarith

theorem drivable_le_rem (c : Calc) (rem : ℚ) : drivable c rem ≤ rem :=
  le_trans (min_le_left _ _) (le_trans (min_le_left _ _) (min_le_left _ _))

theorem drivable_le_mb (c : Calc) (rem : ℚ) : drivable c rem ≤ miles_until_break c.state :=
  le_trans (min_le_left _ _) (le_trans (min_le_left _ _) (min_le_right _ _))

theorem drivable_le_mr (c : Calc) (rem : ℚ) : drivable c rem ≤ miles_until_rest c.state :=
  le_trans (min_le_left _ _) (min_le_right _ _)

theorem drivable_le_mf (c : Calc) (rem : ℚ) : drivable c rem ≤ miles_until_fuel c.state :=
  min_le_right _ _

theorem drivable_cases (c : Calc) (rem : ℚ) :
    drivable c rem = rem ∨ drivable c rem = miles_until_break c.state ∨
    drivable c rem = miles_until_rest c.state ∨ drivable c rem = miles_until_fuel c.state := by
  unfold drivable
  rcases min_choice (min (min rem (miles_until_break c.state)) (miles_until_rest c.state))
      (miles_until_fuel c.state) with h | h
  · rw [h]
    rcases min_choice (min rem (miles_until_break c.state)) (miles_until_rest c.state) with h2 | h2
    · rw [h2]
      rcases min_choice rem (miles_until_break c.state) with h3 | h3
      · exact Or.inl h3
      · exact Or.inr (Or.inl h3)
    · exact Or.inr (Or.inr (Or.inl h2))
  · exact Or.inr (Or.inr (Or.inr h))

theorem drivable_pos (c : Calc) (rem : ℚ) (h0 : 0 < rem)
    (hb : c.state.hours_since_last_break < 8) (hr : c.state.driving_hours_today < 11) :
    0 < drivable c rem := by
  unfold drivable
  have hmb : 0 < miles_until_break c.state := by
    unfold miles_until_break
    apply lt_max_of_lt_right
    nlinarith
  have hmr : 0 < miles_until_rest c.state := by
    unfold miles_until_rest
    apply lt_max_of_lt_right
    nlinarith
  exact lt_min (lt_min (lt_min h0 hmb) hmr) (miles_until_fuel_pos c.state)

theorem after_chunk_driving (c : Calc) (rem : ℚ) :
    (after_chunk c rem).state.driving_hours_today
      = c.state.driving_hours_today + drivable c rem / 55 := rfl

theorem after_chunk_on_duty (c : Calc) (rem : ℚ) :
    (after_chunk c rem).state.on_duty_hours_today
      = c.state.on_duty_hours_today + drivable c rem / 55 := rfl

theorem after_chunk_since (c : Calc) (rem : ℚ) :
    (after_chunk c rem).state.hours_since_last_break
      = c.state.hours_since_last_break + drivable c rem / 55 := rfl

theorem after_chunk_cycle (c : Calc) (rem : ℚ) :
    (after_chunk c rem).state.cycle_hours_used
      = c.state.cycle_hours_used + drivable c rem / 55 := rfl

theorem after_chunk_time (c : Calc) (rem : ℚ) :
    (after_chunk c rem).state.current_time = c.state.current_time + drivable c rem / 55 := rfl

theorem after_chunk_odo (c : Calc) (rem : ℚ) :
    (after_chunk c rem).state.current_miles = c.state.current_miles + drivable c rem := rfl

theorem after_chunk_stops (c : Calc) (rem : ℚ) : (after_chunk c rem).stops = c.stops := rfl

theorem chunk_mr (c : Calc) (rem : ℚ) (h : 0 < drivable c rem) :
    miles_until_rest (after_chunk c rem).state
      = miles_until_rest c.state - drivable c rem := by
  have hle := drivable_le_mr c rem
  have hv : 0 < (11 - c.state.driving_hours_today) * 55 := by
    by_contra hc
    have : miles_until_rest c.state = 0 := max_eq_left (by linarith)
    linarith [hle, this ▸ hle]
  have hmr : miles_until_rest c.state = (11 - c.state.driving_hours_today) * 55 :=
    max_eq_right hv.le
  rw [hmr] at hle ⊢
  unfold miles_until_rest
  rw [after_chunk_driving]
  have : (11 - (c.state.driving_hours_today + drivable c rem / 55)) * 55
      = (11 - c.state.driving_hours_today) * 55 - drivable c rem := by ring
  rw [this]
  exact max_eq_right (by linarith)

theorem chunk_mb (c : Calc) (rem : ℚ) (h : 0 < drivable c rem) :
    miles_until_break (after_chunk c rem).state
      = miles_until_break c.state - drivable c rem := by
  have hle := drivable_le_mb c rem
  have hv : 0 < (8 - c.state.hours_since_last_break) * 55 := by
    by_contra hc
    have : miles_until_break c.state = 0 := max_eq_left (by linarith)
    linarith [hle, this ▸ hle]
  have hmb : miles_until_break c.state = (8 - c.state.hours_since_last_break) * 55 :=
    max_eq_right hv.le
  rw [hmb] at hle ⊢
  unfold miles_until_break
  rw [after_chunk_since]
  have : (8 - (c.state.hours_since_last_break + drivable c rem / 55)) * 55
      = (8 - c.state.hours_since_last_break) * 55 - drivable c rem := by ring
  rw [this]
  exact max_eq_right (by linarith)

theorem odo_add_mf (s : HOSState) :
    s.current_miles + miles_until_fuel s = 1000 * ((⌊s.current_miles / 1000⌋ : ℚ) + 1) := by
  unfold miles_until_fuel pymod
  ring

theorem pymod_odo_add_mf (s : HOSState) :
    pymod (s.current_miles + miles_until_fuel s) 1000 = 0 := by
  rw [odo_add_mf]
  have : (1000 : ℚ) * ((⌊s.current_miles / 1000⌋ : ℚ) + 1)
      = 1000 * ((⌊s.current_miles / 1000⌋ + 1 : ℤ) : ℚ) := by push_cast; ring
  rw [this]
  exact pymod_int_mul (by norm_num) _

theorem chunk_mf_lt (c : Calc) (rem : ℚ) (h : 0 < drivable c rem)
    (hlt : drivable c rem < miles_until_fuel c.state) :
    miles_until_fuel (after_chunk c rem).state
      = miles_until_fuel c.state - drivable c rem := by
  unfold miles_until_fuel
  rw [after_chunk_odo]
  rw [pymod_add_small (by norm_num) h.le ?_]
  · ring
  · unfold miles_until_fuel at hlt
    linarith

theorem chunk_mf_eq (c : Calc) (rem : ℚ) (heq : drivable c rem = miles_until_fuel c.state) :
    pymod (after_chunk c rem).state.current_miles 1000 = 0 := by
  rw [after_chunk_odo, heq]
  exact pymod_odo_add_mf c.state

theorem take_break_stops (c : Calc) (ca : ℚ → ℚ × ℚ) (g : ℚ → ℚ → Option String) (m : ℚ) :
    (take_break c ca g m).stops
      = c.stops ++ [mk_stop c .brk (stop_location ca g m) (ca m) 30 .off_duty
          "30-minute break (8 hours driving)"] := by
  unfold take_break
  rw [break_reset_stops, add_stop_stops]

theorem take_fuel_stops (c : Calc) (ca : ℚ → ℚ × ℚ) (g : ℚ → ℚ → Option String) (m : ℚ) :
    (take_fuel_stop c ca g m).stops
      = c.stops ++ [mk_stop c .fuel (stop_location ca g m) (ca m) 30 .on_duty
          "Fuel stop (1,000 miles)"] := by
  unfold take_fuel_stop
  rw [add_stop_stops]

theorem take_rest_stops (c : Calc) (ca : ℚ → ℚ × ℚ) (g : ℚ → ℚ → Option String) (m : ℚ) :
    (take_rest c ca g m).stops
      = c.stops ++ [mk_stop c .rest (stop_location ca g m) (ca m) 600 .off_duty
            "10-hour rest (11-hour driving limit)",
          mk_stop (rest_reset (add_stop c .rest (stop_location ca g m) (ca m) 600 .off_duty
              "10-hour rest (11-hour driving limit)")) .pre_trip (stop_location ca g m)
            (ca m) 30 .on_duty "Pre-trip inspection"] := by
  unfold take_rest
  rw [add_stop_stops, rest_reset_stops, add_stop_stops, List.append_assoc]
  rfl

theorem take_break_driving (c : Calc) (ca g m) :
    (take_break c ca g m).state.driving_hours_today = c.state.driving_hours_today := by
  unfold take_break
  rw [break_reset_driving, add_stop_driving]

theorem take_break_since (c : Calc) (ca g m) :
    (take_break c ca g m).state.hours_since_last_break = 0 := rfl

theorem take_break_on_duty (c : Calc) (ca g m) :
    (take_break c ca g m).state.on_duty_hours_today = c.state.on_duty_hours_today := by
  unfold take_break
  rw [break_reset_on_duty, add_stop_on_duty_of_off]

theorem take_break_cycle (c : Calc) (ca g m) :
    (take_break c ca g m).state.cycle_hours_used = c.state.cycle_hours_used := by
  unfold take_break
  rw [break_reset_cycle, add_stop_cycle_of_off]

theorem take_break_odo (c : Calc) (ca g m) :
    (take_break c ca g m).state.current_miles = c.state.current_miles := by
  unfold take_break
  rw [break_reset_odo, add_stop_odo]

theorem take_break_time (c : Calc) (ca g m) :
    (take_break c ca g m).state.current_time = c.state.current_time + 1/2 := by
  unfold take_break
  rw [break_reset_time, add_stop_time]
  norm_num

theorem take_rest_driving (c : Calc) (ca g m) :
    (take_rest c ca g m).state.driving_hours_today = 0 := by
  unfold take_rest
  rw [add_stop_driving, rest_reset_driving]

theorem take_rest_since (c : Calc) (ca g m) :
    (take_rest c ca g m).state.hours_since_last_break = 0 := by
  unfold take_rest
  rw [add_stop_since, rest_reset_since]

theorem take_rest_on_duty (c : Calc) (ca g m) :
    (take_rest c ca g m).state.on_duty_hours_today = 1/2 := by
  unfold take_rest
  rw [add_stop_on_duty_of_on, rest_reset_on_duty]
  norm_num

theorem take_rest_cycle (c : Calc) (ca g m) :
    (take_rest c ca g m).state.cycle_hours_used = c.state.cycle_hours_used + 1/2 := by
  unfold take_rest
  rw [add_stop_cycle_of_on, rest_reset_cycle, add_stop_cycle_of_off]
  norm_num

theorem take_rest_odo (c : Calc) (ca g m) :
    (take_rest c ca g m).state.current_miles = c.state.current_miles := by
  unfold take_rest
  rw [add_stop_odo, rest_reset_odo, add_stop_odo]

theorem take_rest_time (c : Calc) (ca g m) :
    (take_rest c ca g m).state.current_time = c.state.current_time + 21/2 := by
  unfold take_rest
  rw [add_stop_time, rest_reset_time, add_stop_time]
  norm_num
  ring

theorem take_fuel_driving (c : Calc) (ca g m) :
    (take_fuel_stop c ca g m).state.driving_hours_today = c.state.driving_hours_today := by
  unfold take_fuel_stop
  rw [add_stop_driving]

theorem take_fuel_since (c : Calc) (ca g m) :
    (take_fuel_stop c ca g m).state.hours_since_last_break
      = c.state.hours_since_last_break := by
  unfold take_fuel_stop
  rw [add_stop_since]

theorem take_fuel_on_duty (c : Calc) (ca g m) :
    (take_fuel_stop c ca g m).state.on_duty_hours_today
      = c.state.on_duty_hours_today + 1/2 := by
  unfold take_fuel_stop
  rw [add_stop_on_duty_of_on]
  norm_num

theorem take_fuel_cycle (c : Calc) (ca g m) :
    (take_fuel_stop c ca g m).state.cycle_hours_used = c.state.cycle_hours_used + 1/2 := by
  unfold take_fuel_stop
  rw [add_stop_cycle_of_on]
  norm_num

theorem take_fuel_odo (c : Calc) (ca g m) :
    (take_fuel_stop c ca g m).state.current_miles = c.state.current_miles := by
  unfold take_fuel_stop
  rw [add_stop_odo]

theorem take_fuel_time (c : Calc) (ca g m) :
    (take_fuel_stop c ca g m).state.current_time = c.state.current_time + 1/2 := by
  unfold take_fuel_stop
  rw [add_stop_time]
  norm_num

/-! ## Branch equations for one iteration of the drive loop -/

theorem iterate_exit (ca g dist sm : _) (c : Calc) (rem : ℚ) (h : ¬ 0 < rem) :
    drive_iterate ca g dist sm c rem = .exit c := by
  unfold drive_iterate
  rw [if_neg h]

theorem iterate_zero_rest (ca g dist sm : _) (c : Calc) (rem : ℚ)
    (h0 : 0 < rem) (hd : drivable c rem ≤ 0) (hr : 11 ≤ c.state.driving_hours_today) :
    drive_iterate ca g dist sm c rem
      = .next (take_rest c ca g (sm + (dist - rem))) rem := by
  unfold drive_iterate
  rw [if_pos h0, if_pos hd, if_pos hr]

theorem iterate_zero_break (ca g dist sm : _) (c : Calc) (rem : ℚ)
    (h0 : 0 < rem) (hd : drivable c rem ≤ 0) (hr : ¬ 11 ≤ c.state.driving_hours_today)
    (hb : 8 ≤ c.state.hours_since_last_break) :
    drive_iterate ca g dist sm c rem
      = .next (take_break c ca g (sm + (dist - rem))) rem := by
  unfold drive_iterate
  rw [if_pos h0, if_pos hd, if_neg hr, if_pos hb]

theorem iterate_zero_spin (ca g dist sm : _) (c : Calc) (rem : ℚ)
    (h0 : 0 < rem) (hd : drivable c rem ≤ 0) (hr : ¬ 11 ≤ c.state.driving_hours_today)
    (hb : ¬ 8 ≤ c.state.hours_since_last_break) :
    drive_iterate ca g dist sm c rem = .next c rem := by
  unfold drive_iterate
  rw [if_pos h0, if_pos hd, if_neg hr, if_neg hb]

theorem iterate_chunk_rest (ca g dist sm : _) (c : Calc) (rem : ℚ)
    (h0 : 0 < rem) (hd : ¬ drivable c rem ≤ 0) (h1 : 0 < rem - drivable c rem)
    (hr : 11 ≤ (after_chunk c rem).state.driving_hours_today) :
    drive_iterate ca g dist sm c rem
      = .next (take_rest (after_chunk c rem) ca g
          (sm + (dist - (rem - drivable c rem)))) (rem - drivable c rem) := by
  unfold drive_iterate
  rw [if_pos h0, if_neg hd, if_pos h1, if_pos hr]

theorem iterate_chunk_break (ca g dist sm : _) (c : Calc) (rem : ℚ)
    (h0 : 0 < rem) (hd : ¬ drivable c rem ≤ 0) (h1 : 0 < rem - drivable c rem)
    (hr : ¬ 11 ≤ (after_chunk c rem).state.driving_hours_today)
    (hb : 8 ≤ (after_chunk c rem).state.hours_since_last_break) :
    drive_iterate ca g dist sm c rem
      = .next (take_break (after_chunk c rem) ca g
          (sm + (dist - (rem - drivable c rem)))) (rem - drivable c rem) := by
  unfold drive_iterate
  rw [if_pos h0, if_neg hd, if_pos h1, if_neg hr, if_pos hb]

theorem iterate_chunk_fuel (ca g dist sm : _) (c : Calc) (rem : ℚ)
    (h0 : 0 < rem) (hd : ¬ drivable c rem ≤ 0) (h1 : 0 < rem - drivable c rem)
    (hr : ¬ 11 ≤ (after_chunk c rem).state.driving_hours_today)
    (hb : ¬ 8 ≤ (after_chunk c rem).state.hours_since_last_break)
    (hf : needs_fuel (after_chunk c rem).state) :
    drive_iterate ca g dist sm c rem
      = .next (take_fuel_stop (after_chunk c rem) ca g
          (sm + (dist - (rem - drivable c rem)))) (rem - drivable c rem) := by
  unfold drive_iterate
  rw [if_pos h0, if_neg hd, if_pos h1, if_neg hr, if_neg hb, if_pos hf]

theorem iterate_chunk_plain (ca g dist sm : _) (c : Calc) (rem : ℚ)
    (h0 : 0 < rem) (hd : ¬ drivable c rem ≤ 0) (h1 : 0 < rem - drivable c rem)
    (hr : ¬ 11 ≤ (after_chunk c rem).state.driving_hours_today)
    (hb : ¬ 8 ≤ (after_chunk c rem).state.hours_since_last_break)
    (hf : ¬ needs_fuel (after_chunk c rem).state) :
    drive_iterate ca g dist sm c rem
      = .next (after_chunk c rem) (rem - drivable c rem) := by
  unfold drive_iterate
  rw [if_pos h0, if_neg hd, if_pos h1, if_neg hr, if_neg hb, if_neg hf]

theorem iterate_chunk_done (ca g dist sm : _) (c : Calc) (rem : ℚ)
    (h0 : 0 < rem) (hd : ¬ drivable c rem ≤ 0) (h1 : ¬ 0 < rem - drivable c rem) :
    drive_iterate ca g dist sm c rem
      = .next (after_chunk c rem) (rem - drivable c rem) := by
  unfold drive_iterate
  rw [if_pos h0, if_neg hd, if_neg h1]

/-! ## Helpers for locating the first stop emitted by an iteration -/

theorem emitted_first_of_append (c c' : Calc) (rem' : ℚ) (x : Stop) (xs : List Stop)
    (h : c'.stops = c.stops ++ (x :: xs)) :
    emitted_first c (.next c' rem') = some x.stype := by
  show (c'.stops.get? c.stops.length).map (fun st => st.stype) = some x.stype
  rw [h, List.get?_append_right (le_refl _)]
  simp

theorem emitted_first_of_same (c c' : Calc) (rem' : ℚ) (h : c'.stops = c.stops) :
    emitted_first c (.next c' rem') = none := by
  show (c'.stops.get? c.stops.length).map (fun st => st.stype) = none
  rw [h]
  simp [List.get?_eq_none]

/-! ## Claim C4: fuel stop emission when the chunk is cut short by fuel -/

/-- C4: in a drive-leg iteration, whenever the drivable chunk is cut short
because `miles_until_fuel` is the strictly binding minimum and leg miles
remain, the planner emits a fuel stop at that point: under the exact
arithmetic of the embedding the cut-short signal itself forces the
odometer onto a 1000-mile multiple, so emission follows from the cut-short
condition and does not require any separate exact-multiple coincidence. -/
theorem c4_fuel_emitted_when_cut_short (ca : ℚ → ℚ × ℚ) (g : ℚ → ℚ → Option String)
    (dist sm : ℚ) (c : Calc) (rem : ℚ)
    (hodo : 0 ≤ c.state.current_miles)
    (hb : miles_until_fuel c.state < miles_until_break c.state)
    (hr : miles_until_fuel c.state < miles_until_rest c.state)
    (hrem : miles_until_fuel c.state < rem) :
    drive_iterate ca g dist sm c rem
      = .next (take_fuel_stop (after_chunk c rem) ca g
          (sm + (dist - (rem - drivable c rem)))) (rem - drivable c rem) ∧
    emitted_first c (drive_iterate ca g dist sm c rem) = some .fuel := by
  have hmfpos := miles_until_fuel_pos c.state
  have h0 : 0 < rem := lt_trans hmfpos hrem
  have heq : drivable c rem = miles_until_fuel c.state := by
    unfold drivable
    exact min_eq_right (le_min (le_min hrem.le hb.le) hr.le)
  have hd : ¬ drivable c rem ≤ 0 := by rw [heq]; exact not_le.mpr hmfpos
  have h1 : 0 < rem - drivable c rem := by rw [heq]; linarith
  have hmr_pos : 0 < miles_until_rest c.state := lt_trans hmfpos hr
  have hmr_inner : 0 < (11 - c.state.driving_hours_today) * 55 := by
    rcases lt_max_iff.mp hmr_pos with h | h
    · exact absurd h (lt_irrefl 0)
    · exact h
  have hmr_eq : miles_until_rest c.state = (11 - c.state.driving_hours_today) * 55 :=
    max_eq_right hmr_inner.le
  have hmb_pos : 0 < miles_until_break c.state := lt_trans hmfpos hb
  have hmb_inner : 0 < (8 - c.state.hours_since_last_break) * 55 := by
    rcases lt_max_iff.mp hmb_pos with h | h
    · exact absurd h (lt_irrefl 0)
    · exact h
  have hmb_eq : miles_until_break c.state = (8 - c.state.hours_since_last_break) * 55 :=
    max_eq_right hmb_inner.le
  have hrlt : ¬ 11 ≤ (after_chunk c rem).state.driving_hours_today := by
    rw [after_chunk_driving, heq]
    rw [hmr_eq] at hr
    push_neg
    nlinarith
  have hblt : ¬ 8 ≤ (after_chunk c rem).state.hours_since_last_break := by
    rw [after_chunk_since, heq]
    rw [hmb_eq] at hb
    push_neg
    nlinarith
  have hf : needs_fuel (after_chunk c rem).state := by
    constructor
    · rw [after_chunk_odo, heq]
      linarith
    · exact chunk_mf_eq c rem heq
  have hiter := iterate_chunk_fuel ca g dist sm c rem h0 hd h1 hrlt hblt hf
  refine ⟨hiter, ?_⟩
  rw [hiter]
  rw [emitted_first_of_append c _ _ _ []
        ((take_fuel_stops (after_chunk c rem) ca g
          (sm + (dist - (rem - drivable c rem)))).trans (by rw [after_chunk_stops])),
      mk_stop_stype]

/-! ## Claim C5: tie-break priority rest then break then fuel -/

/-- C5: when limits bind at the end of a drivable chunk or at a zero-mile
chunk, stops are emitted with priority rest over break over fuel: a rest is
emitted whenever the driving counter has reached 11 (even if the break or
fuel limit binds at the same point), a break is emitted whenever the break
counter has reached 8 and no rest is due, and a fuel stop is only ever
emitted when neither a rest nor a break is due at that point. -/
theorem c5_tie_break_priority (ca : ℚ → ℚ × ℚ) (g : ℚ → ℚ → Option String)
    (dist sm : ℚ) (c : Calc) (rem : ℚ) :
    (0 < rem → drivable c rem ≤ 0 → 11 ≤ c.state.driving_hours_today →
      emitted_first c (drive_iterate ca g dist sm c rem) = some .rest) ∧
    (0 < rem → drivable c rem ≤ 0 → c.state.driving_hours_today < 11 →
      8 ≤ c.state.hours_since_last_break →
      emitted_first c (drive_iterate ca g dist sm c rem) = some .brk) ∧
    (0 < rem - drivable c rem → 0 < drivable c rem →
      11 ≤ (after_chunk c rem).state.driving_hours_today →
      emitted_first c (drive_iterate ca g dist sm c rem) = some .rest) ∧
    (0 < rem - drivable c rem → 0 < drivable c rem →
      (after_chunk c rem).state.driving_hours_today < 11 →
      8 ≤ (after_chunk c rem).state.hours_since_last_break →
      emitted_first c (drive_iterate ca g dist sm c rem) = some .brk) ∧
    (emitted_first c (drive_iterate ca g dist sm c rem) = some .fuel →
      (after_chunk c rem).state.driving_hours_today < 11 ∧
      (after_chunk c rem).state.hours_since_last_break < 8) := by
  refine ⟨?_, ?_, ?_, ?_, ?_⟩
  · intro h0 hd hr
    rw [iterate_zero_rest ca g dist sm c rem h0 hd hr]
    have := emitted_first_of_append c (take_rest c ca g (sm + (dist - rem))) rem _ _
      (take_rest_stops c ca g (sm + (dist - rem)))
    rw [this, mk_stop_stype]
  · intro h0 hd hr hb
    rw [iterate_zero_break ca g dist sm c rem h0 hd (not_le.mpr hr) hb]
    have := emitted_first_of_append c (take_break c ca g (sm + (dist - rem))) rem _ _
      (take_break_stops c ca g (sm + (dist - rem)))
    rw [this, mk_stop_stype]
  · intro h1 hpos hr
    have h0 : 0 < rem := by
      have := drivable_le_rem c rem
      linarith
    rw [iterate_chunk_rest ca g dist sm c rem h0 (not_le.mpr hpos) h1 hr]
    have := emitted_first_of_append c _ (rem - drivable c rem) _ _
      ((take_rest_stops (after_chunk c rem) ca g
        (sm + (dist - (rem - drivable c rem)))).trans (by rw [after_chunk_stops]))
    rw [this, mk_stop_stype]
  · intro h1 hpos hr hb
    have h0 : 0 < rem := by linarith
    rw [iterate_chunk_break ca g dist sm c rem h0 (not_le.mpr hpos) h1 (not_le.mpr hr) hb]
    have := emitted_first_of_append c _ (rem - drivable c rem) _ _
      ((take_break_stops (after_chunk c rem) ca g
        (sm + (dist - (rem - drivable c rem)))).trans (by rw [after_chunk_stops]))
    rw [this, mk_stop_stype]
  · intro hfuel
    by_cases h0 : 0 < rem
    · by_cases hd : drivable c rem ≤ 0
      · by_cases hr : 11 ≤ c.state.driving_hours_today
        · rw [iterate_zero_rest ca g dist sm c rem h0 hd hr,
            emitted_first_of_append c _ rem _ _ (take_rest_stops c ca g (sm + (dist - rem))),
            mk_stop_stype] at hfuel
          exact absurd hfuel (by simp)
        · by_cases hb : 8 ≤ c.state.hours_since_last_break
          · rw [iterate_zero_break ca g dist sm c rem h0 hd hr hb,
              emitted_first_of_append c _ rem _ _ (take_break_stops c ca g (sm + (dist - rem))),
              mk_stop_stype] at hfuel
            exact absurd hfuel (by simp)
          · rw [iterate_zero_spin ca g dist sm c rem h0 hd hr hb,
              emitted_first_of_same c c rem rfl] at hfuel
            exact absurd hfuel (by simp)
      · by_cases h1 : 0 < rem - drivable c rem
        · by_cases hr : 11 ≤ (after_chunk c rem).state.driving_hours_today
          · rw [iterate_chunk_rest ca g dist sm c rem h0 hd h1 hr,
              emitted_first_of_append c _ _ _ _
                ((take_rest_stops (after_chunk c rem) ca g
                  (sm + (dist - (rem - drivable c rem)))).trans (by rw [after_chunk_stops])),
              mk_stop_stype] at hfuel
            exact absurd hfuel (by simp)
          · by_cases hb : 8 ≤ (after_chunk c rem).state.hours_since_last_break
            · rw [iterate_chunk_break ca g dist sm c rem h0 hd h1 hr hb,
                emitted_first_of_append c _ _ _ _
                  ((take_break_stops (after_chunk c rem) ca g
                    (sm + (dist - (rem - drivable c rem)))).trans (by rw [after_chunk_stops])),
                mk_stop_stype] at hfuel
              exact absurd hfuel (by simp)
            · exact ⟨not_le.mp hr, not_le.mp hb⟩
        · rw [iterate_chunk_done ca g dist sm c rem h0 hd h1,
            emitted_first_of_same c _ _ (after_chunk_stops c rem)] at hfuel
          exact absurd hfuel (by simp)
    · rw [iterate_exit ca g dist sm c rem h0] at hfuel
      exact absurd hfuel (by simp [emitted_first])

/-! ## Termination measure lemmas -/

theorem ceil_div_toNat_pos {x a : ℚ} (hx : 0 < x) (ha : 0 < a) : 1 ≤ (⌈x / a⌉).toNat := by
  have : 0 < ⌈x / a⌉ := Int.ceil_pos.mpr (div_pos hx ha)
  omega

theorem ceil_div_sub_toNat {x a : ℚ} (hx : 0 < x) (ha : 0 < a) :
    (⌈(x - a) / a⌉).toNat = (⌈x / a⌉).toNat - 1 := by
  have h1 : (x - a) / a = x / a - ((1 : ℤ) : ℚ) := by
    push_cast
    field_simp
  rw [h1, Int.ceil_sub_int]
  have h3 : 0 < ⌈x / a⌉ := Int.ceil_pos.mpr (div_pos hx ha)
  omega

theorem ceil_div_toNat_mono {x y a : ℚ} (ha : 0 < a) (h : x ≤ y) :
    (⌈x / a⌉).toNat ≤ (⌈y / a⌉).toNat := by
  have : ⌈x / a⌉ ≤ ⌈y / a⌉ :=
    Int.ceil_le_ceil (by rw [div_le_div_iff_of_pos_right ha]; exact h)
  omega

theorem phi_take_rest_zero (ca g m : _) (c : Calc) (rem : ℚ) (h0 : 0 < rem)
    (hr : 11 ≤ c.state.driving_hours_today) (hs : 0 ≤ c.state.hours_since_last_break) :
    phi_measure (take_rest c ca g m) rem < phi_measure c rem := by
  unfold phi_measure
  have e1 : miles_until_rest (take_rest c ca g m).state = 605 := by
    unfold miles_until_rest
    rw [take_rest_driving]
    norm_num
  have e2 : miles_until_break (take_rest c ca g m).state = 440 := by
    unfold miles_until_break
    rw [take_rest_since]
    norm_num
  have e3 : miles_until_fuel (take_rest c ca g m).state = miles_until_fuel c.state := by
    unfold miles_until_fuel
    rw [take_rest_odo]
  have e4 : miles_until_rest c.state = 0 := miles_until_rest_of_ge _ hr
  rw [e1, e2, e3, e4, sub_zero]
  have h605 : (⌈(rem - 605) / 605⌉).toNat = (⌈rem / 605⌉).toNat - 1 :=
    ceil_div_sub_toNat h0 (by norm_num)
  have hge1 : 1 ≤ (⌈rem / 605⌉).toNat := ceil_div_toNat_pos h0 (by norm_num)
  have hmb : (⌈(rem - 440) / 440⌉).toNat
      ≤ (⌈(rem - miles_until_break c.state) / 440⌉).toNat := by
    apply ceil_div_toNat_mono (by norm_num)
    have := miles_until_break_le c.state hs
    linarith
  omega

theorem phi_take_break_zero (ca g m : _) (c : Calc) (rem : ℚ) (h0 : 0 < rem)
    (hb : 8 ≤ c.state.hours_since_last_break) :
    phi_measure (take_break c ca g m) rem < phi_measure c rem := by
  unfold phi_measure
  have e1 : miles_until_rest (take_break c ca g m).state = miles_until_rest c.state := by
    unfold miles_until_rest
    rw [take_break_driving]
  have e2 : miles_until_break (take_break c ca g m).state = 440 := by
    unfold miles_until_break
    rw [take_break_since]
    norm_num
  have e3 : miles_until_fuel (take_break c ca g m).state = miles_until_fuel c.state := by
    unfold miles_until_fuel
    rw [take_break_odo]
  have e4 : miles_until_break c.state = 0 := miles_until_break_of_ge _ hb
  rw [e1, e2, e3, e4, sub_zero]
  have h440 : (⌈(rem - 440) / 440⌉).toNat = (⌈rem / 440⌉).toNat - 1 :=
    ceil_div_sub_toNat h0 (by norm_num)
  have hge1 : 1 ≤ (⌈rem / 440⌉).toNat := ceil_div_toNat_pos h0 (by norm_num)
  omega

theorem phi_chunk_le (c : Calc) (rem : ℚ) (hpos : 0 < drivable c rem)
    (h1 : 0 < rem - drivable c rem) :
    phi_measure (after_chunk c rem) (rem - drivable c rem) ≤ phi_measure c rem := by
  unfold phi_measure
  have e1 : rem - drivable c rem - miles_until_rest (after_chunk c rem).state
      = rem - miles_until_rest c.state := by
    rw [chunk_mr c rem hpos]; ring
  have e2 : rem - drivable c rem - miles_until_break (after_chunk c rem).state
      = rem - miles_until_break c.state := by
    rw [chunk_mb c rem hpos]; ring
  rw [e1, e2]
  rcases lt_or_eq_of_le (drivable_le_mf c rem) with hlt | heq
  · have e3 : rem - drivable c rem - miles_until_fuel (after_chunk c rem).state
        = rem - miles_until_fuel c.state := by
      rw [chunk_mf_lt c rem hpos hlt]; ring
    rw [e3]
  · have e3 : miles_until_fuel (after_chunk c rem).state = 1000 := by
      unfold miles_until_fuel
      rw [chunk_mf_eq c rem heq]
      norm_num
    rw [e3]
    have e4 : rem - drivable c rem - 1000 = (rem - miles_until_fuel c.state) - 1000 := by
      rw [heq]
    rw [e4]
    have h5 : (⌈(rem - miles_until_fuel c.state - 1000) / 1000⌉).toNat
        = (⌈(rem - miles_until_fuel c.state) / 1000⌉).toNat - 1 := by
      apply ceil_div_sub_toNat ?_ (by norm_num)
      rw [← heq]
      exact h1
    omega

theorem phi_chunk_fuel_lt (c : Calc) (rem : ℚ) (hpos : 0 < drivable c rem)
    (h1 : 0 < rem - drivable c rem) (heq : drivable c rem = miles_until_fuel c.state) :
    phi_measure (after_chunk c rem) (rem - drivable c rem) < phi_measure c rem := by
  unfold phi_measure
  have e1 : rem - drivable c rem - miles_until_rest (after_chunk c rem).state
      = rem - miles_until_rest c.state := by
    rw [chunk_mr c rem hpos]; ring
  have e2 : rem - drivable c rem - miles_until_break (after_chunk c rem).state
      = rem - miles_until_break c.state := by
    rw [chunk_mb c rem hpos]; ring
  have e3 : miles_until_fuel (after_chunk c rem).state = 1000 := by
    unfold miles_until_fuel
    rw [chunk_mf_eq c rem heq]
    norm_num
  have e4 : rem - drivable c rem - 1000 = (rem - miles_until_fuel c.state) - 1000 := by
    rw [heq]
  rw [e1, e2, e3, e4]
  have hx : 0 < rem - miles_until_fuel c.state := by rw [← heq]; exact h1
  have h5 : (⌈(rem - miles_until_fuel c.state - 1000) / 1000⌉).toNat
      = (⌈(rem - miles_until_fuel c.state) / 1000⌉).toNat - 1 :=
    ceil_div_sub_toNat hx (by norm_num)
  have hge1 : 1 ≤ (⌈(rem - miles_until_fuel c.state) / 1000⌉).toNat :=
    ceil_div_toNat_pos hx (by norm_num)
  omega

theorem phi_take_fuel_eq (ca g m : _) (c : Calc) (rem : ℚ) :
    phi_measure (take_fuel_stop c ca g m) rem = phi_measure c rem := by
  unfold phi_measure
  have e1 : miles_until_rest (take_fuel_stop c ca g m).state = miles_until_rest c.state := by
    unfold miles_until_rest
    rw [take_fuel_driving]
  have e2 : miles_until_break (take_fuel_stop c ca g m).state = miles_until_break c.state := by
    unfold miles_until_break
    rw [take_fuel_since]
  have e3 : miles_until_fuel (take_fuel_stop c ca g m).state = miles_until_fuel c.state := by
    unfold miles_until_fuel
    rw [take_fuel_odo]
  rw [e1, e2, e3]

theorem mb_after_eq_zero (c : Calc) (rem : ℚ)
    (h : miles_until_break (after_chunk c rem).state = 0) :
    8 ≤ (after_chunk c rem).state.hours_since_last_break := by
  unfold miles_until_break at h
  by_contra hc
  push_neg at hc
  have : (0 : ℚ) < (8 - (after_chunk c rem).state.hours_since_last_break) * 55 := by nlinarith
  have := lt_max_of_lt_right (b := (0 : ℚ)) this
  rw [h] at this
  exact absurd this (lt_irrefl 0)

theorem mr_after_eq_zero (c : Calc) (rem : ℚ)
    (h : miles_until_rest (after_chunk c rem).state = 0) :
    11 ≤ (after_chunk c rem).state.driving_hours_today := by
  unfold miles_until_rest at h
  by_contra hc
  push_neg at hc
  have : (0 : ℚ) < (11 - (after_chunk c rem).state.driving_hours_today) * 55 := by nlinarith
  have := lt_max_of_lt_right (b := (0 : ℚ)) this
  rw [h] at this
  exact absurd this (lt_irrefl 0)

theorem drive_loop_isSome_of_phi (ca : ℚ → ℚ × ℚ) (g : ℚ → ℚ → Option String)
    (dist sm : ℚ) :
    ∀ n (c : Calc) (rem : ℚ), 0 ≤ c.state.hours_since_last_break →
      phi_measure c rem + 2 ≤ n → (drive_loop ca g dist sm n c rem).isSome := by
  intro n
  induction n using Nat.strong_induction_on with
  | _ n ih =>
    intro c rem hs hn
    obtain ⟨m, rfl⟩ : ∃ m, n = m + 1 := ⟨n - 1, by omega⟩
    by_cases h0 : 0 < rem
    · by_cases hd : drivable c rem ≤ 0
      · by_cases hr : 11 ≤ c.state.driving_hours_today
        · simp only [drive_loop, iterate_zero_rest ca g dist sm c rem h0 hd hr]
          apply ih m (by omega)
          · rw [take_rest_since]
          · have := phi_take_rest_zero ca g (sm + (dist - rem)) c rem h0 hr hs
            omega
        · by_cases hb : 8 ≤ c.state.hours_since_last_break
          · simp only [drive_loop, iterate_zero_break ca g dist sm c rem h0 hd hr hb]
            apply ih m (by omega)
            · rw [take_break_since]
            · have := phi_take_break_zero ca g (sm + (dist - rem)) c rem h0 hb
              omega
          · exfalso
            push_neg at hr hb
            exact absurd (drivable_pos c rem h0 hb hr) (not_lt.mpr hd)
      · push_neg at hd
        by_cases h1 : 0 < rem - drivable c rem
        · have hs1 : 0 ≤ (after_chunk c rem).state.hours_since_last_break := by
            rw [after_chunk_since]
            have := hd.le
            positivity
          by_cases hrr : 11 ≤ (after_chunk c rem).state.driving_hours_today
          · simp only [drive_loop, iterate_chunk_rest ca g dist sm c rem h0 (not_le.mpr hd) h1 hrr]
            apply ih m (by omega)
            · rw [take_rest_since]
            · have ha := phi_take_rest_zero ca g (sm + (dist - (rem - drivable c rem)))
                (after_chunk c rem) (rem - drivable c rem) h1 hrr hs1
              have hb := phi_chunk_le c rem hd h1
              omega
          · by_cases hbb : 8 ≤ (after_chunk c rem).state.hours_since_last_break
            · simp only [drive_loop,
                iterate_chunk_break ca g dist sm c rem h0 (not_le.mpr hd) h1 hrr hbb]
              apply ih m (by omega)
              · rw [take_break_since]
              · have ha := phi_take_break_zero ca g (sm + (dist - (rem - drivable c rem)))
                  (after_chunk c rem) (rem - drivable c rem) h1 hbb
                have hb := phi_chunk_le c rem hd h1
                omega
            · have hdeq : drivable c rem = miles_until_fuel c.state := by
                rcases drivable_cases c rem with hc | hc | hc | hc
                · exfalso; rw [hc] at h1; simp at h1
                · exfalso
                  apply hbb
                  apply mb_after_eq_zero
                  rw [chunk_mb c rem hd, hc, sub_self]
                · exfalso
                  apply hrr
                  apply mr_after_eq_zero
                  rw [chunk_mr c rem hd, hc, sub_self]
                · exact hc
              by_cases hf : needs_fuel (after_chunk c rem).state
              · simp only [drive_loop,
                  iterate_chunk_fuel ca g dist sm c rem h0 (not_le.mpr hd) h1 hrr hbb hf]
                apply ih m (by omega)
                · rw [take_fuel_since]; exact hs1
                · rw [phi_take_fuel_eq]
                  have := phi_chunk_fuel_lt c rem hd h1 hdeq
                  omega
              · simp only [drive_loop,
                  iterate_chunk_plain ca g dist sm c rem h0 (not_le.mpr hd) h1 hrr hbb hf]
                apply ih m (by omega)
                · exact hs1
                · have := phi_chunk_fuel_lt c rem hd h1 hdeq
                  omega
        · simp only [drive_loop, iterate_chunk_done ca g dist sm c rem h0 (not_le.mpr hd) h1]
          obtain ⟨k, rfl⟩ : ∃ k, m = k + 1 := ⟨m - 1, by omega⟩
          simp only [drive_loop,
            iterate_exit ca g dist sm (after_chunk c rem) (rem - drivable c rem) h1]
          rfl
    · simp only [drive_loop, iterate_exit ca g dist sm c rem h0]
      rfl

/-! ## Claim C10: the drive loop terminates -/

/-- C10: for every leg distance and every state with non-negative counters the
`_drive_segment` while loop terminates: the fuelled unfolding with the
`phi_measure` fuel bound always completes (never exhausts its fuel), because a
zero drivable chunk means the driving counter has reached 11 or the break
counter has reached 8 — so a rest or break is emitted that resets the binding
counter and strictly decreases the stop-count measure — and a positive chunk
strictly decreases the remaining distance. -/
theorem c10_drive_loop_terminates (ca : ℚ → ℚ × ℚ) (g : ℚ → ℚ → Option String)
    (dist sm : ℚ) (c : Calc) (rem : ℚ)
    (hs : 0 ≤ c.state.hours_since_last_break) :
    (drive_segment ca g dist sm c).isSome = true ∧
    (0 < rem → drivable c rem ≤ 0 →
      11 ≤ c.state.driving_hours_today ∨ 8 ≤ c.state.hours_since_last_break) ∧
    (¬ drivable c rem ≤ 0 → rem - drivable c rem < rem) := by
  refine ⟨?_, ?_, ?_⟩
  · unfold drive_segment
    exact drive_loop_isSome_of_phi ca g dist sm _ c dist hs (by omega)
  · intro h0 hd
    by_contra hc
    push_neg at hc
    exact absurd (drivable_pos c rem h0 hc.2 hc.1) (not_lt.mpr hd)
  · intro hd
    push_neg at hd
    linarith

/-! ## Window invariant preservation (claim C1) -/

theorem winv_mono {cap cap' : ℚ} (h : cap ≤ cap') (c : Calc) (hw : WInv cap c) :
    WInv cap' c := by
  obtain ⟨h1, h2, h3, h4, w, fc, hfc, hw0, hod, hfk⟩ := hw
  exact ⟨h1, h2, h3, h4, w, fc, hfc, hw0, by linarith, hfk⟩

theorem good_stop_of_winv {cap : ℚ} (hcap : cap ≤ 5/2) (c : Calc) (hw : WInv cap c)
    (ty lo co du s n : _) : GoodStop (mk_stop c ty lo co du s n) := by
  obtain ⟨h1, h2, h3, h4, w, fc, hfc, hw0, hod, hfk⟩ := hw
  refine ⟨?_, ?_, ?_⟩
  · rw [mk_stop_g_driving]; exact h4
  · rw [mk_stop_g_on_duty]
    rcases hfc with hfc | hfc <;> (subst hfc; linarith)
  · rw [mk_stop_g_since]; exact h2

theorem winv_add_stop_on {cap : ℚ} (c : Calc) (ty lo co : _) (du : ℕ) (n : _)
    (hw : WInv cap c) : WInv (cap + (du : ℚ) / 60) (add_stop c ty lo co du .on_duty n) := by
  obtain ⟨h1, h2, h3, h4, w, fc, hfc, hw0, hod, hfk⟩ := hw
  refine ⟨?_, ?_, ?_, ?_, w, fc, hfc, ?_, ?_, ?_⟩
  · rw [add_stop_since]; exact h1
  · rw [add_stop_since]; exact h2
  · rw [add_stop_driving]; exact h3
  · rw [add_stop_driving]; exact h4
  · rw [add_stop_odo, add_stop_driving]; exact hw0
  · rw [add_stop_on_duty_of_on, add_stop_driving]; linarith
  · intro h
    obtain ⟨k, hk1, hk2⟩ := hfk h
    exact ⟨k, hk1, by rw [add_stop_odo]; exact hk2⟩

theorem winv_add_stop_off {cap : ℚ} (c : Calc) (ty lo co : _) (du : ℕ) (n : _)
    (hw : WInv cap c) : WInv cap (add_stop c ty lo co du .off_duty n) := by
  obtain ⟨h1, h2, h3, h4, w, fc, hfc, hw0, hod, hfk⟩ := hw
  refine ⟨?_, ?_, ?_, ?_, w, fc, hfc, ?_, ?_, ?_⟩
  · rw [add_stop_since]; exact h1
  · rw [add_stop_since]; exact h2
  · rw [add_stop_driving]; exact h3
  · rw [add_stop_driving]; exact h4
  · rw [add_stop_odo, add_stop_driving]; exact hw0
  · rw [add_stop_on_duty_of_off, add_stop_driving]; exact hod
  · intro h
    obtain ⟨k, hk1, hk2⟩ := hfk h
    exact ⟨k, hk1, by rw [add_stop_odo]; exact hk2⟩

theorem winv_take_break {cap : ℚ} (c : Calc) (ca g m : _) (hw : WInv cap c) :
    WInv cap (take_break c ca g m) := by
  obtain ⟨h1, h2, h3, h4, w, fc, hfc, hw0, hod, hfk⟩ := hw
  refine ⟨?_, ?_, ?_, ?_, w, fc, hfc, ?_, ?_, ?_⟩
  · rw [take_break_since]
  · rw [take_break_since]; norm_num
  · rw [take_break_driving]; exact h3
  · rw [take_break_driving]; exact h4
  · rw [take_break_odo, take_break_driving]; exact hw0
  · rw [take_break_on_duty, take_break_driving]; exact hod
  · intro h
    obtain ⟨k, hk1, hk2⟩ := hfk h
    exact ⟨k, hk1, by rw [take_break_odo]; exact hk2⟩

theorem winv_take_rest {cap : ℚ} (c : Calc) (ca g m : _) (hcap : 1/2 ≤ cap) :
    WInv cap (take_rest c ca g m) := by
  refine ⟨?_, ?_, ?_, ?_, (take_rest c ca g m).state.current_miles, 0, Or.inl rfl, ?_, ?_, ?_⟩
  · rw [take_rest_since]
  · rw [take_rest_since]; norm_num
  · rw [take_rest_driving]
  · rw [take_rest_driving]; norm_num
  · rw [take_rest_driving]; ring
  · rw [take_rest_on_duty, take_rest_driving]; linarith
  · intro h; exact absurd h (by norm_num)

theorem winv_after_chunk {cap : ℚ} (c : Calc) (rem : ℚ) (hw : WInv cap c)
    (hd : 0 < drivable c rem) : WInv cap (after_chunk c rem) := by
  obtain ⟨h1, h2, h3, h4, w, fc, hfc, hw0, hod, hfk⟩ := hw
  have hmb := drivable_le_mb c rem
  have hmr := drivable_le_mr c rem
  have hsince : (after_chunk c rem).state.hours_since_last_break ≤ 8 := by
    rw [after_chunk_since]
    have hvb : 0 < (8 - c.state.hours_since_last_break) * 55 := by
      by_contra hc
      have : miles_until_break c.state = 0 := max_eq_left (by linarith)
      rw [this] at hmb
      linarith
    have : miles_until_break c.state = (8 - c.state.hours_since_last_break) * 55 :=
      max_eq_right hvb.le
    rw [this] at hmb
    nlinarith
  have hdrv : (after_chunk c rem).state.driving_hours_today ≤ 11 := by
    rw [after_chunk_driving]
    have hvr : 0 < (11 - c.state.driving_hours_today) * 55 := by
      by_contra hc
      have : miles_until_rest c.state = 0 := max_eq_left (by linarith)
      rw [this] at hmr
      linarith
    have : miles_until_rest c.state = (11 - c.state.driving_hours_today) * 55 :=
      max_eq_right hvr.le
    rw [this] at hmr
    nlinarith
  refine ⟨?_, hsince, ?_, hdrv, w, fc, hfc, ?_, ?_, ?_⟩
  · rw [after_chunk_since]; positivity
  · rw [after_chunk_driving]; positivity
  · rw [after_chunk_odo, after_chunk_driving, hw0]; ring
  · rw [after_chunk_on_duty, after_chunk_driving]; linarith
  · intro h
    obtain ⟨k, hk1, hk2⟩ := hfk h
    refine ⟨k, hk1, ?_⟩
    rw [after_chunk_odo]
    linarith

theorem winv_take_fuel {cap : ℚ} (c : Calc) (rem : ℚ) (ca g m : _) (hw : WInv cap c)
    (hd : 0 < drivable c rem) (hf : needs_fuel (after_chunk c rem).state) :
    WInv cap (take_fuel_stop (after_chunk c rem) ca g m) := by
  have hac := winv_after_chunk c rem hw hd
  obtain ⟨h1, h2, h3, h4, w, fc, hfc, hw0, hod, hfk⟩ := hw
  obtain ⟨a1, a2, a3, a4, _⟩ := hac
  obtain ⟨hfpos, hfmod⟩ := hf
  -- the post-chunk odometer is the 1000-multiple `1000 * m0`
  set odo1 := (after_chunk c rem).state.current_miles with hodo1
  have hmul : odo1 = 1000 * ((⌊odo1 / 1000⌋ : ℤ) : ℚ) := by
    unfold pymod at hfmod
    linarith
  set m0 : ℤ := ⌊odo1 / 1000⌋ with hm0
  have hm0pos : 1 ≤ m0 := by
    by_contra hc
    push_neg at hc
    have : (m0 : ℚ) ≤ 0 := by exact_mod_cast Int.lt_add_one_iff.mp (by omega)
    nlinarith
  -- at most one fuel stop per window: the previous window fuel multiple
  -- would force a 1000-mile gap inside a ≤ 605-mile window
  have hfc0 : fc = 0 := by
    rcases hfc with hfc | hfc
    · exact hfc
    · exfalso
      obtain ⟨k, hk1, hk2⟩ := hfk hfc
      have hlt : (1000 : ℚ) * k < 1000 * m0 := by
        calc (1000 : ℚ) * k ≤ c.state.current_miles := hk2
          _ < odo1 := by
              rw [hodo1, after_chunk_odo]
              linarith
          _ = 1000 * (m0 : ℚ) := hmul
      have hklt : k < m0 := by
        have := (mul_lt_mul_left (show (0:ℚ) < 1000 by norm_num)).mp hlt
        exact_mod_cast this
      have hsucc : (1000 : ℚ) * (k + 1) ≤ 1000 * m0 := by
        have : (k + 1 : ℤ) ≤ m0 := by omega
        have hq : ((k + 1 : ℤ) : ℚ) ≤ (m0 : ℚ) := by exact_mod_cast this
        push_cast at hq ⊢
        nlinarith
      have hspan : odo1 = w + 55 * (after_chunk c rem).state.driving_hours_today := by
        rw [hodo1, after_chunk_odo, after_chunk_driving, hw0]
        ring
      have hbound : odo1 ≤ w + 605 := by
        rw [hspan]
        nlinarith
      rw [← hmul] at hsucc
      nlinarith
  refine ⟨?_, ?_, ?_, ?_, w, 1/2, Or.inr rfl, ?_, ?_, ?_⟩
  · rw [take_fuel_since]; exact a1
  · rw [take_fuel_since]; exact a2
  · rw [take_fuel_driving]; exact a3
  · rw [take_fuel_driving]; exact a4
  · rw [take_fuel_odo, take_fuel_driving, after_chunk_odo, after_chunk_driving, hw0]
    ring
  · rw [take_fuel_on_duty, take_fuel_driving, after_chunk_on_duty, after_chunk_driving]
    subst hfc0
    linarith
  · intro _
    refine ⟨m0, ?_, ?_⟩
    · have hspan : odo1 = w + 55 * (after_chunk c rem).state.driving_hours_today := by
        rw [hodo1, after_chunk_odo, after_chunk_driving, hw0]
        ring
      have hdrvpos : 0 < (after_chunk c rem).state.driving_hours_today := by
        rw [after_chunk_driving]
        positivity
      have : w < odo1 := by rw [hspan]; nlinarith
      rw [hmul] at this
      exact this
    · rw [take_fuel_odo, ← hodo1, hmul]

theorem forall_mem_append_single {P : Stop → Prop} {l : List Stop} {x : Stop}
    (hl : ∀ st ∈ l, P st) (hx : P x) : ∀ st ∈ l ++ [x], P st := by
  intro st hst
  rcases List.mem_append.mp hst with h | h
  · exact hl st h
  · rw [List.mem_singleton.mp h]; exact hx

theorem forall_mem_append_pair {P : Stop → Prop} {l : List Stop} {x y : Stop}
    (hl : ∀ st ∈ l, P st) (hx : P x) (hy : P y) : ∀ st ∈ l ++ [x, y], P st := by
  intro st hst
  rcases List.mem_append.mp hst with h | h
  · exact hl st h
  · rcases List.mem_cons.mp h with h2 | h2
    · rw [h2]; exact hx
    · rw [List.mem_singleton.mp h2]; exact hy

theorem goodcalc_add_stop_on {cap : ℚ} (hcap2 : cap ≤ 5/2) (c : Calc) (ty lo co : _)
    (du : ℕ) (n : _) (hg : GoodCalc cap c) :
    GoodCalc (cap + (du : ℚ) / 60) (add_stop c ty lo co du .on_duty n) := by
  refine ⟨winv_add_stop_on c ty lo co du n hg.1, ?_⟩
  rw [add_stop_stops]
  exact forall_mem_append_single hg.2 (good_stop_of_winv hcap2 c hg.1 _ _ _ _ _ _)

theorem goodcalc_take_break {cap : ℚ} (hcap2 : cap ≤ 5/2) (c : Calc) (ca g m : _)
    (hg : GoodCalc cap c) : GoodCalc cap (take_break c ca g m) := by
  refine ⟨winv_take_break c ca g m hg.1, ?_⟩
  rw [take_break_stops]
  exact forall_mem_append_single hg.2 (good_stop_of_winv hcap2 c hg.1 _ _ _ _ _ _)

theorem goodcalc_take_rest {cap : ℚ} (hcap1 : 1/2 ≤ cap) (hcap2 : cap ≤ 5/2) (c : Calc)
    (ca g m : _) (hg : GoodCalc cap c) : GoodCalc cap (take_rest c ca g m) := by
  refine ⟨winv_take_rest c ca g m hcap1, ?_⟩
  rw [take_rest_stops]
  apply forall_mem_append_pair hg.2 (good_stop_of_winv hcap2 c hg.1 _ _ _ _ _ _)
  refine ⟨?_, ?_, ?_⟩
  · rw [mk_stop_g_driving, rest_reset_driving]; norm_num
  · rw [mk_stop_g_on_duty, rest_reset_on_duty]; norm_num
  · rw [mk_stop_g_since, rest_reset_since]; norm_num

theorem goodcalc_take_fuel {cap : ℚ} (hcap2 : cap ≤ 5/2) (c : Calc) (rem : ℚ) (ca g m : _)
    (hg : GoodCalc cap c) (hd : 0 < drivable c rem)
    (hf : needs_fuel (after_chunk c rem).state) :
    GoodCalc cap (take_fuel_stop (after_chunk c rem) ca g m) := by
  refine ⟨winv_take_fuel c rem ca g m hg.1 hd hf, ?_⟩
  rw [take_fuel_stops, after_chunk_stops]
  exact forall_mem_append_single hg.2
    (good_stop_of_winv hcap2 (after_chunk c rem) (winv_after_chunk c rem hg.1 hd) _ _ _ _ _ _)

theorem goodcalc_after_chunk {cap : ℚ} (c : Calc) (rem : ℚ) (hg : GoodCalc cap c)
    (hd : 0 < drivable c rem) : GoodCalc cap (after_chunk c rem) := by
  refine ⟨winv_after_chunk c rem hg.1 hd, ?_⟩
  rw [after_chunk_stops]
  exact hg.2

theorem goodcalc_iterate {cap : ℚ} (hcap1 : 1/2 ≤ cap) (hcap2 : cap ≤ 5/2)
    (ca : ℚ → ℚ × ℚ) (g : ℚ → ℚ → Option String) (dist sm : ℚ) (c : Calc) (rem : ℚ)
    (c' : Calc) (rem' : ℚ)
    (h : drive_iterate ca g dist sm c rem = .next c' rem') (hg : GoodCalc cap c) :
    GoodCalc cap c' := by
  by_cases h0 : 0 < rem
  · by_cases hd : drivable c rem ≤ 0
    · by_cases hr : 11 ≤ c.state.driving_hours_today
      · rw [iterate_zero_rest ca g dist sm c rem h0 hd hr] at h
        cases h
        exact goodcalc_take_rest hcap1 hcap2 c ca g _ hg
      · by_cases hb : 8 ≤ c.state.hours_since_last_break
        · rw [iterate_zero_break ca g dist sm c rem h0 hd hr hb] at h
          cases h
          exact goodcalc_take_break hcap2 c ca g _ hg
        · rw [iterate_zero_spin ca g dist sm c rem h0 hd hr hb] at h
          cases h
          exact hg
    · push_neg at hd
      by_cases h1 : 0 < rem - drivable c rem
      · by_cases hrr : 11 ≤ (after_chunk c rem).state.driving_hours_today
        · rw [iterate_chunk_rest ca g dist sm c rem h0 (not_le.mpr hd) h1 hrr] at h
          cases h
          exact goodcalc_take_rest hcap1 hcap2 _ ca g _ (goodcalc_after_chunk c rem hg hd)
        · by_cases hbb : 8 ≤ (after_chunk c rem).state.hours_since_last_break
          · rw [iterate_chunk_break ca g dist sm c rem h0 (not_le.mpr hd) h1 hrr hbb] at h
            cases h
            exact goodcalc_take_break hcap2 _ ca g _ (goodcalc_after_chunk c rem hg hd)
          · by_cases hf : needs_fuel (after_chunk c rem).state
            · rw [iterate_chunk_fuel ca g dist sm c rem h0 (not_le.mpr hd) h1 hrr hbb hf] at h
              cases h
              exact goodcalc_take_fuel hcap2 c rem ca g _ hg hd hf
            · rw [iterate_chunk_plain ca g dist sm c rem h0 (not_le.mpr hd) h1 hrr hbb hf] at h
              cases h
              exact goodcalc_after_chunk c rem hg hd
      · rw [iterate_chunk_done ca g dist sm c rem h0 (not_le.mpr hd) h1] at h
        cases h
        exact goodcalc_after_chunk c rem hg hd
  · rw [iterate_exit ca g dist sm c rem h0] at h
    cases h

theorem iterate_exit_eq (ca : ℚ → ℚ × ℚ) (g : ℚ → ℚ → Option String) (dist sm : ℚ)
    (c : Calc) (rem : ℚ) (c2 : Calc)
    (h : drive_iterate ca g dist sm c rem = .exit c2) : c2 = c := by
  by_cases h0 : 0 < rem
  · unfold drive_iterate at h
    rw [if_pos h0] at h
    split_ifs at h <;> simp at h
  · rw [iterate_exit ca g dist sm c rem h0] at h
    injection h with h1
    exact h1.symm

theorem drive_loop_preserves {P : Calc → Prop} (ca : ℚ → ℚ × ℚ)
    (g : ℚ → ℚ → Option String) (dist sm : ℚ)
    (hiter : ∀ c rem c' rem', drive_iterate ca g dist sm c rem = .next c' rem' → P c → P c') :
    ∀ (n : ℕ) (c : Calc) (rem : ℚ) (c' : Calc),
      drive_loop ca g dist sm n c rem = some c' → P c → P c' := by
  intro n
  induction n with
  | zero => intro c rem c' h; simp [drive_loop] at h
  | succ m ihm =>
    intro c rem c' h hP
    simp only [drive_loop] at h
    cases hit : drive_iterate ca g dist sm c rem with
    | exit c2 =>
      rw [hit] at h
      simp only [Option.some.injEq] at h
      rw [← h]
      rw [iterate_exit_eq ca g dist sm c rem c2 hit]
      exact hP
    | next c2 rem2 =>
      rw [hit] at h
      exact ihm c2 rem2 c' h (hiter c rem c2 rem2 hit hP)

theorem drive_segment_preserves {P : Calc → Prop} (ca : ℚ → ℚ × ℚ)
    (g : ℚ → ℚ → Option String) (dist sm : ℚ)
    (hiter : ∀ c rem c' rem', drive_iterate ca g dist sm c rem = .next c' rem' → P c → P c')
    (c c' : Calc) (h : drive_segment ca g dist sm c = some c') (hP : P c) : P c' := by
  unfold drive_segment at h
  exact drive_loop_preserves ca g dist sm hiter _ c dist c' h hP

theorem goodcalc_mono {cap cap' : ℚ} (h : cap ≤ cap') {c : Calc} (hg : GoodCalc cap c) :
    GoodCalc cap' c :=
  ⟨winv_mono h c hg.1, hg.2⟩

theorem calculate_trip_good (c0 : Calc) (rd : RouteData) (l1 l2 l3 : Loc)
    (ca : ℚ → ℚ × ℚ) (g : ℚ → ℚ → Option String)
    (hg0 : GoodCalc 0 { c0 with stops := [], stop_id := 0 }) (res : Calc)
    (h : calculate_trip c0 rd l1 l2 l3 ca g = some res) : ∀ st ∈ res.stops, GoodStop st := by
  unfold calculate_trip at h
  simp only [] at h
  have g1 := goodcalc_add_stop_on (show (0:ℚ) ≤ 5/2 by norm_num)
    { c0 with stops := [], stop_id := 0 } .start l1.display_name (l1.lat, l1.lng) 30
    "Pre-trip inspection" hg0
  have g1' : GoodCalc (1/2)
      (add_stop { c0 with stops := [], stop_id := 0 } .start l1.display_name
        (l1.lat, l1.lng) 30 .on_duty "Pre-trip inspection") :=
    goodcalc_mono (by norm_num) g1
  cases hm1 : drive_segment ca g rd.leg0_distance_miles 0
      (add_stop { c0 with stops := [], stop_id := 0 } .start l1.display_name
        (l1.lat, l1.lng) 30 .on_duty "Pre-trip inspection") with
  | none => rw [hm1] at h; simp at h
  | some c2 =>
    rw [hm1] at h
    simp only [] at h
    have g2 : GoodCalc (1/2) c2 :=
      drive_segment_preserves ca g rd.leg0_distance_miles 0
        (fun c rem c' rem' hit hg =>
          goodcalc_iterate (by norm_num) (by norm_num) ca g rd.leg0_distance_miles 0
            c rem c' rem' hit hg) _ c2 hm1 g1'
    have g3 := goodcalc_add_stop_on (show (1:ℚ)/2 ≤ 5/2 by norm_num) c2 .pickup
      l2.display_name (l2.lat, l2.lng) 60 "Loading cargo" g2
    have g3' : GoodCalc (3/2)
        (add_stop c2 .pickup l2.display_name (l2.lat, l2.lng) 60 .on_duty "Loading cargo") :=
      goodcalc_mono (by norm_num) g3
    cases hm2 : drive_segment ca g rd.leg1_distance_miles rd.leg0_distance_miles
        (add_stop c2 .pickup l2.display_name (l2.lat, l2.lng) 60 .on_duty "Loading cargo") with
    | none => rw [hm2] at h; simp at h
    | some c4 =>
      rw [hm2] at h
      simp only [Option.some.injEq] at h
      have g4 : GoodCalc (3/2) c4 :=
        drive_segment_preserves ca g rd.leg1_distance_miles rd.leg0_distance_miles
          (fun c rem c' rem' hit hg =>
            goodcalc_iterate (by norm_num) (by norm_num) ca g rd.leg1_distance_miles
              rd.leg0_distance_miles c rem c' rem' hit hg) _ c4 hm2 g3'
      have g5 := goodcalc_add_stop_on (show (3:ℚ)/2 ≤ 5/2 by norm_num) c4 .dropoff
        l3.display_name (l3.lat, l3.lng) 60 "Unloading cargo" g4
      have g5' : GoodCalc (5/2)
          (add_stop c4 .dropoff l3.display_name (l3.lat, l3.lng) 60 .on_duty
            "Unloading cargo") :=
        goodcalc_mono (by norm_num) g5
      have g6 := goodcalc_add_stop_on (show (5:ℚ)/2 ≤ 5/2 by norm_num) _ .stop_end
        l3.display_name (l3.lat, l3.lng) 15 "Post-trip inspection" g5'
      rw [← h]
      exact g6.2

/-! ## Claim C1 (amended): boundary bounds for the three enforced counters -/

/-- C1 (amended): for every route and every cycle seed in [0, 70], at every
emitted stop boundary the three counters the planner actually enforces are
within their limits: `driving_hours_today ≤ 11`, `on_duty_hours_today ≤ 14`
and `hours_since_last_break ≤ 8`.  (The fourth bound of the original claim,
`cycle_hours_used ≤ 70`, does not hold: the code never branches on the cycle
counter; see the counterexample.) -/
theorem c1_amended_boundary_bounds (rd : RouteData) (l1 l2 l3 : Loc)
    (ca : ℚ → ℚ × ℚ) (g : ℚ → ℚ → Option String) (start seed : ℚ)
    (hseed0 : 0 ≤ seed) (hseed70 : seed ≤ 70) (res : Calc)
    (h : calculate_trip (hos_init start seed) rd l1 l2 l3 ca g = some res) :
    ∀ st ∈ res.stops,
      st.g_driving ≤ 11 ∧ st.g_on_duty ≤ 14 ∧ st.g_since_break ≤ 8 := by
  apply calculate_trip_good (hos_init start seed) rd l1 l2 l3 ca g ?_ res h
  refine ⟨⟨by norm_num [hos_init], by norm_num [hos_init], by norm_num [hos_init],
    by norm_num [hos_init], 0, 0, Or.inl rfl, by norm_num [hos_init],
    by norm_num [hos_init], fun hc => absurd hc (by norm_num)⟩, ?_⟩
  intro st hst
  simp at hst

/-! ## Evaluation helpers for concrete runs -/

theorem round_half_even_of_lt {x : ℚ} {f : ℤ} (hf : ⌊x⌋ = f) (h : x - f < 1/2) :
    round_half_even x = f := by
  unfold round_half_even
  rw [hf, if_pos h]

theorem round_half_even_of_gt {x : ℚ} {f : ℤ} (hf : ⌊x⌋ = f) (h1 : ¬ x - f < 1/2)
    (h2 : 1/2 < x - f) : round_half_even x = f + 1 := by
  unfold round_half_even
  rw [hf, if_neg h1, if_pos h2]

theorem round_half_even_half_even {x : ℚ} {f : ℤ} (hf : ⌊x⌋ = f) (heq : x - f = 1/2)
    (hev : f % 2 = 0) : round_half_even x = f := by
  unfold round_half_even
  rw [hf, if_neg (by rw [heq]; norm_num), if_neg (by rw [heq]; norm_num), if_pos hev]

theorem round_half_even_half_odd {x : ℚ} {f : ℤ} (hf : ⌊x⌋ = f) (heq : x - f = 1/2)
    (hev : ¬ f % 2 = 0) : round_half_even x = f + 1 := by
  unfold round_half_even
  rw [hf, if_neg (by rw [heq]; norm_num), if_neg (by rw [heq]; norm_num), if_neg hev]

theorem pyround_eq {x : ℚ} {d : ℕ} (n : ℤ) (h : round_half_even (x * (10:ℚ)^d) = n) :
    pyround x d = (n : ℚ) / (10:ℚ)^d := by
  unfold pyround
  rw [h]

theorem time_to_hours_of_int {t : ℚ} (n : ℤ) (h : t * 3600 = n) (h0 : 0 ≤ t)
    (h24 : t < 24) : time_to_hours t = t := by
  unfold time_to_hours
  have h1 : ⌊t / 24⌋ = 0 := by
    apply Int.floor_eq_zero_iff.mpr
    constructor
    · positivity
    · rw [div_lt_one (by norm_num)]; linarith
  rw [h1]
  simp only []
  have h2 : (t - 24 * ((0 : ℤ) : ℚ)) * 3600 = (n : ℚ) := by push_cast; linarith
  rw [h2, Int.floor_intCast]
  field_simp
  linarith

/-! ## Generic preservation through `calculate_trip` -/

theorem calculate_trip_preserves {P : Calc → Prop} (ca : ℚ → ℚ × ℚ)
    (g : ℚ → ℚ → Option String)
    (hadd : ∀ (c : Calc) ty lo co (du : ℕ) n,
      ty = StopType.start ∨ ty = StopType.pickup ∨ ty = StopType.dropoff ∨
        ty = StopType.stop_end →
      P c → P (add_stop c ty lo co du .on_duty n))
    (hseg : ∀ dist sm (c c' : Calc), drive_segment ca g dist sm c = some c' → P c → P c')
    (c0 : Calc) (rd : RouteData) (l1 l2 l3 : Loc) (res : Calc)
    (h : calculate_trip c0 rd l1 l2 l3 ca g = some res)
    (h0 : P { c0 with stops := [], stop_id := 0 }) : P res := by
  unfold calculate_trip at h
  simp only [] at h
  have p1 := hadd _ .start l1.display_name (l1.lat, l1.lng) 30 "Pre-trip inspection"
    (Or.inl rfl) h0
  cases hm1 : drive_segment ca g rd.leg0_distance_miles 0
      (add_stop { c0 with stops := [], stop_id := 0 } .start l1.display_name
        (l1.lat, l1.lng) 30 .on_duty "Pre-trip inspection") with
  | none => rw [hm1] at h; simp at h
  | some c2 =>
    rw [hm1] at h
    simp only [] at h
    have p2 := hseg _ _ _ _ hm1 p1
    have p3 := hadd c2 .pickup l2.display_name (l2.lat, l2.lng) 60 "Loading cargo"
      (Or.inr (Or.inl rfl)) p2
    cases hm2 : drive_segment ca g rd.leg1_distance_miles rd.leg0_distance_miles
        (add_stop c2 .pickup l2.display_name (l2.lat, l2.lng) 60 .on_duty "Loading cargo") with
    | none => rw [hm2] at h; simp at h
    | some c4 =>
      rw [hm2] at h
      simp only [Option.some.injEq] at h
      have p4 := hseg _ _ _ _ hm2 p3
      have p5 := hadd c4 .dropoff l3.display_name (l3.lat, l3.lng) 60 "Unloading cargo"
        (Or.inr (Or.inr (Or.inl rfl))) p4
      have p6 := hadd _ .stop_end l3.display_name (l3.lat, l3.lng) 15 "Post-trip inspection"
        (Or.inr (Or.inr (Or.inr rfl))) p5
      rw [← h]
      exact p6

/-! ## Monotonicity invariant (claim C7) -/

theorem monocalc_add_stop (c : Calc) (ty lo co : _) (du : ℕ) (s n : _)
    (h : MonoCalc c) : MonoCalc (add_stop c ty lo co du s n) := by
  obtain ⟨hchain, hall⟩ := h
  constructor
  · rw [add_stop_stops]
    apply List.Chain'.append hchain (List.chain'_singleton _)
    intro a ha b hb
    rw [List.head?_cons, Option.mem_some_iff] at hb
    subst hb
    have hmem : a ∈ c.stops := List.mem_of_mem_getLast? ha
    obtain ⟨_, hmiles, htime, hodo⟩ := hall a hmem
    constructor
    · rw [mk_stop_arrival]; exact htime
    · rw [mk_stop_miles, hmiles]
      exact pyround_mono 1 hodo
  · rw [add_stop_stops]
    intro st hst
    rcases List.mem_append.mp hst with hmem | hmem
    · obtain ⟨hdep, hmiles, htime, hodo⟩ := hall st hmem
      refine ⟨hdep, hmiles, ?_, ?_⟩
      · rw [add_stop_time]
        have : (0 : ℚ) ≤ (du : ℚ) / 60 := by positivity
        linarith
      · rw [add_stop_odo]; exact hodo
    · rw [List.mem_singleton.mp hmem]
      refine ⟨?_, ?_, ?_, ?_⟩
      · rw [mk_stop_departure, mk_stop_arrival]; rfl
      · rw [mk_stop_miles, mk_stop_g_odo]
      · rw [mk_stop_departure, add_stop_time]
      · rw [mk_stop_g_odo, add_stop_odo]

theorem monocalc_break_reset (c : Calc) (h : MonoCalc c) : MonoCalc (break_reset c) := by
  obtain ⟨hchain, hall⟩ := h
  exact ⟨hchain, fun st hst => hall st hst⟩

theorem monocalc_rest_reset (c : Calc) (h : MonoCalc c) : MonoCalc (rest_reset c) := by
  obtain ⟨hchain, hall⟩ := h
  exact ⟨hchain, fun st hst => hall st hst⟩

theorem monocalc_after_chunk (c : Calc) (rem : ℚ) (hd : 0 < drivable c rem)
    (h : MonoCalc c) : MonoCalc (after_chunk c rem) := by
  obtain ⟨hchain, hall⟩ := h
  refine ⟨hchain, fun st hst => ?_⟩
  obtain ⟨hdep, hmiles, htime, hodo⟩ := hall st hst
  refine ⟨hdep, hmiles, ?_, ?_⟩
  · rw [after_chunk_time]
    have : (0 : ℚ) ≤ drivable c rem / 55 := by positivity
    linarith
  · rw [after_chunk_odo]
    linarith

theorem monocalc_take_break (c : Calc) (ca g m : _) (h : MonoCalc c) :
    MonoCalc (take_break c ca g m) :=
  monocalc_break_reset _ (monocalc_add_stop c _ _ _ 30 _ _ h)

theorem monocalc_take_rest (c : Calc) (ca g m : _) (h : MonoCalc c) :
    MonoCalc (take_rest c ca g m) :=
  monocalc_add_stop _ _ _ _ 30 _ _
    (monocalc_rest_reset _ (monocalc_add_stop c _ _ _ 600 _ _ h))

theorem monocalc_take_fuel (c : Calc) (ca g m : _) (h : MonoCalc c) :
    MonoCalc (take_fuel_stop c ca g m) :=
  monocalc_add_stop c _ _ _ 30 _ _ h

theorem monocalc_iterate (ca : ℚ → ℚ × ℚ) (g : ℚ → ℚ → Option String) (dist sm : ℚ)
    (c : Calc) (rem : ℚ) (c' : Calc) (rem' : ℚ)
    (h : drive_iterate ca g dist sm c rem = .next c' rem') (hg : MonoCalc c) :
    MonoCalc c' := by
  by_cases h0 : 0 < rem
  · by_cases hd : drivable c rem ≤ 0
    · by_cases hr : 11 ≤ c.state.driving_hours_today
      · rw [iterate_zero_rest ca g dist sm c rem h0 hd hr] at h
        cases h
        exact monocalc_take_rest c ca g _ hg
      · by_cases hb : 8 ≤ c.state.hours_since_last_break
        · rw [iterate_zero_break ca g dist sm c rem h0 hd hr hb] at h
          cases h
          exact monocalc_take_break c ca g _ hg
        · rw [iterate_zero_spin ca g dist sm c rem h0 hd hr hb] at h
          cases h
          exact hg
    · push_neg at hd
      by_cases h1 : 0 < rem - drivable c rem
      · by_cases hrr : 11 ≤ (after_chunk c rem).state.driving_hours_today
        · rw [iterate_chunk_rest ca g dist sm c rem h0 (not_le.mpr hd) h1 hrr] at h
          cases h
          exact monocalc_take_rest _ ca g _ (monocalc_after_chunk c rem hd hg)
        · by_cases hbb : 8 ≤ (after_chunk c rem).state.hours_since_last_break
          · rw [iterate_chunk_break ca g dist sm c rem h0 (not_le.mpr hd) h1 hrr hbb] at h
            cases h
            exact monocalc_take_break _ ca g _ (monocalc_after_chunk c rem hd hg)
          · by_cases hf : needs_fuel (after_chunk c rem).state
            · rw [iterate_chunk_fuel ca g dist sm c rem h0 (not_le.mpr hd) h1 hrr hbb hf] at h
              cases h
              exact monocalc_take_fuel _ ca g _ (monocalc_after_chunk c rem hd hg)
            · rw [iterate_chunk_plain ca g dist sm c rem h0 (not_le.mpr hd) h1 hrr hbb hf] at h
              cases h
              exact monocalc_after_chunk c rem hd hg
      · rw [iterate_chunk_done ca g dist sm c rem h0 (not_le.mpr hd) h1] at h
        cases h
        exact monocalc_after_chunk c rem hd hg
  · rw [iterate_exit ca g dist sm c rem h0] at h
    cases h

/-! ## Claim C7: stop list monotonicity -/

/-- C7: in the planner's output, consecutive stops satisfy
`arrival (i+1) ≥ departure i` and `cumulative_miles (i+1) ≥ cumulative_miles i`,
and every stop's departure time equals its arrival time plus its duration. -/
theorem c7_stop_monotonicity (rd : RouteData) (l1 l2 l3 : Loc)
    (ca : ℚ → ℚ × ℚ) (g : ℚ → ℚ → Option String) (start seed : ℚ) (res : Calc)
    (h : calculate_trip (hos_init start seed) rd l1 l2 l3 ca g = some res) :
    List.Chain' stop_mono res.stops ∧
    ∀ st ∈ res.stops,
      st.departure_time = st.arrival_time + (st.duration_minutes : ℚ) / 60 := by
  have hres : MonoCalc res := by
    apply calculate_trip_preserves ca g ?_ ?_ (hos_init start seed) rd l1 l2 l3 res h
    · exact ⟨List.chain'_nil, by intro st hst; simp at hst⟩
    · intro c ty lo co du n _ hP
      exact monocalc_add_stop c ty lo co du _ n hP
    · intro dist sm c c' hseg hP
      exact drive_segment_preserves ca g dist sm
        (fun c rem c' rem' hit hg => monocalc_iterate ca g dist sm c rem c' rem' hit hg)
        c c' hseg hP
  exact ⟨hres.1, fun st hst => (hres.2 st hst).1⟩

/-! ## Rest-followed-by-pre-trip invariant (claim C6) -/

theorem RFP_nil : RFP [] := by
  intro i st hget
  simp at hget

theorem RFP_append_single {l : List Stop} {x : Stop} (h : RFP l)
    (hx : x.stype ≠ StopType.rest) : RFP (l ++ [x]) := by
  intro i st hget hrest
  by_cases hi : i < l.length
  · have hget' : l.get? i = some st := by
      rw [← hget]; exact (List.get?_append hi).symm
    obtain ⟨st2, h2, hpair⟩ := h i st hget' hrest
    have hi2 : i + 1 < l.length := (List.get?_eq_some.mp h2).1
    refine ⟨st2, ?_, hpair⟩
    rw [List.get?_append hi2]
    exact h2
  · push_neg at hi
    rw [List.get?_append_right hi] at hget
    rcases Nat.eq_or_lt_of_le hi with heq | hgt
    · rw [← heq, Nat.sub_self] at hget
      simp only [List.get?_cons_zero, Option.some.injEq] at hget
      rw [← hget] at hrest
      exact absurd hrest hx
    · have hge : 1 ≤ i - l.length := by omega
      rw [List.get?_eq_none.mpr (by simpa using hge)] at hget
      cases hget

theorem RFP_append_pair {l : List Stop} {a b : Stop} (h : RFP l)
    (hab : rest_pair a b) (hb : b.stype ≠ StopType.rest) : RFP (l ++ [a, b]) := by
  intro i st hget hrest
  by_cases hi : i < l.length
  · have hget' : l.get? i = some st := by
      rw [← hget]; exact (List.get?_append hi).symm
    obtain ⟨st2, h2, hpair⟩ := h i st hget' hrest
    have hi2 : i + 1 < l.length := (List.get?_eq_some.mp h2).1
    refine ⟨st2, ?_, hpair⟩
    rw [List.get?_append hi2]
    exact h2
  · push_neg at hi
    rw [List.get?_append_right hi] at hget
    rcases Nat.eq_or_lt_of_le hi with heq | hgt
    · rw [← heq, Nat.sub_self] at hget
      simp only [List.get?_cons_zero, Option.some.injEq] at hget
      refine ⟨b, ?_, ?_⟩
      · rw [List.get?_append_right (by omega)]
        have : i + 1 - l.length = 1 := by omega
        rw [this]
        rfl
      · rw [← hget]
        exact hab
    · rcases Nat.eq_or_lt_of_le hgt with heq2 | hgt2
      · have : i - l.length = 1 := by omega
        rw [this] at hget
        simp only [List.get?_cons_succ, List.get?_cons_zero, Option.some.injEq] at hget
        rw [← hget] at hrest
        exact absurd hrest hb
      · have hge : 2 ≤ i - l.length := by omega
        rw [List.get?_eq_none.mpr (by simpa using hge)] at hget
        cases hget

theorem rest_pair_take_rest (c : Calc) (ca : ℚ → ℚ × ℚ) (g : ℚ → ℚ → Option String)
    (m : ℚ) :
    rest_pair
      (mk_stop c .rest (stop_location ca g m) (ca m) 600 .off_duty
        "10-hour rest (11-hour driving limit)")
      (mk_stop (rest_reset (add_stop c .rest (stop_location ca g m) (ca m) 600 .off_duty
          "10-hour rest (11-hour driving limit)")) .pre_trip (stop_location ca g m)
        (ca m) 30 .on_duty "Pre-trip inspection") := by
  refine ⟨rfl, rfl, rfl, rfl, rfl, rfl, rfl, ?_, rfl, rfl, rfl, ?_⟩
  · rw [mk_stop_arrival, mk_stop_arrival, rest_reset_time, add_stop_time]
    norm_num
  · rw [mk_stop_g_cycle, mk_stop_g_cycle, rest_reset_cycle, add_stop_cycle_of_off]

theorem rfp_take_break (c : Calc) (ca g m : _) (h : RFP c.stops) :
    RFP (take_break c ca g m).stops := by
  rw [take_break_stops]
  exact RFP_append_single h (by rw [mk_stop_stype]; simp)

theorem rfp_take_fuel (c : Calc) (ca g m : _) (h : RFP c.stops) :
    RFP (take_fuel_stop c ca g m).stops := by
  rw [take_fuel_stops]
  exact RFP_append_single h (by rw [mk_stop_stype]; simp)

theorem rfp_take_rest (c : Calc) (ca g m : _) (h : RFP c.stops) :
    RFP (take_rest c ca g m).stops := by
  rw [take_rest_stops]
  exact RFP_append_pair h (rest_pair_take_rest c ca g m) (by rw [mk_stop_stype]; simp)

theorem rfp_iterate (ca : ℚ → ℚ × ℚ) (g : ℚ → ℚ → Option String) (dist sm : ℚ)
    (c : Calc) (rem : ℚ) (c' : Calc) (rem' : ℚ)
    (h : drive_iterate ca g dist sm c rem = .next c' rem') (hg : RFP c.stops) :
    RFP c'.stops := by
  by_cases h0 : 0 < rem
  · by_cases hd : drivable c rem ≤ 0
    · by_cases hr : 11 ≤ c.state.driving_hours_today
      · rw [iterate_zero_rest ca g dist sm c rem h0 hd hr] at h
        cases h
        exact rfp_take_rest c ca g _ hg
      · by_cases hb : 8 ≤ c.state.hours_since_last_break
        · rw [iterate_zero_break ca g dist sm c rem h0 hd hr hb] at h
          cases h
          exact rfp_take_break c ca g _ hg
        · rw [iterate_zero_spin ca g dist sm c rem h0 hd hr hb] at h
          cases h
          exact hg
    · push_neg at hd
      have hac : RFP (after_chunk c rem).stops := by rw [after_chunk_stops]; exact hg
      by_cases h1 : 0 < rem - drivable c rem
      · by_cases hrr : 11 ≤ (after_chunk c rem).state.driving_hours_today
        · rw [iterate_chunk_rest ca g dist sm c rem h0 (not_le.mpr hd) h1 hrr] at h
          cases h
          exact rfp_take_rest _ ca g _ hac
        · by_cases hbb : 8 ≤ (after_chunk c rem).state.hours_since_last_break
          · rw [iterate_chunk_break ca g dist sm c rem h0 (not_le.mpr hd) h1 hrr hbb] at h
            cases h
            exact rfp_take_break _ ca g _ hac
          · by_cases hf : needs_fuel (after_chunk c rem).state
            · rw [iterate_chunk_fuel ca g dist sm c rem h0 (not_le.mpr hd) h1 hrr hbb hf] at h
              cases h
              exact rfp_take_fuel _ ca g _ hac
            · rw [iterate_chunk_plain ca g dist sm c rem h0 (not_le.mpr hd) h1 hrr hbb hf] at h
              cases h
              exact hac
      · rw [iterate_chunk_done ca g dist sm c rem h0 (not_le.mpr hd) h1] at h
        cases h
        exact hac
  · rw [iterate_exit ca g dist sm c rem h0] at h
    cases h

/-! ## Claim C6: rest stops and their pre-trip successors -/

/-- C6: in the planner's output every rest stop lasts 10 hours (600 minutes)
off duty and is immediately followed by a pre-trip stop at the same
coordinates, 30 minutes long and on duty, whose boundary state records that
the rest reset the driving, on-duty and break counters to 0 while leaving the
cycle counter unchanged; moreover `_take_rest` as a whole leaves the state
with driving, on-duty and break counters reset and the cycle counter advanced
by exactly the pre-trip stop's half hour. -/
theorem c6_rest_pre_trip (rd : RouteData) (l1 l2 l3 : Loc)
    (ca : ℚ → ℚ × ℚ) (g : ℚ → ℚ → Option String) (start seed : ℚ) (res : Calc)
    (h : calculate_trip (hos_init start seed) rd l1 l2 l3 ca g = some res) :
    RFP res.stops ∧
    ∀ (c : Calc) (ca' : ℚ → ℚ × ℚ) (g' : ℚ → ℚ → Option String) (m : ℚ),
      (take_rest c ca' g' m).state.driving_hours_today = 0 ∧
      (take_rest c ca' g' m).state.on_duty_hours_today = 1/2 ∧
      (take_rest c ca' g' m).state.hours_since_last_break = 0 ∧
      (take_rest c ca' g' m).state.cycle_hours_used = c.state.cycle_hours_used + 1/2 ∧
      (take_rest c ca' g' m).state.current_miles = c.state.current_miles := by
  constructor
  · apply calculate_trip_preserves ca g ?_ ?_ (hos_init start seed) rd l1 l2 l3 res h
    · exact RFP_nil
    · intro c ty lo co du n hty hP
      rw [add_stop_stops]
      apply RFP_append_single hP
      rw [mk_stop_stype]
      rcases hty with rfl | rfl | rfl | rfl <;> simp
    · intro dist sm c c' hseg hP
      exact drive_segment_preserves ca g dist sm
        (fun c rem c' rem' hit hg => rfp_iterate ca g dist sm c rem c' rem' hit hg)
        c c' hseg hP
  · intro c ca' g' m
    exact ⟨take_rest_driving c ca' g' m, take_rest_on_duty c ca' g' m,
      take_rest_since c ca' g' m, take_rest_cycle c ca' g' m, take_rest_odo c ca' g' m⟩

/-! ## Claim C9: determinism of the pipeline -/

/-- C9: the pipeline is a pure function of its inputs — two runs on an equal
initial state, route data, locations, coordinate callback and geocoder
produce equal stop lists, log sheets and summaries. -/
theorem c9_determinism (c0 c0' : Calc) (rd rd' : RouteData)
    (l1 l1' l2 l2' l3 l3' : Loc) (ca ca' : ℚ → ℚ × ℚ)
    (g g' : ℚ → ℚ → Option String)
    (hc : c0 = c0') (hrd : rd = rd') (h1 : l1 = l1') (h2 : l2 = l2')
    (h3 : l3 = l3') (hca : ca = ca') (hg : g = g') :
    plan_pipeline c0 rd l1 l2 l3 ca g = plan_pipeline c0' rd' l1' l2' l3' ca' g' := by
  subst hc hrd h1 h2 h3 hca hg
  rfl

theorem c9_determinism_witness :
    plan_pipeline (hos_init 6 0) rd_small loc0 loc0 loc0 (fun _ => (0, 0)) (fun _ _ => none) =
      plan_pipeline (hos_init 6 0) rd_small loc0 loc0 loc0 (fun _ => (0, 0)) (fun _ _ => none) :=
  c9_determinism _ _ _ _ _ _ _ _ _ _ _ _ _ _ rfl rfl rfl rfl rfl rfl rfl

/-! ## Routing lemmas (claim C8) -/

theorem route_length_cons_cons (dist : (ℚ × ℚ) → (ℚ × ℚ) → ℚ) (p q : ℚ × ℚ)
    (rest : List (ℚ × ℚ)) :
    route_length dist (p :: q :: rest) = dist p q + route_length dist (q :: rest) := rfl

theorem route_length_nonneg (dist : (ℚ × ℚ) → (ℚ × ℚ) → ℚ)
    (hnn : ∀ a b, 0 ≤ dist a b) : ∀ l : List (ℚ × ℚ), 0 ≤ route_length dist l
  | [] => le_refl 0
  | [_] => le_refl 0
  | p :: q :: rest => by
    rw [route_length_cons_cons]
    have h1 := route_length_nonneg dist hnn (q :: rest)
    have h2 := hnn p q
    linarith

theorem cum_len_zero (dist : (ℚ × ℚ) → (ℚ × ℚ) → ℚ) (l : List (ℚ × ℚ)) :
    cum_len dist l 0 = 0 := by
  cases l with
  | nil => rfl
  | cons p rest => cases rest <;> rfl

theorem cum_len_cons_succ (dist : (ℚ × ℚ) → (ℚ × ℚ) → ℚ) (p q : ℚ × ℚ)
    (rest : List (ℚ × ℚ)) (i : ℕ) :
    cum_len dist (p :: q :: rest) (i + 1) = dist p q + cum_len dist (q :: rest) i := rfl

theorem cum_len_nonneg (dist : (ℚ × ℚ) → (ℚ × ℚ) → ℚ)
    (hnn : ∀ a b, 0 ≤ dist a b) : ∀ (l : List (ℚ × ℚ)) (i : ℕ), 0 ≤ cum_len dist l i
  | _, 0 => by rw [cum_len_zero]
  | p :: q :: rest, i + 1 => by
    rw [cum_len_cons_succ]
    have h1 := cum_len_nonneg dist hnn (q :: rest) i
    have h2 := hnn p q
    linarith
  | [], _ + 1 => le_refl 0
  | [_], _ + 1 => le_refl 0

theorem walk_route_nil (dist : (ℚ × ℚ) → (ℚ × ℚ) → ℚ) (p : ℚ × ℚ) (target cum : ℚ) :
    walk_route dist p [] target cum = some p := rfl

theorem walk_route_cons_hit (dist : (ℚ × ℚ) → (ℚ × ℚ) → ℚ) (p q : ℚ × ℚ)
    (rest : List (ℚ × ℚ)) (target cum : ℚ) (h : target ≤ cum + dist p q) :
    walk_route dist p (q :: rest) target cum =
      some (p.1 + seg_frac dist p q (target - cum) * (q.1 - p.1),
            p.2 + seg_frac dist p q (target - cum) * (q.2 - p.2)) := by
  unfold walk_route seg_frac
  rw [if_pos h]

theorem walk_route_cons_miss (dist : (ℚ × ℚ) → (ℚ × ℚ) → ℚ) (p q : ℚ × ℚ)
    (rest : List (ℚ × ℚ)) (target cum : ℚ) (h : ¬ target ≤ cum + dist p q) :
    walk_route dist p (q :: rest) target cum =
      walk_route dist q rest target (cum + dist p q) := by
  conv_lhs => unfold walk_route
  rw [if_neg h]

theorem walk_route_beyond (dist : (ℚ × ℚ) → (ℚ × ℚ) → ℚ)
    (hnn : ∀ a b, 0 ≤ dist a b) :
    ∀ (rest : List (ℚ × ℚ)) (p : ℚ × ℚ) (target cum : ℚ),
      cum + route_length dist (p :: rest) < target →
      walk_route dist p rest target cum = (p :: rest).getLast?
  | [], p, target, cum, _ => by rw [walk_route_nil]; rfl
  | q :: rest, p, target, cum, h => by
    rw [route_length_cons_cons] at h
    have hrl := route_length_nonneg dist hnn (q :: rest)
    have hmiss : ¬ target ≤ cum + dist p q := by linarith
    rw [walk_route_cons_miss dist p q rest target cum hmiss,
      walk_route_beyond dist hnn rest q target (cum + dist p q) (by linarith),
      List.getLast?_cons_cons]

theorem walk_route_interp (dist : (ℚ × ℚ) → (ℚ × ℚ) → ℚ)
    (hnn : ∀ a b, 0 ≤ dist a b) :
    ∀ (i : ℕ) (p : ℚ × ℚ) (rest : List (ℚ × ℚ)) (target base : ℚ) (pi pj : ℚ × ℚ),
      (p :: rest).get? i = some pi → (p :: rest).get? (i + 1) = some pj →
      base + cum_len dist (p :: rest) i < target →
      target ≤ base + cum_len dist (p :: rest) i + dist pi pj →
      walk_route dist p rest target base =
        some (pi.1 + seg_frac dist pi pj (target - (base + cum_len dist (p :: rest) i)) * (pj.1 - pi.1),
              pi.2 + seg_frac dist pi pj (target - (base + cum_len dist (p :: rest) i)) * (pj.2 - pi.2))
  | 0, p, rest, target, base, pi, pj, hget, hget', hlt, hle => by
    cases rest with
    | nil => cases hget'
    | cons q rest' =>
      simp only [List.get?_cons_zero, Option.some.injEq] at hget
      simp only [List.get?_cons_succ, List.get?_cons_zero, Option.some.injEq] at hget'
      subst hget hget'
      rw [cum_len_zero] at hlt hle ⊢
      rw [walk_route_cons_hit dist p q rest' target base (by linarith)]
      rw [add_zero]
  | i + 1, p, rest, target, base, pi, pj, hget, hget', hlt, hle => by
    cases rest with
    | nil => cases hget
    | cons q rest' =>
      simp only [List.get?_cons_succ] at hget hget'
      rw [cum_len_cons_succ] at hlt hle
      have hc := cum_len_nonneg dist hnn (q :: rest') i
      have hmiss : ¬ target ≤ base + dist p q := by linarith
      rw [walk_route_cons_miss dist p q rest' target base hmiss,
        walk_route_interp dist hnn i q rest' target (base + dist p q) pi pj hget hget'
          (by linarith) (by linarith), cum_len_cons_succ]
      norm_num [add_assoc]

/-! ## Claim C8: point-along-route interpolation -/

/-- C8: for a polyline with at least two points and a nonnegative segment
distance, `get_point_along_route` returns the first coordinate when the
target is at most `0`, the last coordinate when the target exceeds the total
polyline length, and otherwise the linear interpolation
`p_i + ratio * (p_j - p_i)` with `ratio = (target - cumulative) / segment`
inside the first segment whose cumulative length reaches the target. -/
theorem c8_point_along_route (dist : (ℚ × ℚ) → (ℚ × ℚ) → ℚ)
    (hnn : ∀ a b, 0 ≤ dist a b) (geometry : List (ℚ × ℚ))
    (hlen : 2 ≤ geometry.length) (target : ℚ) :
    (target ≤ 0 → get_point_along_route dist geometry target = geometry.head?) ∧
    (route_length dist geometry < target →
      get_point_along_route dist geometry target = geometry.getLast?) ∧
    (∀ (i : ℕ) (pi pj : ℚ × ℚ), geometry.get? i = some pi →
      geometry.get? (i + 1) = some pj →
      cum_len dist geometry i < target →
      target ≤ cum_len dist geometry i + dist pi pj →
      get_point_along_route dist geometry target =
        some (pi.1 + seg_frac dist pi pj (target - cum_len dist geometry i) * (pj.1 - pi.1),
              pi.2 + seg_frac dist pi pj (target - cum_len dist geometry i) * (pj.2 - pi.2))) := by
  cases geometry with
  | nil => simp at hlen
  | cons p rest =>
    have hred : get_point_along_route dist (p :: rest) target =
        if target ≤ 0 then some p else walk_route dist p rest target 0 := rfl
    refine ⟨?_, ?_, ?_⟩
    · intro h0
      rw [hred, if_pos h0]
      rfl
    · intro hbig
      have h0 : ¬ target ≤ 0 := by
        have := route_length_nonneg dist hnn (p :: rest)
        push_neg
        linarith
      rw [hred, if_neg h0]
      exact walk_route_beyond dist hnn rest p target 0 (by linarith)
    · intro i pi pj hget hget' hlt hle
      have hc := cum_len_nonneg dist hnn (p :: rest) i
      have h0 : ¬ target ≤ 0 := by push_neg; linarith
      rw [hred, if_neg h0]
      have := walk_route_interp dist hnn i p rest target 0 pi pj hget hget'
        (by linarith) (by linarith)
      rw [this]
      norm_num

theorem c8_point_witness :
    get_point_along_route (fun _ _ => (1 : ℚ)) [((0 : ℚ), (0 : ℚ)), (2, 0), (2, 4)] (3/2) =
      some (2, 2) := by
  have h := (c8_point_along_route (fun _ _ => 1) (fun _ _ => zero_le_one)
      [((0 : ℚ), (0 : ℚ)), (2, 0), (2, 4)] (by norm_num) (3/2)).2.2 1 (2, 0) (2, 4)
      rfl rfl (by norm_num [cum_len]) (by norm_num [cum_len])
  rw [h]
  norm_num [seg_frac, cum_len]

/-! ## Totality of the planner on nonnegative break clocks -/

theorem since_nonneg_iterate (ca : ℚ → ℚ × ℚ) (g : ℚ → ℚ → Option String)
    (dist sm : ℚ) (c : Calc) (rem : ℚ) (c' : Calc) (rem' : ℚ)
    (h : drive_iterate ca g dist sm c rem = .next c' rem')
    (hs : 0 ≤ c.state.hours_since_last_break) :
    0 ≤ c'.state.hours_since_last_break := by
  by_cases h0 : 0 < rem
  · by_cases hd : drivable c rem ≤ 0
    · by_cases hr : 11 ≤ c.state.driving_hours_today
      · rw [iterate_zero_rest ca g dist sm c rem h0 hd hr] at h
        cases h
        rw [take_rest_since]
      · by_cases hb : 8 ≤ c.state.hours_since_last_break
        · rw [iterate_zero_break ca g dist sm c rem h0 hd hr hb] at h
          cases h
          rw [take_break_since]
        · rw [iterate_zero_spin ca g dist sm c rem h0 hd hr hb] at h
          cases h
          exact hs
    · push_neg at hd
      have hac : 0 ≤ (after_chunk c rem).state.hours_since_last_break := by
        rw [after_chunk_since]
        have : 0 ≤ drivable c rem / 55 := by positivity
        linarith
      by_cases h1 : 0 < rem - drivable c rem
      · by_cases hrr : 11 ≤ (after_chunk c rem).state.driving_hours_today
        · rw [iterate_chunk_rest ca g dist sm c rem h0 (not_le.mpr hd) h1 hrr] at h
          cases h
          rw [take_rest_since]
        · by_cases hbb : 8 ≤ (after_chunk c rem).state.hours_since_last_break
          · rw [iterate_chunk_break ca g dist sm c rem h0 (not_le.mpr hd) h1 hrr hbb] at h
            cases h
            rw [take_break_since]
          · by_cases hf : needs_fuel (after_chunk c rem).state
            · rw [iterate_chunk_fuel ca g dist sm c rem h0 (not_le.mpr hd) h1 hrr hbb hf] at h
              cases h
              rw [take_fuel_since]
              exact hac
            · rw [iterate_chunk_plain ca g dist sm c rem h0 (not_le.mpr hd) h1 hrr hbb hf] at h
              cases h
              exact hac
      · rw [iterate_chunk_done ca g dist sm c rem h0 (not_le.mpr hd) h1] at h
        cases h
        exact hac
  · rw [iterate_exit ca g dist sm c rem h0] at h
    cases h

theorem drive_segment_isSome (ca : ℚ → ℚ × ℚ) (g : ℚ → ℚ → Option String)
    (dist sm : ℚ) (c : Calc) (hs : 0 ≤ c.state.hours_since_last_break) :
    (drive_segment ca g dist sm c).isSome := by
  unfold drive_segment
  exact drive_loop_isSome_of_phi ca g dist sm _ c dist hs (by omega)

theorem drive_segment_since (ca : ℚ → ℚ × ℚ) (g : ℚ → ℚ → Option String)
    (dist sm : ℚ) (c c' : Calc) (h : drive_segment ca g dist sm c = some c')
    (hs : 0 ≤ c.state.hours_since_last_break) :
    0 ≤ c'.state.hours_since_last_break :=
  drive_segment_preserves ca g dist sm
    (fun c rem c' rem' hit hp => since_nonneg_iterate ca g dist sm c rem c' rem' hit hp)
    c c' h hs

theorem calculate_trip_isSome (c0 : Calc) (rd : RouteData) (l1 l2 l3 : Loc)
    (ca : ℚ → ℚ × ℚ) (g : ℚ → ℚ → Option String)
    (hs : 0 ≤ c0.state.hours_since_last_break) :
    (calculate_trip c0 rd l1 l2 l3 ca g).isSome := by
  unfold calculate_trip
  simp only []
  have hs1 : 0 ≤ (add_stop { c0 with stops := [], stop_id := 0 } .start l1.display_name
      (l1.lat, l1.lng) 30 .on_duty "Pre-trip inspection").state.hours_since_last_break := by
    rw [add_stop_since]
    exact hs
  cases hm1 : drive_segment ca g rd.leg0_distance_miles 0
      (add_stop { c0 with stops := [], stop_id := 0 } .start l1.display_name
        (l1.lat, l1.lng) 30 .on_duty "Pre-trip inspection") with
  | none =>
    have h1 := drive_segment_isSome ca g rd.leg0_distance_miles 0 _ hs1
    rw [hm1] at h1
    cases h1
  | some c2 =>
    have hs2 : 0 ≤ (add_stop c2 .pickup l2.display_name (l2.lat, l2.lng) 60 .on_duty
        "Loading cargo").state.hours_since_last_break := by
      rw [add_stop_since]
      exact drive_segment_since ca g rd.leg0_distance_miles 0 _ c2 hm1 hs1
    simp only []
    cases hm2 : drive_segment ca g rd.leg1_distance_miles rd.leg0_distance_miles
        (add_stop c2 .pickup l2.display_name (l2.lat, l2.lng) 60 .on_duty "Loading cargo") with
    | none =>
      have h2 := drive_segment_isSome ca g rd.leg1_distance_miles rd.leg0_distance_miles _ hs2
      rw [hm2] at h2
      cases h2
    | some c3 => rfl

/-! ## Witnesses for the planner-side claims -/

theorem c1_boundary_witness :
    ∃ res, calculate_trip (hos_init 6 0) rd_small loc0 loc0 loc0
        (fun _ => (0, 0)) (fun _ _ => none) = some res ∧
      ∀ st ∈ res.stops, st.g_driving ≤ 11 ∧ st.g_on_duty ≤ 14 ∧ st.g_since_break ≤ 8 := by
  obtain ⟨res, hres⟩ := Option.isSome_iff_exists.mp
    (calculate_trip_isSome (hos_init 6 0) rd_small loc0 loc0 loc0
      (fun _ => (0, 0)) (fun _ _ => none) (by norm_num [hos_init]))
  exact ⟨res, hres, c1_amended_boundary_bounds rd_small loc0 loc0 loc0
    (fun _ => (0, 0)) (fun _ _ => none) 6 0 (by norm_num) (by norm_num) res hres⟩

theorem c6_rest_witness :
    ∃ res, calculate_trip (hos_init 6 0) rd_long loc0 loc0 loc0
        (fun _ => (0, 0)) (fun _ _ => none) = some res ∧ RFP res.stops := by
  obtain ⟨res, hres⟩ := Option.isSome_iff_exists.mp
    (calculate_trip_isSome (hos_init 6 0) rd_long loc0 loc0 loc0
      (fun _ => (0, 0)) (fun _ _ => none) (by norm_num [hos_init]))
  exact ⟨res, hres, (c6_rest_pre_trip rd_long loc0 loc0 loc0
    (fun _ => (0, 0)) (fun _ _ => none) 6 0 res hres).1⟩

theorem c7_mono_witness :
    ∃ res, calculate_trip (hos_init 8 0) rd_small loc0 loc0 loc0
        (fun _ => (0, 0)) (fun _ _ => none) = some res ∧ List.Chain' stop_mono res.stops := by
  obtain ⟨res, hres⟩ := Option.isSome_iff_exists.mp
    (calculate_trip_isSome (hos_init 8 0) rd_small loc0 loc0 loc0
      (fun _ => (0, 0)) (fun _ _ => none) (by norm_num [hos_init]))
  exact ⟨res, hres, (c7_stop_monotonicity rd_small loc0 loc0 loc0
    (fun _ => (0, 0)) (fun _ _ => none) 8 0 res hres).1⟩

theorem c10_termination_witness :
    (drive_segment (fun _ => ((0 : ℚ), (0 : ℚ))) (fun _ _ => none) 110 0
      (hos_init 6 0)).isSome = true :=
  (c10_drive_loop_terminates (fun _ => (0, 0)) (fun _ _ => none) 110 0
    (hos_init 6 0) 110 (by norm_num [hos_init])).1

theorem c4_fuel_witness :
    emitted_first
      { hos_init 6 0 with state := { (hos_init 6 0).state with current_miles := 900 } }
      (drive_iterate (fun _ => ((0 : ℚ), (0 : ℚ))) (fun _ _ => none) 200 0
        { hos_init 6 0 with state := { (hos_init 6 0).state with current_miles := 900 } }
        200) = some StopType.fuel := by
  have hfl : ⌊(900 : ℚ) / 1000⌋ = 0 := by
    rw [Int.floor_eq_iff] <;> norm_num
  exact (c4_fuel_emitted_when_cut_short (fun _ => (0, 0)) (fun _ _ => none) 200 0
    { hos_init 6 0 with state := { (hos_init 6 0).state with current_miles := 900 } } 200
    (by norm_num [hos_init])
    (by norm_num [hos_init, miles_until_fuel, miles_until_break, pymod, hfl])
    (by norm_num [hos_init, miles_until_fuel, miles_until_rest, pymod, hfl])
    (by norm_num [hos_init, miles_until_fuel, pymod, hfl])).2

theorem c5_priority_witness :
    emitted_first
      { hos_init 6 0 with state := { (hos_init 6 0).state with driving_hours_today := 11 } }
      (drive_iterate (fun _ => ((0 : ℚ), (0 : ℚ))) (fun _ _ => none) 10 0
        { hos_init 6 0 with state := { (hos_init 6 0).state with driving_hours_today := 11 } }
        10) = some StopType.rest := by
  have hfl : ⌊(0 : ℚ) / 1000⌋ = 0 := by norm_num
  exact (c5_tie_break_priority (fun _ => (0, 0)) (fun _ _ => none) 10 0
    { hos_init 6 0 with state := { (hos_init 6 0).state with driving_hours_today := 11 } }
    10).1 (by norm_num)
    (by norm_num [hos_init, drivable, miles_until_break, miles_until_rest, miles_until_fuel,
        pymod, hfl, min_def])
    (by norm_num [hos_init])

/-! ## Day-count and stop-count lemmas (claim C3) -/

theorem days_loop_length (events : List Event) (stops : List Stop) :
    ∀ (fuel : ℕ) (d cur : ℤ) (n : ℕ), (d + 1 - cur).toNat = fuel →
      (days_loop events stops d cur n).length = fuel := by
  intro fuel
  induction fuel with
  | zero =>
    intro d cur n h
    rw [days_loop, if_neg (by omega)]
    rfl
  | succ m ih =>
    intro d cur n h
    rw [days_loop, if_pos (by omega), List.length_cons,
      ih d (cur + 1) (n + 1) (by omega)]

theorem stype_filter_count (ty : StopType) :
    ∀ l : List Stop,
      (l.filter (fun s => s.stype = ty)).length = (l.map (fun s => s.stype)).count ty
  | [] => rfl
  | s :: rest => by
    by_cases h : s.stype = ty <;>
      simp [List.filter_cons, List.count_cons, h, stype_filter_count ty rest]

theorem generate_logs_length (stops : List Stop) (hne : stops ≠ []) (fe le : Event)
    (hmin : py_min_by_time (create_event_timeline stops) = some fe)
    (hmax : py_max_by_time (create_event_timeline stops) = some le) :
    (generate_logs stops).length = (⌊le.time / 24⌋ + 1 - ⌊fe.time / 24⌋).toNat := by
  cases stops with
  | nil => exact absurd rfl hne
  | cons a rest =>
    unfold generate_logs
    simp only []
    rw [hmin, hmax]
    simp only []
    exact days_loop_length _ _ _ _ _ _ rfl

/-! ## Claim C3: summary day count vs. log sheets, and stop counts -/

/-- C3 (amended): for a calculator whose stop list has a first stop `f` and a
last stop `l`, whose event timeline attains its minimum at `f`'s arrival and
its maximum at `l`'s departure, and whose last `day` field equals the
calendar-day difference between that departure and that arrival plus one —
in particular whenever the last departure does not cross midnight after the
day the `day` field was computed from — the summary's `total_days` equals the
number of generated log sheets, and the summary's `fuel_stops`,
`rest_breaks` and `rest_stops` equal the counts of `fuel`, `break` and
`rest` stops. -/
theorem c3_amended_summary_vs_logs (c : Calc) (total : ℚ) (f l : Stop) (fe le : Event)
    (hhead : c.stops.head? = some f) (hlast : c.stops.getLast? = some l)
    (hmin : py_min_by_time (create_event_timeline c.stops) = some fe)
    (hmax : py_max_by_time (create_event_timeline c.stops) = some le)
    (hfe : fe.time = f.arrival_time) (hle : le.time = l.departure_time)
    (hday : l.day = ⌊l.departure_time / 24⌋ - ⌊f.arrival_time / 24⌋ + 1)
    (hmono : ⌊f.arrival_time / 24⌋ ≤ ⌊l.departure_time / 24⌋) :
    (get_summary c total).total_days = ((generate_logs c.stops).length : ℤ) ∧
    (get_summary c total).fuel_stops = (c.stops.map (fun s => s.stype)).count .fuel ∧
    (get_summary c total).rest_breaks = (c.stops.map (fun s => s.stype)).count .brk ∧
    (get_summary c total).rest_stops = (c.stops.map (fun s => s.stype)).count .rest := by
  have hne : c.stops ≠ [] := by
    intro hn
    rw [hn] at hhead
    cases hhead
  have hlen := generate_logs_length c.stops hne fe le hmin hmax
  unfold get_summary
  simp only []
  rw [hhead, hlast]
  simp only []
  refine ⟨?_, ?_, ?_, ?_⟩
  · rw [hlen, hfe, hle, Int.toNat_of_nonneg (by omega)]
    rw [max_eq_right (by omega)]
    omega
  · exact stype_filter_count .fuel c.stops
  · exact stype_filter_count .brk c.stops
  · exact stype_filter_count .rest c.stops

theorem c3_amended_witness :
    (get_summary w3_calc 110).total_days = ((generate_logs w3_calc.stops).length : ℤ) := by
  have h1 : ⌊((6 : ℚ)) / 24⌋ = 0 := by norm_num [Int.floor_eq_iff]
  have h2 : ⌊((6 + 15/60 : ℚ)) / 24⌋ = 0 := by norm_num [Int.floor_eq_iff]
  exact (c3_amended_summary_vs_logs w3_calc 110 w3_stop w3_stop
    (arr_event w3_stop) (last_dep_event w3_stop)
    rfl rfl
    (by norm_num [w3_calc, w3_stop, create_event_timeline, timeline_events, sort_events,
      sinsert, py_min_by_time, arr_event, last_dep_event, plain_stop])
    (by norm_num [w3_calc, w3_stop, create_event_timeline, timeline_events, sort_events,
      sinsert, py_max_by_time, arr_event, last_dep_event, plain_stop])
    rfl rfl
    (by norm_num [w3_stop, plain_stop, h1, h2])
    (by norm_num [w3_stop, plain_stop, h1, h2])).1

theorem c3_day_crossing_counterexample :
    (get_summary cex3_calc 110).total_days = 1 ∧ (generate_logs cex3_stops).length = 2 := by
  have h1 : ⌊((23 + 50/60 : ℚ)) / 24⌋ = 0 := by norm_num [Int.floor_eq_iff]
  have h2 : ⌊((24 + 5/60 : ℚ)) / 24⌋ = 1 := by norm_num [Int.floor_eq_iff]
  constructor
  · norm_num [get_summary, cex3_calc, cex3_stops, plain_stop]
  · have hmin : py_min_by_time (create_event_timeline cex3_stops)
        = some (arr_event (plain_stop .stop_end (23 + 50/60) (24 + 5/60) 15 1)) := by
      norm_num [create_event_timeline, timeline_events, sort_events, sinsert,
        py_min_by_time, arr_event, last_dep_event, cex3_stops, plain_stop]
    have hmax : py_max_by_time (create_event_timeline cex3_stops)
        = some (last_dep_event (plain_stop .stop_end (23 + 50/60) (24 + 5/60) 15 1)) := by
      norm_num [create_event_timeline, timeline_events, sort_events, sinsert,
        py_max_by_time, arr_event, last_dep_event, cex3_stops, plain_stop]
    rw [generate_logs_length cex3_stops (by norm_num [cex3_stops]) _ _ hmin hmax]
    norm_num [arr_event, last_dep_event, plain_stop, h1, h2]
    rfl

/-! ## A single-chunk drive leg, and the C1 cycle counterexample -/

theorem drive_segment_one_chunk (ca : ℚ → ℚ × ℚ) (g : ℚ → ℚ → Option String)
    (sm : ℚ) (c : Calc) (rem : ℚ) (h0 : 0 < rem)
    (hmb : rem ≤ miles_until_break c.state)
    (hmr : rem ≤ miles_until_rest c.state)
    (hmf : rem ≤ miles_until_fuel c.state) :
    drive_segment ca g rem sm c = some (after_chunk c rem) := by
  have hdv : drivable c rem = rem := by
    rw [drivable, min_eq_left hmb, min_eq_left hmr, min_eq_left hmf]
  have hphi : phi_measure c rem = 0 := by
    have k1 : ⌈(rem - miles_until_rest c.state) / 605⌉ ≤ (0 : ℤ) := by
      rw [Int.ceil_le]
      push_cast
      exact div_nonpos_iff.mpr (Or.inr ⟨by linarith, by norm_num⟩)
    have k2 : ⌈(rem - miles_until_break c.state) / 440⌉ ≤ (0 : ℤ) := by
      rw [Int.ceil_le]
      push_cast
      exact div_nonpos_iff.mpr (Or.inr ⟨by linarith, by norm_num⟩)
    have k3 : ⌈(rem - miles_until_fuel c.state) / 1000⌉ ≤ (0 : ℤ) := by
      rw [Int.ceil_le]
      push_cast
      exact div_nonpos_iff.mpr (Or.inr ⟨by linarith, by norm_num⟩)
    rw [phi_measure]
    omega
  unfold drive_segment
  rw [hphi]
  show drive_loop ca g rem sm 2 c rem = some (after_chunk c rem)
  have hit1 := iterate_chunk_done ca g rem sm c rem h0
    (by rw [hdv]; exact not_le.mpr h0) (by rw [hdv]; norm_num)
  have hit2 : drive_iterate ca g rem sm (after_chunk c rem) (rem - drivable c rem)
      = .exit (after_chunk c rem) :=
    iterate_exit ca g rem sm (after_chunk c rem) (rem - drivable c rem)
      (by rw [hdv]; norm_num)
  simp only [drive_loop, hit1, hit2]

theorem c1_cycle_seed70_counterexample :
    ∃ res, calculate_trip (hos_init 6 70) rd_small loc0 loc0 loc0
        (fun _ => ((0 : ℚ), (0 : ℚ))) (fun _ _ => (none : Option String)) = some res ∧
      ∃ st ∈ res.stops, 70 < st.g_cycle := by
  have hfl55 : ⌊(55 : ℚ) / 1000⌋ = 0 := by rw [Int.floor_eq_iff] <;> norm_num
  have main : ∀ c0 : Calc,
      c0.state.hours_since_last_break = 0 → c0.state.driving_hours_today = 0 →
      c0.state.current_miles = 0 → c0.state.cycle_hours_used = 70 →
      ∃ res, calculate_trip c0 rd_small loc0 loc0 loc0
          (fun _ => ((0 : ℚ), (0 : ℚ))) (fun _ _ => (none : Option String)) = some res ∧
        ∃ st ∈ res.stops, 70 < st.g_cycle := by
    intro c0 hsb hdr hod hcy
    have hs1 : (add_stop { c0 with stops := [], stop_id := 0 } StopType.start
        loc0.display_name (loc0.lat, loc0.lng) 30 Status.on_duty
        "Pre-trip inspection").state.hours_since_last_break = 0 := by
      rw [add_stop_since]; exact hsb
    have hd1 : (add_stop { c0 with stops := [], stop_id := 0 } StopType.start
        loc0.display_name (loc0.lat, loc0.lng) 30 Status.on_duty
        "Pre-trip inspection").state.driving_hours_today = 0 := by
      rw [add_stop_driving]; exact hdr
    have ho1 : (add_stop { c0 with stops := [], stop_id := 0 } StopType.start
        loc0.display_name (loc0.lat, loc0.lng) 30 Status.on_duty
        "Pre-trip inspection").state.current_miles = 0 := by
      rw [add_stop_odo]; exact hod
    have hseg1 := drive_segment_one_chunk (fun _ => ((0 : ℚ), (0 : ℚ)))
      (fun _ _ => (none : Option String)) 0
      (add_stop { c0 with stops := [], stop_id := 0 } StopType.start
        loc0.display_name (loc0.lat, loc0.lng) 30 Status.on_duty "Pre-trip inspection")
      rd_small.leg0_distance_miles
      (by norm_num [rd_small])
      (by rw [miles_until_break, hs1]; norm_num [rd_small, le_max_iff])
      (by rw [miles_until_rest, hd1]; norm_num [rd_small, le_max_iff])
      (by rw [miles_until_fuel, ho1]; norm_num [rd_small, pymod])
    have hdv1 : drivable (add_stop { c0 with stops := [], stop_id := 0 } StopType.start
        loc0.display_name (loc0.lat, loc0.lng) 30 Status.on_duty "Pre-trip inspection")
        rd_small.leg0_distance_miles = rd_small.leg0_distance_miles := by
      rw [drivable, miles_until_break, miles_until_rest, miles_until_fuel, hs1, hd1, ho1]
      norm_num [rd_small, pymod, min_def]
    have hs2 : (add_stop (after_chunk (add_stop { c0 with stops := [], stop_id := 0 }
        StopType.start loc0.display_name (loc0.lat, loc0.lng) 30 Status.on_duty
        "Pre-trip inspection") rd_small.leg0_distance_miles) StopType.pickup
        loc0.display_name (loc0.lat, loc0.lng) 60 Status.on_duty
        "Loading cargo").state.hours_since_last_break = 1 := by
      rw [add_stop_since, after_chunk_since, hs1, hdv1]
      norm_num [rd_small]
    have hd2 : (add_stop (after_chunk (add_stop { c0 with stops := [], stop_id := 0 }
        StopType.start loc0.display_name (loc0.lat, loc0.lng) 30 Status.on_duty
        "Pre-trip inspection") rd_small.leg0_distance_miles) StopType.pickup
        loc0.display_name (loc0.lat, loc0.lng) 60 Status.on_duty
        "Loading cargo").state.driving_hours_today = 1 := by
      rw [add_stop_driving, after_chunk_driving, hd1, hdv1]
      norm_num [rd_small]
    have ho2 : (add_stop (after_chunk (add_stop { c0 with stops := [], stop_id := 0 }
        StopType.start loc0.display_name (loc0.lat, loc0.lng) 30 Status.on_duty
        "Pre-trip inspection") rd_small.leg0_distance_miles) StopType.pickup
        loc0.display_name (loc0.lat, loc0.lng) 60 Status.on_duty
        "Loading cargo").state.current_miles = 55 := by
      rw [add_stop_odo, after_chunk_odo, ho1, hdv1]
      norm_num [rd_small]
    have hseg2 := drive_segment_one_chunk (fun _ => ((0 : ℚ), (0 : ℚ)))
      (fun _ _ => (none : Option String)) rd_small.leg0_distance_miles
      (add_stop (after_chunk (add_stop { c0 with stops := [], stop_id := 0 }
        StopType.start loc0.display_name (loc0.lat, loc0.lng) 30 Status.on_duty
        "Pre-trip inspection") rd_small.leg0_distance_miles) StopType.pickup
        loc0.display_name (loc0.lat, loc0.lng) 60 Status.on_duty "Loading cargo")
      rd_small.leg1_distance_miles
      (by norm_num [rd_small])
      (by rw [miles_until_break, hs2]; norm_num [rd_small, le_max_iff])
      (by rw [miles_until_rest, hd2]; norm_num [rd_small, le_max_iff])
      (by rw [miles_until_fuel, ho2, pymod, hfl55]; norm_num [rd_small])
    refine ⟨add_stop (add_stop (after_chunk (add_stop (after_chunk
      (add_stop { c0 with stops := [], stop_id := 0 } StopType.start loc0.display_name
        (loc0.lat, loc0.lng) 30 Status.on_duty "Pre-trip inspection")
      rd_small.leg0_distance_miles) StopType.pickup loc0.display_name (loc0.lat, loc0.lng)
        60 Status.on_duty "Loading cargo") rd_small.leg1_distance_miles) StopType.dropoff
      loc0.display_name (loc0.lat, loc0.lng) 60 Status.on_duty "Unloading cargo")
      StopType.stop_end loc0.display_name (loc0.lat, loc0.lng) 15 Status.on_duty
      "Post-trip inspection", ?_, ?_⟩
    · unfold calculate_trip
      simp only []
      rw [hseg1]
      simp only []
      rw [hseg2]
    · refine ⟨mk_stop (after_chunk (add_stop { c0 with stops := [], stop_id := 0 }
        StopType.start loc0.display_name (loc0.lat, loc0.lng) 30 Status.on_duty
        "Pre-trip inspection") rd_small.leg0_distance_miles) StopType.pickup
        loc0.display_name (loc0.lat, loc0.lng) 60 Status.on_duty "Loading cargo", ?_, ?_⟩
      · simp [add_stop_stops, after_chunk_stops]
      · rw [mk_stop_g_cycle, after_chunk_cycle, hdv1, add_stop_cycle_of_on]
        simp only []
        rw [hcy]
        norm_num [rd_small]
  exact main (hos_init 6 70) rfl rfl rfl rfl

/-! ## Totals adjustment bound (claim C2) -/

theorem totals_sum_of_calculate (segments : List Seg) :
    |totals_sum (calculate_totals segments) - 24| ≤ 1/2 := by
  unfold calculate_totals
  simp only []
  generalize List.foldl add_seg_hours
    { off_duty := 0, sleeper := 0, driving := 0, on_duty := 0 } segments = t0
  obtain ⟨k1, h1⟩ := pyround_one_tenth t0.off_duty
  obtain ⟨k2, h2⟩ := pyround_one_tenth t0.sleeper
  obtain ⟨k3, h3⟩ := pyround_one_tenth t0.driving
  obtain ⟨k4, h4⟩ := pyround_one_tenth t0.on_duty
  rw [h1, h2, h3, h4]
  have hts : totals_sum { off_duty := (k1 : ℚ)/10, sleeper := (k2 : ℚ)/10, driving := (k3 : ℚ)/10, on_duty := (k4 : ℚ)/10 } = ((k1 : ℚ) + (k2 : ℚ) + (k3 : ℚ) + (k4 : ℚ))/10 := by
    simp only [totals_sum]
    ring
  by_cases hc : 1/2 < |totals_sum { off_duty := (k1 : ℚ)/10, sleeper := (k2 : ℚ)/10, driving := (k3 : ℚ)/10, on_duty := (k4 : ℚ)/10 } - 24|
  · rw [if_pos hc]
    cases hmk : totals_max_key { off_duty := (k1 : ℚ)/10, sleeper := (k2 : ℚ)/10, driving := (k3 : ℚ)/10, on_duty := (k4 : ℚ)/10 } with
    | off_duty =>
      simp only [hts]
      rw [show pyround ((k1 : ℚ)/10 + (24 - ((k1 : ℚ) + (k2 : ℚ) + (k3 : ℚ) + (k4 : ℚ))/10)) 1
          = (k1 : ℚ)/10 + (24 - ((k1 : ℚ) + (k2 : ℚ) + (k3 : ℚ) + (k4 : ℚ))/10) from
        pyround_one_of_tenth (240 - k2 - k3 - k4) (by push_cast; ring)]
      simp only [totals_sum]
      rw [abs_le]
      constructor <;> linarith
    | sleeper =>
      simp only [hts]
      rw [show pyround ((k2 : ℚ)/10 + (24 - ((k1 : ℚ) + (k2 : ℚ) + (k3 : ℚ) + (k4 : ℚ))/10)) 1
          = (k2 : ℚ)/10 + (24 - ((k1 : ℚ) + (k2 : ℚ) + (k3 : ℚ) + (k4 : ℚ))/10) from
        pyround_one_of_tenth (240 - k1 - k3 - k4) (by push_cast; ring)]
      simp only [totals_sum]
      rw [abs_le]
      constructor <;> linarith
    | driving =>
      simp only [hts]
      rw [show pyround ((k3 : ℚ)/10 + (24 - ((k1 : ℚ) + (k2 : ℚ) + (k3 : ℚ) + (k4 : ℚ))/10)) 1
          = (k3 : ℚ)/10 + (24 - ((k1 : ℚ) + (k2 : ℚ) + (k3 : ℚ) + (k4 : ℚ))/10) from
        pyround_one_of_tenth (240 - k1 - k2 - k4) (by push_cast; ring)]
      simp only [totals_sum]
      rw [abs_le]
      constructor <;> linarith
    | on_duty =>
      simp only [hts]
      rw [show pyround ((k4 : ℚ)/10 + (24 - ((k1 : ℚ) + (k2 : ℚ) + (k3 : ℚ) + (k4 : ℚ))/10)) 1
          = (k4 : ℚ)/10 + (24 - ((k1 : ℚ) + (k2 : ℚ) + (k3 : ℚ) + (k4 : ℚ))/10) from
        pyround_one_of_tenth (240 - k1 - k2 - k3) (by push_cast; ring)]
      simp only [totals_sum]
      rw [abs_le]
      constructor <;> linarith
  · rw [if_neg hc]
    exact not_lt.mp hc

/-! ## Segment-building bounds (claim C2) -/

theorem time_to_hours_nonneg (t : ℚ) : 0 ≤ time_to_hours t := by
  unfold time_to_hours
  simp only []
  have h1 : (⌊t / 24⌋ : ℚ) ≤ t / 24 := Int.floor_le _
  have h1' : 24 * (⌊t / 24⌋ : ℚ) ≤ 24 * (t / 24) := by linarith
  have he : 24 * (t / 24) = t := by ring
  have h2 : (0 : ℚ) ≤ t - 24 * (⌊t / 24⌋ : ℚ) := by linarith
  have h3 : (0 : ℤ) ≤ ⌊(t - 24 * (⌊t / 24⌋ : ℚ)) * 3600⌋ :=
    Int.floor_nonneg.mpr (by nlinarith)
  have h3' : (0 : ℚ) ≤ (⌊(t - 24 * (⌊t / 24⌋ : ℚ)) * 3600⌋ : ℚ) := by exact_mod_cast h3
  positivity

theorem time_to_hours_lt (t : ℚ) : time_to_hours t < 24 := by
  unfold time_to_hours
  simp only []
  have h1 : t / 24 < (⌊t / 24⌋ : ℚ) + 1 := Int.lt_floor_add_one _
  have h1' : 24 * (t / 24) < 24 * ((⌊t / 24⌋ : ℚ) + 1) := by linarith
  have he : 24 * (t / 24) = t := by ring
  have h2 : t - 24 * (⌊t / 24⌋ : ℚ) < 24 := by linarith
  have h3 : ⌊(t - 24 * (⌊t / 24⌋ : ℚ)) * 3600⌋ < 86400 := by
    rw [Int.floor_lt]
    push_cast
    nlinarith
  have h3' : (⌊(t - 24 * (⌊t / 24⌋ : ℚ)) * 3600⌋ : ℚ) ≤ 86399 := by
    have : ⌊(t - 24 * (⌊t / 24⌋ : ℚ)) * 3600⌋ ≤ 86399 := by omega
    exact_mod_cast this
  rw [div_lt_iff₀ (by norm_num : (0 : ℚ) < 3600)]
  linarith

theorem pyround_le_24 {x : ℚ} (d : ℕ) (h : x ≤ 24) : pyround x d ≤ 24 := by
  have h24 : pyround 24 d = 24 := pyround_eq_of_int (24 * 10 ^ d) (by push_cast; ring)
  calc pyround x d ≤ pyround 24 d := pyround_mono d h
    _ = 24 := h24

theorem build_segments_ok : ∀ (evs : List Event) (cur : ℚ) (st : Status) (lo : String),
    0 ≤ cur → cur ≤ 24 → ∀ s ∈ build_segments cur st lo evs, SegOK s
  | [], cur, st, lo, h0, h24 => by
    intro s hs
    unfold build_segments at hs
    by_cases hc : cur < 24
    · rw [if_pos hc] at hs
      simp only [List.mem_singleton] at hs
      subst hs
      exact ⟨pyround_nonneg 2 h0, pyround_le_24 2 h24, le_refl 24⟩
    · rw [if_neg hc] at hs
      cases hs
  | e :: rest, cur, st, lo, h0, h24 => by
    intro s hs
    unfold build_segments at hs
    simp only [] at hs
    rw [List.mem_append] at hs
    rcases hs with hs | hs
    · by_cases hc : cur + 1/1000 < time_to_hours e.time
      · rw [if_pos hc] at hs
        simp only [List.mem_singleton] at hs
        subst hs
        exact ⟨pyround_nonneg 2 h0, pyround_mono 2 (by linarith),
          pyround_le_24 2 (le_of_lt (time_to_hours_lt e.time))⟩
      · rw [if_neg hc] at hs
        cases hs
    · exact build_segments_ok rest (time_to_hours e.time) e.status e.location
        (time_to_hours_nonneg _) (le_of_lt (time_to_hours_lt _)) s hs

theorem build_segments_head_end :
    ∀ (evs : List Event) (cur : ℚ) (st : Status) (lo : String) (x : ℚ),
      x ≤ 24 → (∀ e ∈ evs, x ≤ time_to_hours e.time) →
      ∀ s ∈ (build_segments cur st lo evs).head?, pyround x 2 ≤ s.end_hour
  | [], cur, st, lo, x, hx, hall => by
    intro s hs
    unfold build_segments at hs
    by_cases hc : cur < 24
    · rw [if_pos hc] at hs
      rw [List.head?_cons, Option.mem_def, Option.some.injEq] at hs
      rw [← hs]
      exact pyround_le_24 2 hx
    · rw [if_neg hc] at hs
      cases hs
  | e :: rest, cur, st, lo, x, hx, hall => by
    intro s hs
    unfold build_segments at hs
    simp only [] at hs
    by_cases hc : cur + 1/1000 < time_to_hours e.time
    · rw [if_pos hc, List.singleton_append, List.head?_cons, Option.mem_def,
        Option.some.injEq] at hs
      rw [← hs]
      exact pyround_mono 2 (hall e (List.mem_cons_self e rest))
    · rw [if_neg hc, List.nil_append] at hs
      exact build_segments_head_end rest (time_to_hours e.time) e.status e.location x hx
        (fun e' he' => hall e' (List.mem_cons_of_mem _ he')) s hs

theorem build_segments_chain : ∀ (evs : List Event) (cur : ℚ) (st : Status) (lo : String),
    List.Pairwise (fun a b : Event => time_to_hours a.time ≤ time_to_hours b.time) evs →
    List.Chain' (fun a b : Seg => a.end_hour ≤ b.end_hour) (build_segments cur st lo evs)
  | [], cur, st, lo, hpw => by
    unfold build_segments
    by_cases hc : cur < 24
    · rw [if_pos hc]
      exact List.chain'_singleton _
    · rw [if_neg hc]
      exact List.chain'_nil
  | e :: rest, cur, st, lo, hpw => by
    unfold build_segments
    simp only []
    rw [List.pairwise_cons] at hpw
    obtain ⟨hall, hpw'⟩ := hpw
    have ih := build_segments_chain rest (time_to_hours e.time) e.status e.location hpw'
    by_cases hc : cur + 1/1000 < time_to_hours e.time
    · rw [if_pos hc, List.singleton_append, List.chain'_cons']
      refine ⟨?_, ih⟩
      intro b hb
      exact build_segments_head_end rest (time_to_hours e.time) e.status e.location
        (time_to_hours e.time) (le_of_lt (time_to_hours_lt _)) hall b hb
    · rw [if_neg hc, List.nil_append]
      exact ih

/-! ## Merge lemmas (claim C2) -/

theorem merge_go_ok : ∀ (l : List Seg) (cur : Seg), SegOK cur → (∀ s ∈ l, SegOK s) →
    List.Chain' (fun a b : Seg => a.end_hour ≤ b.end_hour) (cur :: l) →
    ∀ s ∈ merge_go cur l, SegOK s
  | [], cur, hcur, _, _ => by
    intro s hs
    unfold merge_go at hs
    simp only [List.mem_singleton] at hs
    subst hs
    exact hcur
  | t :: rest, cur, hcur, hl, hch => by
    intro s hs
    unfold merge_go at hs
    by_cases hst : t.status = cur.status
    · rw [if_pos hst] at hs
      simp only [] at hs
      have hct : cur.end_hour ≤ t.end_hour := (List.chain'_cons.mp hch).1
      obtain ⟨c1, c2, c3⟩ := hcur
      obtain ⟨t1, t2, t3⟩ := hl t (List.mem_cons_self t rest)
      refine merge_go_ok rest { cur with end_hour := t.end_hour, location := if t.location ≠ "" ∧ cur.location = "" then t.location else cur.location } ⟨c1, le_trans c2 hct, t3⟩
        (fun s' hs' => hl s' (List.mem_cons_of_mem _ hs')) ?_ s hs
      rw [List.chain'_cons']
      have htr := List.chain'_cons'.mp hch.tail
      exact ⟨fun b hb => htr.1 b hb, htr.2⟩
    · rw [if_neg hst] at hs
      rcases List.mem_cons.mp hs with heq | hmem
      · rw [heq]
        exact hcur
      · exact merge_go_ok rest t (hl t (List.mem_cons_self t rest))
          (fun s' hs' => hl s' (List.mem_cons_of_mem _ hs')) hch.tail s hmem

theorem merge_go_status : ∀ (l : List Seg) (cur : Seg),
    (∃ hd rest2, merge_go cur l = hd :: rest2 ∧ hd.status = cur.status) ∧
    List.Chain' (fun a b : Seg => a.status ≠ b.status) (merge_go cur l)
  | [], cur => by
    constructor
    · exact ⟨cur, [], rfl, rfl⟩
    · exact List.chain'_singleton cur
  | t :: rest, cur => by
    unfold merge_go
    by_cases hst : t.status = cur.status
    · rw [if_pos hst]
      simp only []
      obtain ⟨⟨hd, rest2, heq, hstat⟩, hch⟩ := merge_go_status rest { cur with end_hour := t.end_hour, location := if t.location ≠ "" ∧ cur.location = "" then t.location else cur.location }
      exact ⟨⟨hd, rest2, heq, hstat⟩, hch⟩
    · rw [if_neg hst]
      obtain ⟨⟨hd, rest2, heq, hstat⟩, hch⟩ := merge_go_status rest t
      constructor
      · exact ⟨cur, merge_go t rest, rfl, rfl⟩
      · rw [heq, List.chain'_cons]
        refine ⟨?_, heq ▸ hch⟩
        rw [hstat]
        exact fun hh => hst hh.symm

theorem merge_segments_ok (l : List Seg) (h : ∀ s ∈ l, SegOK s)
    (hch : List.Chain' (fun a b : Seg => a.end_hour ≤ b.end_hour) l) :
    ∀ s ∈ merge_segments l, SegOK s := by
  cases l with
  | nil => intro s hs; cases hs
  | cons a rest =>
    exact merge_go_ok rest a (h a (List.mem_cons_self a rest))
      (fun s' hs' => h s' (List.mem_cons_of_mem _ hs')) hch

theorem merge_segments_status (l : List Seg) :
    List.Chain' (fun a b : Seg => a.status ≠ b.status) (merge_segments l) := by
  cases l with
  | nil => exact List.chain'_nil
  | cons a rest => exact (merge_go_status rest a).2

/-! ## Normalization lemmas (claim C2) -/

theorem set_last_end_concat (init : List Seg) (last : Seg) (v : ℚ) :
    set_last_end (init ++ [last]) v = init ++ [{ last with end_hour := v }] := by
  unfold set_last_end
  rw [List.getLast?_concat]
  simp only []
  rw [List.dropLast_concat]

theorem set_last_end_length (l : List Seg) (v : ℚ) :
    (set_last_end l v).length = l.length := by
  rcases List.eq_nil_or_concat l with rfl | ⟨init, last, rfl⟩
  · rfl
  · rw [List.concat_eq_append, set_last_end_concat]
    simp

theorem set_last_end_statuses (l : List Seg) (v : ℚ) :
    (set_last_end l v).map (fun s => s.status) = l.map (fun s => s.status) := by
  rcases List.eq_nil_or_concat l with rfl | ⟨init, last, rfl⟩
  · rfl
  · rw [List.concat_eq_append, set_last_end_concat, List.map_append, List.map_append]
    rfl

theorem set_last_end_head_start (l : List Seg) (v : ℚ) :
    (set_last_end l v).head?.map (fun s => s.start_hour)
      = l.head?.map (fun s => s.start_hour) := by
  rcases List.eq_nil_or_concat l with rfl | ⟨init, last, rfl⟩
  · rfl
  · rw [List.concat_eq_append, set_last_end_concat]
    cases init with
    | nil => rfl
    | cons a t => rfl

theorem set_last_end_last_end (l : List Seg) (v : ℚ) :
    ∀ s ∈ (set_last_end l v).getLast?, s.end_hour = v := by
  rcases List.eq_nil_or_concat l with rfl | ⟨init, last, rfl⟩
  · intro s hs
    cases hs
  · rw [List.concat_eq_append, set_last_end_concat]
    intro s hs
    rw [List.getLast?_concat, Option.mem_def, Option.some.injEq] at hs
    rw [← hs]

theorem set_last_end_ok (l : List Seg) (v : ℚ) (hl : ∀ s ∈ l, SegOK s)
    (hv0 : 0 ≤ v) (hv24 : v ≤ 24) (hgap : ∀ prev ∈ l.getLast?, prev.start_hour ≤ v) :
    ∀ s ∈ set_last_end l v, SegOK s := by
  rcases List.eq_nil_or_concat l with rfl | ⟨init, last, rfl⟩
  · intro s hs
    cases hs
  · rw [List.concat_eq_append] at hl hgap
    rw [List.concat_eq_append, set_last_end_concat]
    intro s hs
    rw [List.mem_append] at hs
    rcases hs with hs | hs
    · exact hl s (List.mem_append_left _ hs)
    · simp only [List.mem_singleton] at hs
      subst hs
      obtain ⟨l1, l2, l3⟩ := hl last (List.mem_append_right _ (List.mem_singleton_self last))
      have hle : last.start_hour ≤ v := hgap last (by rw [List.getLast?_concat]; rfl)
      exact ⟨l1, hle, hv24⟩

theorem norm_loop_length : ∀ (l acc : List Seg),
    (norm_loop acc l).length = acc.length + l.length
  | [], acc => by simp [norm_loop]
  | seg :: rest, acc => by
    unfold norm_loop
    simp only []
    cases hgl : acc.getLast? with
    | none =>
      simp only []
      rw [norm_loop_length rest _, List.length_append]
      simp only [List.length_singleton, List.length_cons, List.length_nil]
      omega
    | some prev =>
      simp only []
      split_ifs with hcond
      · rw [norm_loop_length rest _, List.length_append, set_last_end_length]
        simp only [List.length_singleton, List.length_cons, List.length_nil]
        omega
      · rw [norm_loop_length rest _, List.length_append]
        simp only [List.length_singleton, List.length_cons, List.length_nil]
        omega

theorem norm_loop_ok : ∀ (l acc : List Seg), (∀ s ∈ acc, SegOK s) → (∀ s ∈ l, SegOK s) →
    ∀ s ∈ norm_loop acc l, SegOK s
  | [], acc, hacc, _ => hacc
  | seg :: rest, acc, hacc, hl => by
    have hseg := hl seg (List.mem_cons_self seg rest)
    have hrest : ∀ s ∈ rest, SegOK s := fun s hs => hl s (List.mem_cons_of_mem _ hs)
    have hrnd : SegOK { status := seg.status, start_hour := pyround seg.start_hour 1, end_hour := pyround seg.end_hour 1, location := seg.location, notes := seg.notes } :=
      ⟨pyround_nonneg 1 hseg.1, pyround_mono 1 (hseg.2.1), pyround_le_24 1 hseg.2.2⟩
    intro s hs
    unfold norm_loop at hs
    simp only [] at hs
    revert hs
    cases hgl : acc.getLast? with
    | none =>
      simp only []
      intro hs
      refine norm_loop_ok rest _ ?_ hrest s hs
      intro s' hs'
      rw [List.mem_append] at hs'
      rcases hs' with hs' | hs'
      · exact hacc s' hs'
      · simp only [List.mem_singleton] at hs'
        subst hs'
        exact hrnd
    | some prev =>
      simp only []
      split_ifs with hcond
      · intro hs
        refine norm_loop_ok rest _ ?_ hrest s hs
        intro s' hs'
        rw [List.mem_append] at hs'
        rcases hs' with hs' | hs'
        · refine set_last_end_ok acc seg.start_hour hacc hseg.1 (le_trans hseg.2.1 hseg.2.2) ?_ s' hs'
          intro p hp
          rw [Option.mem_def, hgl, Option.some.injEq] at hp
          subst hp
          obtain ⟨p1, p2, p3⟩ := hacc prev (List.mem_of_mem_getLast? hgl)
          linarith
        · simp only [List.mem_singleton] at hs'
          subst hs'
          exact hrnd
      · intro hs
        refine norm_loop_ok rest _ ?_ hrest s hs
        intro s' hs'
        rw [List.mem_append] at hs'
        rcases hs' with hs' | hs'
        · exact hacc s' hs'
        · simp only [List.mem_singleton] at hs'
          subst hs'
          exact hrnd

theorem norm_loop_statuses : ∀ (l acc : List Seg),
    (norm_loop acc l).map (fun s => s.status)
      = acc.map (fun s => s.status) ++ l.map (fun s => s.status)
  | [], acc => by simp [norm_loop]
  | seg :: rest, acc => by
    unfold norm_loop
    simp only []
    cases hgl : acc.getLast? with
    | none =>
      simp only []
      rw [norm_loop_statuses rest _, List.map_append]
      simp [List.append_assoc]
    | some prev =>
      simp only []
      split_ifs with hcond
      · rw [norm_loop_statuses rest _, List.map_append, set_last_end_statuses]
        simp [List.append_assoc]
      · rw [norm_loop_statuses rest _, List.map_append]
        simp [List.append_assoc]

theorem norm_loop_head_start : ∀ (l acc : List Seg), acc ≠ [] →
    (norm_loop acc l).head?.map (fun s => s.start_hour)
      = acc.head?.map (fun s => s.start_hour)
  | [], acc, _ => rfl
  | seg :: rest, acc, hne => by
    unfold norm_loop
    simp only []
    cases hgl : acc.getLast? with
    | none =>
      simp only []
      rw [norm_loop_head_start rest _ (by simp)]
      cases acc with
      | nil => exact absurd rfl hne
      | cons a t => rfl
    | some prev =>
      simp only []
      split_ifs with hcond
      · rw [norm_loop_head_start rest _ (by simp)]
        rcases List.eq_nil_or_concat acc with rfl | ⟨init, last, rfl⟩
        · exact absurd rfl hne
        · rw [List.concat_eq_append, set_last_end_concat]
          cases init with
          | nil => rfl
          | cons a t => rfl
      · rw [norm_loop_head_start rest _ (by simp)]
        cases acc with
        | nil => exact absurd rfl hne
        | cons a t => rfl

theorem normalize_capped_ok (C : List Seg) (hCok : ∀ s ∈ C, SegOK s)
    (hhead : ∀ s ∈ C.head?, s.start_hour = 0) (hne : C ≠ []) :
    set_last_end C 24 ≠ [] ∧
    (∀ s ∈ (set_last_end C 24).head?, s.start_hour = 0) ∧
    (∀ s ∈ (set_last_end C 24).getLast?, s.end_hour = 24) ∧
    (∀ s ∈ set_last_end C 24, SegOK s) := by
  refine ⟨?_, ?_, set_last_end_last_end C 24, ?_⟩
  · intro hcon
    have hl := set_last_end_length C 24
    rw [hcon] at hl
    cases C with
    | nil => exact hne rfl
    | cons c0 t => simp at hl
  · intro s hs
    have hh := set_last_end_head_start C 24
    rw [Option.mem_def] at hs
    rw [hs] at hh
    cases hC : C.head? with
    | none => rw [hC] at hh; simp at hh
    | some c0 =>
      rw [hC] at hh
      calc s.start_hour = c0.start_hour := by simpa using hh
        _ = 0 := hhead c0 (Option.mem_def.mpr hC)
  · refine set_last_end_ok C 24 hCok (by norm_num) (le_refl 24) ?_
    intro p hp
    obtain ⟨p1, p2, p3⟩ := hCok p (List.mem_of_mem_getLast? hp)
    linarith

theorem normalize_segments_ok (segs : List Seg) (h : ∀ s ∈ segs, SegOK s) :
    normalize_segments segs ≠ [] ∧
    (∀ s ∈ (normalize_segments segs).head?, s.start_hour = 0) ∧
    (∀ s ∈ (normalize_segments segs).getLast?, s.end_hour = 24) ∧
    (∀ s ∈ normalize_segments segs, SegOK s) := by
  cases segs with
  | nil =>
    have he : normalize_segments [] = [{ status := Status.off_duty, start_hour := 0, end_hour := 24, location := "", notes := "" }] := rfl
    rw [he]
    refine ⟨by simp, ?_, ?_, ?_⟩
    · intro s hs
      simp only [List.head?_cons, Option.mem_def, Option.some.injEq] at hs
      rw [← hs]
    · intro s hs
      simp only [List.getLast?_singleton, Option.mem_def, Option.some.injEq] at hs
      rw [← hs]
    · intro s hs
      simp only [List.mem_singleton] at hs
      subst hs
      exact ⟨le_refl 0, by norm_num, le_refl 24⟩
  | cons a rest =>
    have hN : ∀ s ∈ norm_loop [] (a :: rest), SegOK s :=
      norm_loop_ok (a :: rest) [] (by intro s hs; cases hs) h
    have hlen : (norm_loop [] (a :: rest)).length = rest.length + 1 := by
      rw [norm_loop_length]
      simp
    unfold normalize_segments
    simp only []
    cases hNL : norm_loop [] (a :: rest) with
    | nil =>
      rw [hNL] at hlen
      simp at hlen
    | cons n0 nrest =>
      rw [hNL] at hN
      simp only []
      have hn0 : SegOK n0 := hN n0 (List.mem_cons_self _ _)
      by_cases h0 : 0 < n0.start_hour
      · rw [if_pos h0]
        have hCok : ∀ s ∈ ({ n0 with start_hour := 0 } :: nrest), SegOK s := by
          intro s hs
          rcases List.mem_cons.mp hs with heq | hs
          · rw [heq]
            exact ⟨le_refl 0, le_trans hn0.1 hn0.2.1, hn0.2.2⟩
          · exact hN s (List.mem_cons_of_mem _ hs)
        have hheadC : ∀ s ∈ ({ n0 with start_hour := 0 } :: nrest).head?, s.start_hour = 0 := by
          intro s hs
          simp only [List.head?_cons, Option.mem_def, Option.some.injEq] at hs
          rw [← hs]
        cases hgl : ({ n0 with start_hour := 0 } :: nrest).getLast? with
        | none => simp at hgl
        | some last =>
          simp only []
          split_ifs with hlt
          · exact normalize_capped_ok _ hCok hheadC (by simp)
          · push_neg at hlt
            refine ⟨by simp, hheadC, ?_, hCok⟩
            intro s hs
            rw [Option.mem_def, hgl, Option.some.injEq] at hs
            subst hs
            obtain ⟨_, _, p3⟩ := hCok last (List.mem_of_mem_getLast? hgl)
            linarith
      · rw [if_neg h0]
        have hstart0 : n0.start_hour = 0 := le_antisymm (not_lt.mp h0) hn0.1
        have hCok : ∀ s ∈ (n0 :: nrest), SegOK s := hN
        have hheadC : ∀ s ∈ (n0 :: nrest).head?, s.start_hour = 0 := by
          intro s hs
          simp only [List.head?_cons, Option.mem_def, Option.some.injEq] at hs
          rw [← hs]
          exact hstart0
        cases hgl : (n0 :: nrest).getLast? with
        | none => simp at hgl
        | some last =>
          simp only []
          split_ifs with hlt
          · exact normalize_capped_ok _ hCok hheadC (by simp)
          · push_neg at hlt
            refine ⟨by simp, hheadC, ?_, hCok⟩
            intro s hs
            rw [Option.mem_def, hgl, Option.some.injEq] at hs
            subst hs
            obtain ⟨_, _, p3⟩ := hCok last (List.mem_of_mem_getLast? hgl)
            linarith

theorem normalize_segments_statuses (segs : List Seg) (hne : segs ≠ []) :
    (normalize_segments segs).map (fun s => s.status) = segs.map (fun s => s.status) := by
  cases segs with
  | nil => exact absurd rfl hne
  | cons a rest =>
    have hst := norm_loop_statuses (a :: rest) []
    rw [List.map_nil, List.nil_append] at hst
    have hlen : (norm_loop [] (a :: rest)).length = rest.length + 1 := by
      rw [norm_loop_length]
      simp
    unfold normalize_segments
    simp only []
    cases hNL : norm_loop [] (a :: rest) with
    | nil =>
      rw [hNL] at hlen
      simp at hlen
    | cons n0 nrest =>
      rw [hNL] at hst
      simp only []
      by_cases h0 : 0 < n0.start_hour
      · rw [if_pos h0]
        have hC : ({ n0 with start_hour := 0 } :: nrest).map (fun s => s.status)
            = (a :: rest).map (fun s => s.status) := by
          rw [← hst]
          rfl
        cases hgl : ({ n0 with start_hour := 0 } :: nrest).getLast? with
        | none => simp at hgl
        | some last =>
          simp only []
          split_ifs with hlt
          · rw [set_last_end_statuses]
            exact hC
          · exact hC
      · rw [if_neg h0]
        cases hgl : (n0 :: nrest).getLast? with
        | none => simp at hgl
        | some last =>
          simp only []
          split_ifs with hlt
          · rw [set_last_end_statuses]
            exact hst
          · exact hst

/-! ## Event ordering and per-day monotonicity (claim C2) -/

theorem mem_sinsert (e : Event) : ∀ (l : List Event) (x : Event),
    x ∈ sinsert e l ↔ x = e ∨ x ∈ l
  | [], x => by simp [sinsert]
  | a :: t, x => by
    unfold sinsert
    split_ifs with hc
    · simp [List.mem_cons]
    · rw [List.mem_cons, mem_sinsert e t x, List.mem_cons]
      tauto

theorem sinsert_pairwise (e : Event) : ∀ (l : List Event),
    List.Pairwise (fun a b : Event => a.time ≤ b.time) l →
    List.Pairwise (fun a b : Event => a.time ≤ b.time) (sinsert e l)
  | [], _ => by simp [sinsert]
  | a :: t, hp => by
    unfold sinsert
    rw [List.pairwise_cons] at hp
    obtain ⟨ha, ht⟩ := hp
    split_ifs with hc
    · rw [List.pairwise_cons]
      refine ⟨?_, ?_⟩
      · intro x hx
        rcases List.mem_cons.mp hx with heq | hx
        · rw [heq]
          exact hc
        · exact le_trans hc (ha x hx)
      · rw [List.pairwise_cons]
        exact ⟨ha, ht⟩
    · rw [List.pairwise_cons]
      push_neg at hc
      refine ⟨?_, sinsert_pairwise e t ht⟩
      intro x hx
      rcases (mem_sinsert e t x).mp hx with heq | hx
      · rw [heq]
        exact le_of_lt hc
      · exact ha x hx

theorem sort_events_pairwise (l : List Event) :
    List.Pairwise (fun a b : Event => a.time ≤ b.time) (sort_events l) := by
  unfold sort_events
  induction l with
  | nil => simp
  | cons a t ih =>
    rw [List.foldr_cons]
    exact sinsert_pairwise a _ ih

theorem time_to_hours_mono_day (d : ℤ) {t1 t2 : ℚ}
    (h1 : 24 * (d : ℚ) ≤ t1) (h2 : t1 ≤ t2) (h3 : t2 < 24 * (d : ℚ) + 24) :
    time_to_hours t1 ≤ time_to_hours t2 := by
  unfold time_to_hours
  simp only []
  have hf1 : ⌊t1 / 24⌋ = d := by
    rw [Int.floor_eq_iff]
    constructor
    · rw [le_div_iff₀ (by norm_num : (0 : ℚ) < 24)]
      linarith
    · rw [div_lt_iff₀ (by norm_num : (0 : ℚ) < 24)]
      push_cast
      linarith
  have hf2 : ⌊t2 / 24⌋ = d := by
    rw [Int.floor_eq_iff]
    constructor
    · rw [le_div_iff₀ (by norm_num : (0 : ℚ) < 24)]
      linarith
    · rw [div_lt_iff₀ (by norm_num : (0 : ℚ) < 24)]
      push_cast
      linarith
  rw [hf1, hf2]
  have hfl : ⌊(t1 - 24 * (d : ℚ)) * 3600⌋ ≤ ⌊(t2 - 24 * (d : ℚ)) * 3600⌋ :=
    Int.floor_le_floor (by nlinarith)
  rw [div_le_div_iff_of_pos_right (by norm_num : (0 : ℚ) < 3600)]
  exact_mod_cast hfl

theorem generate_day_segments_props (d : ℤ) (events : List Event) (day_num : ℕ)
    (hpw : List.Pairwise (fun a b : Event => a.time ≤ b.time) events) :
    generate_day_segments (24 * (d : ℚ)) (24 * (d : ℚ) + 24) events day_num ≠ [] ∧
    (∀ s ∈ (generate_day_segments (24 * (d : ℚ)) (24 * (d : ℚ) + 24) events day_num).head?,
      s.start_hour = 0) ∧
    (∀ s ∈ (generate_day_segments (24 * (d : ℚ)) (24 * (d : ℚ) + 24) events day_num).getLast?,
      s.end_hour = 24) ∧
    (∀ s ∈ generate_day_segments (24 * (d : ℚ)) (24 * (d : ℚ) + 24) events day_num, SegOK s) ∧
    List.Chain' (fun a b : Seg => a.status ≠ b.status)
      (generate_day_segments (24 * (d : ℚ)) (24 * (d : ℚ) + 24) events day_num) := by
  have hwin : ∀ e ∈ events.filter (fun e => 24 * (d : ℚ) ≤ e.time ∧ e.time < 24 * (d : ℚ) + 24),
      24 * (d : ℚ) ≤ e.time ∧ e.time < 24 * (d : ℚ) + 24 := by
    intro e he
    have h2 := (List.mem_filter.mp he).2
    simpa using h2
  have hpwf := hpw.filter (fun e => decide (24 * (d : ℚ) ≤ e.time ∧ e.time < 24 * (d : ℚ) + 24))
  have hpw2 : List.Pairwise (fun a b : Event => time_to_hours a.time ≤ time_to_hours b.time)
      (events.filter (fun e => 24 * (d : ℚ) ≤ e.time ∧ e.time < 24 * (d : ℚ) + 24)) :=
    List.Pairwise.imp_of_mem
      (fun ha hb hr => time_to_hours_mono_day d (hwin _ ha).1 hr (hwin _ hb).2) hpwf
  unfold generate_day_segments
  simp only []
  have hbOK := build_segments_ok
    (events.filter (fun e => 24 * (d : ℚ) ≤ e.time ∧ e.time < 24 * (d : ℚ) + 24)) 0
    (get_status_at_time (24 * (d : ℚ)) events day_num).1
    (get_status_at_time (24 * (d : ℚ)) events day_num).2 (le_refl 0) (by norm_num)
  have hbCh := build_segments_chain
    (events.filter (fun e => 24 * (d : ℚ) ≤ e.time ∧ e.time < 24 * (d : ℚ) + 24)) 0
    (get_status_at_time (24 * (d : ℚ)) events day_num).1
    (get_status_at_time (24 * (d : ℚ)) events day_num).2 hpw2
  have hmOK := merge_segments_ok _ hbOK hbCh
  have hnorm := normalize_segments_ok _ hmOK
  refine ⟨hnorm.1, hnorm.2.1, hnorm.2.2.1, hnorm.2.2.2, ?_⟩
  by_cases hme : merge_segments (build_segments 0
      (get_status_at_time (24 * (d : ℚ)) events day_num).1
      (get_status_at_time (24 * (d : ℚ)) events day_num).2
      (events.filter (fun e => 24 * (d : ℚ) ≤ e.time ∧ e.time < 24 * (d : ℚ) + 24))) = []
  · rw [hme]
    exact List.chain'_singleton _
  · have hsteq := normalize_segments_statuses _ hme
    rw [← List.chain'_map (fun s : Seg => s.status), hsteq, List.chain'_map]
    exact merge_segments_status _

/-! ## Claim C2: log-sheet segment invariants -/

theorem days_loop_mem (events : List Event) (stops : List Stop) :
    ∀ (fuel : ℕ) (d cur : ℤ) (n : ℕ), (d + 1 - cur).toNat = fuel →
      ∀ sheet ∈ days_loop events stops d cur n,
        ∃ (date : ℤ) (dn : ℕ), sheet = create_day_log date dn events stops := by
  intro fuel
  induction fuel with
  | zero =>
    intro d cur n h sheet hs
    rw [days_loop, if_neg (by omega)] at hs
    cases hs
  | succ m ih =>
    intro d cur n h sheet hs
    rw [days_loop, if_pos (by omega)] at hs
    rcases List.mem_cons.mp hs with heq | hs
    · exact ⟨cur, n, heq⟩
    · exact ih d (cur + 1) (n + 1) (by omega) sheet hs

theorem generate_logs_mem (stops : List Stop) (sheet : Sheet)
    (hs : sheet ∈ generate_logs stops) :
    ∃ (date : ℤ) (dn : ℕ), sheet = create_day_log date dn (create_event_timeline stops) stops := by
  cases stops with
  | nil => cases hs
  | cons a rest =>
    unfold generate_logs at hs
    simp only [] at hs
    cases hmin : py_min_by_time (create_event_timeline (a :: rest)) with
    | none =>
      rw [hmin] at hs
      simp only [] at hs
      cases hs
    | some fe =>
      rw [hmin] at hs
      cases hmax : py_max_by_time (create_event_timeline (a :: rest)) with
      | none =>
        rw [hmax] at hs
        simp only [] at hs
        cases hs
      | some le =>
        rw [hmax] at hs
        simp only [] at hs
        exact days_loop_mem _ _ _ _ _ _ rfl sheet hs

/-- C2 (amended): every log sheet generated from a stop list has a non-empty
segment list that starts at hour 0, ends at hour 24, keeps every segment
inside `[0, 24]` with `start_hour ≤ end_hour` (equality is possible after the
one-decimal rounding), never repeats a duty status across adjacent segments,
and has per-status totals summing to 24 within one half hour. -/
theorem c2_amended_sheet_invariants (stops : List Stop) (sheet : Sheet)
    (hmem : sheet ∈ generate_logs stops) :
    sheet.segments ≠ [] ∧
    (∀ s ∈ sheet.segments.head?, s.start_hour = 0) ∧
    (∀ s ∈ sheet.segments.getLast?, s.end_hour = 24) ∧
    (∀ s ∈ sheet.segments, SegOK s) ∧
    List.Chain' (fun a b : Seg => a.status ≠ b.status) sheet.segments ∧
    |totals_sum sheet.totals - 24| ≤ 1/2 := by
  obtain ⟨date, dn, rfl⟩ := generate_logs_mem stops sheet hmem
  have hseg : (create_day_log date dn (create_event_timeline stops) stops).segments
      = generate_day_segments (24 * (date : ℚ)) (24 * (date : ℚ) + 24)
          (create_event_timeline stops) dn := rfl
  have htot : (create_day_log date dn (create_event_timeline stops) stops).totals
      = calculate_totals (generate_day_segments (24 * (date : ℚ)) (24 * (date : ℚ) + 24)
          (create_event_timeline stops) dn) := rfl
  rw [hseg, htot]
  have hpw : List.Pairwise (fun a b : Event => a.time ≤ b.time)
      (create_event_timeline stops) := by
    unfold create_event_timeline
    exact sort_events_pairwise _
  have h := generate_day_segments_props date (create_event_timeline stops) dn hpw
  exact ⟨h.1, h.2.1, h.2.2.1, h.2.2.2.1, h.2.2.2.2, totals_sum_of_calculate _⟩

theorem c2_amended_witness :
    ∃ sheet ∈ generate_logs [w3_stop],
      sheet.segments ≠ [] ∧ (∀ s ∈ sheet.segments.head?, s.start_hour = 0) ∧
      (∀ s ∈ sheet.segments.getLast?, s.end_hour = 24) ∧
      |totals_sum sheet.totals - 24| ≤ 1/2 := by
  have h1 : ⌊((6 : ℚ)) / 24⌋ = 0 := by rw [Int.floor_eq_iff] <;> norm_num
  have h2 : ⌊((6 + 15/60 : ℚ)) / 24⌋ = 0 := by rw [Int.floor_eq_iff] <;> norm_num
  have hmin : py_min_by_time (create_event_timeline [w3_stop])
      = some (arr_event w3_stop) := by
    norm_num [w3_stop, create_event_timeline, timeline_events, sort_events, sinsert,
      py_min_by_time, arr_event, last_dep_event, plain_stop]
  have hmax : py_max_by_time (create_event_timeline [w3_stop])
      = some (last_dep_event w3_stop) := by
    norm_num [w3_stop, create_event_timeline, timeline_events, sort_events, sinsert,
      py_max_by_time, arr_event, last_dep_event, plain_stop]
  have hlen : (generate_logs [w3_stop]).length = 1 := by
    rw [generate_logs_length [w3_stop] (by simp) _ _ hmin hmax]
    norm_num [arr_event, last_dep_event, w3_stop, plain_stop, h1, h2]
  obtain ⟨sheet, rest2, heq⟩ : ∃ sheet rest2, generate_logs [w3_stop] = sheet :: rest2 := by
    cases hg : generate_logs [w3_stop] with
    | nil => rw [hg] at hlen; cases hlen
    | cons s r => exact ⟨s, r, rfl⟩
  have hmem : sheet ∈ generate_logs [w3_stop] := by
    rw [heq]
    exact List.mem_cons_self _ _
  have h := c2_amended_sheet_invariants [w3_stop] sheet hmem
  exact ⟨sheet, hmem, h.1, h.2.1, h.2.2.1, h.2.2.2.2.2⟩

theorem c2_zero_length_counterexample :
    ∃ sheet ∈ generate_logs cex2_stops, ∃ s ∈ sheet.segments,
      ¬ s.start_hour < s.end_hour := by
  have htt1 : time_to_hours (49/15 : ℚ) = 49/15 :=
    time_to_hours_of_int 11760 (by norm_num) (by norm_num) (by norm_num)
  have htt2 : time_to_hours (33/10 : ℚ) = 33/10 :=
    time_to_hours_of_int 11880 (by norm_num) (by norm_num) (by norm_num)
  have hp02 : pyround (0 : ℚ) 2 = 0 := pyround_eq_of_int 0 (by norm_num)
  have hp01 : pyround (0 : ℚ) 1 = 0 := pyround_eq_of_int 0 (by norm_num)
  have hp330 : pyround (33/10 : ℚ) 2 = 33/10 := pyround_eq_of_int 330 (by norm_num)
  have hp33 : pyround (33/10 : ℚ) 1 = 33/10 := pyround_eq_of_int 33 (by norm_num)
  have hp24 : pyround (24 : ℚ) 1 = 24 := pyround_eq_of_int 240 (by norm_num)
  have hr2 : round_half_even ((49/15 : ℚ) * (10 : ℚ) ^ (2 : ℕ)) = 327 :=
    round_half_even_of_gt
      (show ⌊(49/15 : ℚ) * (10 : ℚ) ^ (2 : ℕ)⌋ = 326 by norm_num [Int.floor_eq_iff])
      (by push_cast; norm_num) (by push_cast; norm_num)
  have hpa2 : pyround (49/15 : ℚ) 2 = 327/100 := by
    rw [pyround_eq 327 hr2]
    norm_num
  have hr1 : round_half_even ((327/100 : ℚ) * (10 : ℚ) ^ (1 : ℕ)) = 33 :=
    round_half_even_of_gt
      (show ⌊(327/100 : ℚ) * (10 : ℚ) ^ (1 : ℕ)⌋ = 32 by norm_num [Int.floor_eq_iff])
      (by push_cast; norm_num) (by push_cast; norm_num)
  have hpa1 : pyround (327/100 : ℚ) 1 = 33/10 := by
    rw [pyround_eq 33 hr1]
    norm_num
  have hS1 : Status.on_duty ≠ Status.off_duty := by decide
  have hS2 : Status.off_duty ≠ Status.on_duty := by decide
  have hT1 : StopType.pickup ≠ StopType.rest := by decide
  have hT2 : StopType.pickup ≠ StopType.brk := by decide
  have hStr : "A" ≠ "" := by decide
  have hev : create_event_timeline cex2_stops
      = [{ time := 49/15, status := Status.on_duty, location := "A", notes := "n", etype := "stop_start", stop_type := "pickup" },
         { time := 33/10, status := Status.off_duty, location := "A", notes := "Trip complete", etype := "trip_end", stop_type := "end" }] := by
    norm_num [create_event_timeline, timeline_events, sort_events, sinsert,
      arr_event, last_dep_event, cex2_stops, plain_stop, stop_type_str, hS1, hS2, hT1, hT2, hStr]
  have hmin : py_min_by_time (create_event_timeline cex2_stops)
      = some { time := 49/15, status := Status.on_duty, location := "A", notes := "n", etype := "stop_start", stop_type := "pickup" } := by
    rw [hev]
    norm_num [py_min_by_time]
  have hmax : py_max_by_time (create_event_timeline cex2_stops)
      = some { time := 33/10, status := Status.off_duty, location := "A", notes := "Trip complete", etype := "trip_end", stop_type := "end" } := by
    rw [hev]
    norm_num [py_max_by_time]
  have hfl_a : ⌊(49/15 : ℚ) / 24⌋ = 0 := by norm_num [Int.floor_eq_iff]
  have hfl_d : ⌊(33/10 : ℚ) / 24⌋ = 0 := by norm_num [Int.floor_eq_iff]
  have hstops : cex2_stops = plain_stop .pickup (3 + 16/60) (3 + 18/60) 2 1 :: [] := rfl
  have hglog : generate_logs cex2_stops
      = [create_day_log 0 1 (create_event_timeline cex2_stops) cex2_stops] := by
    conv_lhs => rw [hstops]
    unfold generate_logs
    simp only []
    rw [← hstops, hmin, hmax]
    simp only []
    rw [hfl_a, hfl_d, days_loop, if_pos (by norm_num), days_loop, if_neg (by norm_num)]
  have hsegs : (create_day_log 0 1 (create_event_timeline cex2_stops) cex2_stops).segments
      = [{ status := Status.off_duty, start_hour := 0, end_hour := 33/10, location := "", notes := "" },
         { status := Status.on_duty, start_hour := 33/10, end_hour := 33/10, location := "A", notes := "" },
         { status := Status.off_duty, start_hour := 33/10, end_hour := 24, location := "A", notes := "" }] := by
    show generate_day_segments (24 * ((0 : ℤ) : ℚ)) (24 * ((0 : ℤ) : ℚ) + 24)
      (create_event_timeline cex2_stops) 1 = _
    rw [hev]
    norm_num [generate_day_segments, get_status_at_time, build_segments, merge_segments,
      merge_go, normalize_segments, norm_loop, hS1, hS2, hT1, hT2, hStr,
      htt1, htt2, hp02, hp01, hp330, hp33, hp24, hpa2, hpa1]
  refine ⟨create_day_log 0 1 (create_event_timeline cex2_stops) cex2_stops, ?_, ?_⟩
  · rw [hglog]
    exact List.mem_cons_self _ _
  · rw [hsegs]
    refine ⟨{ status := Status.on_duty, start_hour := 33/10, end_hour := 33/10, location := "A", notes := "" }, ?_, ?_⟩
    · simp
    · norm_num
